import Mathlib

/-!
# SimplePracticalAstronomy: calendar / Julian Date arithmetic

A shallow embedding of the time-related part of the `SPA` C++ library
(`DateAndTime`, `JulianDate`, `TimeDifference`, `TIME_UTIL`) together with
theorems about it.

Modelling conventions.

* A C++ `double` is modelled by a rational number (`ℚ`), in two ways.  The
  definitions named after the source (`DateAndTime.getDayFraction`,
  `JulianDate.convertDateAndTimeToJulianDate`, ...) compute in exact
  arithmetic, with all literals of the source (`365.25`, `30.6`,
  `1720994.5`, ...) kept as written: a theorem about them is a statement
  about the code in exact arithmetic.  The definitions of the namespace
  `Binary64` embed the functions whose branches, integer results or strict
  bounds depend on rounding, with every `double` operation and every literal
  rounded to the nearest binary64 number, ties to even (`Binary64.round`): a
  theorem about them is a statement about the code as it computes.
* A C++ `int` is modelled by an unbounded integer (`ℤ`); signed overflow is
  undefined behaviour in C++ and is outside the model.
* `int(x)` applied to a `double` and `std::trunc` truncate toward zero
  (`toInt`, `trunc`); `std::floor` is `Int.floor`.
* `/` and `%` on two `int`s are the truncating `Int.tdiv` and `Int.tmod`.
* Output reference parameters become components of the returned tuple.
-/

namespace SPA

/-! ## SpaTimeConstants.h -/

def SPA_HOURS_IN_DAY : ℤ := 24

def SPA_MINUTES_IN_HOUR : ℤ := 60

def SPA_SECONDS_IN_MINUTE : ℤ := 60

def SPA_SECONDS_IN_HOUR : ℤ := SPA_SECONDS_IN_MINUTE * SPA_MINUTES_IN_HOUR

def SPA_SECONDS_IN_DAY : ℤ := SPA_SECONDS_IN_HOUR * SPA_HOURS_IN_DAY

def SPA_MINUTES_IN_DAY : ℤ := SPA_MINUTES_IN_HOUR * SPA_HOURS_IN_DAY

def SPA_YEARS_IN_CENTURY : ℤ := 100

def SPA_DAYS_IN_NONLEAP_YEAR : ℤ := 365

def SPA_DAYS_IN_JULIAN_YEAR : ℚ := 365.25

def SPA_DAYS_IN_GREGORIAN_YEAR : ℚ := 365.2425

def SPA_DAYS_IN_GREGORIAN_CENTURY : ℚ := SPA_DAYS_IN_GREGORIAN_YEAR * SPA_YEARS_IN_CENTURY

def SPA_MJD_EPOCH : ℚ := 2400000.5

def SPA_LAST_DAY_OF_JULIAN_CALENDAR : ℚ := 2299160

def SPA_JULIAN_CONVERSION_CONVERSION_CONST : ℚ := 1867216.25

def SPA_AVG_DAYS_PER_MONTH : ℚ := 30.6

/-- The table `SPA_DAYSTART_LEAPYEAR`: days to the beginning of each month in a
leap year, indexed from 0. -/
def SPA_DAYSTART_LEAPYEAR : List ℤ := [0, 31, 60, 91, 121, 152, 182, 213, 244, 274, 305, 335]

/-- The enumerator `FEB` of `enum Months` (`JAN = 1`). -/
def FEB : ℤ := 2

/-- The enumerator `MAR` of `enum Months`. -/
def MAR : ℤ := 3

/-- The enumeration `WeekDays`, starting at 0 with Sunday. -/
inductive WeekDays where
  | SUN
  | MON
  | TUE
  | WED
  | THU
  | FRI
  | SAT
  deriving DecidableEq

/-- The integer value of a `WeekDays` enumerator (`static_cast<int>`). -/
def WeekDays.val : WeekDays → ℤ
  | .SUN => 0
  | .MON => 1
  | .TUE => 2
  | .WED => 3
  | .THU => 4
  | .FRI => 5
  | .SAT => 6

/-! ## Conversions between `double` and `int` -/

/-- The C++ conversion `int(x)` of a `double`: truncation toward zero. -/
def toInt (x : ℚ) : ℤ := if 0 ≤ x then ⌊x⌋ else ⌈x⌉

/-- The function `std::trunc`: truncation toward zero, result again a `double`. -/
def trunc (x : ℚ) : ℚ := (toInt x : ℚ)

/-! ## TimeUtilities.cc -/

namespace TIME_UTIL

/-- Embeds `integerAndFraction` in exact arithmetic: returns
`(anIntegerPart, aFractionalPart)`. -/
def integerAndFraction (aRealNumber : ℚ) : ℚ × ℚ :=
  let anIntegerPart : ℚ := (⌊aRealNumber⌋ : ℚ)
  let aFractionalPart : ℚ := aRealNumber - anIntegerPart
  (anIntegerPart, aFractionalPart)

/-- Embeds `quotientAndRemainder`: returns `(aQuotient, aRemainder)`. -/
def quotientAndRemainder (aDividend aDivisor : ℤ) : ℤ × ℤ :=
  let aQuotient : ℤ := aDividend.tdiv aDivisor
  let aRemainder : ℤ := aDividend.tmod aDivisor
  (aQuotient, aRemainder)

/-- Embeds `calculateEaster`: returns `(aMonth, aDay)`. -/
def calculateEaster (aYear : ℤ) : ℤ × ℤ :=
  let YEAR_DIVISOR : ℤ := 19
  let YEARS_IN_CENTURY : ℤ := 100
  let a_const : ℤ := (quotientAndRemainder aYear YEAR_DIVISOR).2
  let b_const : ℤ := (quotientAndRemainder aYear YEARS_IN_CENTURY).1
  let c_const : ℤ := (quotientAndRemainder aYear YEARS_IN_CENTURY).2
  let d_const : ℤ := (quotientAndRemainder b_const 4).1
  let e_const : ℤ := (quotientAndRemainder b_const 4).2
  let step4_input : ℤ := b_const + 8
  let f_const : ℤ := (quotientAndRemainder step4_input 25).1
  let step5_input : ℤ := b_const - f_const + 1
  let g_const : ℤ := (quotientAndRemainder step5_input 3).1
  let step6_input : ℤ := (19 * a_const) + b_const - d_const - g_const + 15
  let h_const : ℤ := (quotientAndRemainder step6_input 30).2
  let i_const : ℤ := (quotientAndRemainder c_const 4).1
  let k_const : ℤ := (quotientAndRemainder c_const 4).2
  let step8_input : ℤ := 32 + 2 * (e_const + i_const) - h_const - k_const
  let l_const : ℤ := (quotientAndRemainder step8_input 7).2
  let step9_input : ℤ := a_const + (11 * h_const) + (22 * l_const)
  let m_const : ℤ := (quotientAndRemainder step9_input 451).1
  let step10_input : ℤ := h_const + l_const - (7 * m_const) + 114
  let n_const : ℤ := (quotientAndRemainder step10_input 31).1
  let p_const : ℤ := (quotientAndRemainder step10_input 31).2
  let aMonth : ℤ := n_const
  let aDay : ℤ := p_const + 1
  (aMonth, aDay)

/-- Embeds `isLeapYear`. -/
def isLeapYear (aYear : ℤ) : Bool :=
  (aYear.tmod 4 == 0) && ((aYear.tmod 100 != 0) || (aYear.tmod 400 == 0))

/-- Embeds `calculateDayNumber`. -/
def calculateDayNumber (aYear aMonth aDay : ℤ) : ℤ :=
  let multiplicand : ℤ := if isLeapYear aYear then 63 - 1 else 63
  let dayNumber : ℤ :=
    if aMonth > FEB then
      toInt (SPA_AVG_DAYS_PER_MONTH * ((aMonth + 1 : ℤ) : ℚ)) - multiplicand
    else
      ((aMonth - 1) * multiplicand).tdiv 2
  dayNumber + aDay

/-- Embeds `daysInYear`. -/
def daysInYear (aYear : ℤ) : ℤ :=
  if isLeapYear aYear then SPA_DAYS_IN_NONLEAP_YEAR + 1 else SPA_DAYS_IN_NONLEAP_YEAR

/-- Embeds `calculateDecimalHours`. -/
def calculateDecimalHours (anHour aMinute : ℤ) (aSeconds : ℚ) : ℚ :=
  let decimalHours : ℚ :=
    (anHour : ℚ) + (aMinute : ℚ) / (SPA_MINUTES_IN_HOUR : ℚ)
      + aSeconds / (SPA_SECONDS_IN_HOUR : ℚ)
  decimalHours

/-- Embeds `calculateHoursMinutesAndSeconds` in exact arithmetic: returns
`(anHours, aMinutes, aSeconds)`. -/
def calculateHoursMinutesAndSeconds (aDecimalHours : ℚ) : ℤ × ℤ × ℚ :=
  let int_hours : ℚ := trunc aDecimalHours
  let mins : ℚ := (SPA_MINUTES_IN_HOUR : ℚ) * (aDecimalHours - int_hours)
  let int_min : ℚ := trunc mins
  let aSeconds : ℚ := (SPA_SECONDS_IN_MINUTE : ℚ) * (mins - int_min)
  let aMinutes : ℤ := toInt int_min
  let anHours : ℤ := toInt int_hours
  (anHours, aMinutes, aSeconds)

/-- Embeds the inline function `convertBCE_Year` of `TimeUtilities.h`. -/
def convertBCE_Year (aBCE_Year : ℤ) : ℤ :=
  if aBCE_Year < 1 then 0 else -(aBCE_Year - 1)

end TIME_UTIL

/-! ## DateAndTime -/

/-- The data members of `class DateAndTime`. -/
structure DateAndTime where
  theYear : ℤ
  theMonth : ℤ
  theDay : ℤ
  theHours : ℤ
  theMinutes : ℤ
  theSeconds : ℚ
  theUTC_OffsetHours : ℚ
  deriving DecidableEq

namespace DateAndTime

/-- Embeds the constructor `DateAndTime(aYear, aMonth, aDay)` with the default
arguments `anHours = 0, aMinutes = 0, aSeconds = 0, aUTC_OffsetHours = 0`. -/
def ofYMD (aYear aMonth aDay : ℤ) : DateAndTime := ⟨aYear, aMonth, aDay, 0, 0, 0, 0⟩

/-- Embeds the default constructor `DateAndTime()`. -/
def defaultCtor : DateAndTime := ⟨0, 0, 0, 0, 0, 0, 0⟩

/-- Embeds `DateAndTime::setDay`: the object after the call. -/
def setDay (t : DateAndTime) (aDay : ℤ) : DateAndTime := { t with theDay := aDay }

/-- Embeds `DateAndTime::setHours`: the object after the call. -/
def setHours (t : DateAndTime) (anHours : ℤ) : DateAndTime := { t with theHours := anHours }

/-- Embeds `DateAndTime::setMinutes`: the object after the call. -/
def setMinutes (t : DateAndTime) (aMinutes : ℤ) : DateAndTime :=
  { t with theMinutes := aMinutes }

/-- Embeds `DateAndTime::setMonth`: the object after the call. -/
def setMonth (t : DateAndTime) (aMonth : ℤ) : DateAndTime := { t with theMonth := aMonth }

/-- Embeds `DateAndTime::setSeconds`: the object after the call. -/
def setSeconds (t : DateAndTime) (aSeconds : ℚ) : DateAndTime :=
  { t with theSeconds := aSeconds }

/-- Embeds `DateAndTime::setUtcOffsetHours`: the object after the call. -/
def setUtcOffsetHours (t : DateAndTime) (aUTC_OffsetHours : ℚ) : DateAndTime :=
  { t with theUTC_OffsetHours := aUTC_OffsetHours }

/-- Embeds `DateAndTime::setYear`: the object after the call. -/
def setYear (t : DateAndTime) (aYear : ℤ) : DateAndTime := { t with theYear := aYear }

/-- Embeds `DateAndTime::getDayFraction` in exact arithmetic. -/
def getDayFraction (t : DateAndTime) : ℚ :=
  let dayFraction : ℚ :=
    (t.theHours : ℚ) / (SPA_HOURS_IN_DAY : ℚ)
      + (t.theMinutes : ℚ) / (SPA_MINUTES_IN_DAY : ℚ)
      + t.theSeconds / (SPA_SECONDS_IN_DAY : ℚ)
  dayFraction + t.theUTC_OffsetHours / (SPA_HOURS_IN_DAY : ℚ)

/-- Embeds `operator<(const DateAndTime&, const DateAndTime&)` in exact
arithmetic: the day fractions compared are the exact ones. -/
def lt (aLHS aRHS : DateAndTime) : Bool :=
  if aLHS.theYear < aRHS.theYear then true
  else if aLHS.theYear > aRHS.theYear then false
  else if aLHS.theMonth < aRHS.theMonth then true
  else if aLHS.theMonth > aRHS.theMonth then false
  else if aLHS.theDay < aRHS.theDay then true
  else if aLHS.theDay > aRHS.theDay then false
  else if aLHS.getDayFraction < aRHS.getDayFraction then true
  else false

/-- Embeds `operator>`: `operator<` with the operands exchanged. -/
def gt (aLHS aRHS : DateAndTime) : Bool := lt aRHS aLHS

/-- Embeds `operator==(const DateAndTime&, const DateAndTime&)`. -/
def eq (aLHS aRHS : DateAndTime) : Bool :=
  if aLHS.theYear ≠ aRHS.theYear then false
  else if aLHS.theMonth ≠ aRHS.theMonth then false
  else if aLHS.theDay ≠ aRHS.theDay then false
  else if aLHS.theHours ≠ aRHS.theHours then false
  else if aLHS.theMinutes ≠ aRHS.theMinutes then false
  else if aLHS.theSeconds ≠ aRHS.theSeconds then false
  else if aLHS.theUTC_OffsetHours ≠ aRHS.theUTC_OffsetHours then false
  else true

/-- Embeds `operator!=`: the negation of `operator==`. -/
def ne (aLHS aRHS : DateAndTime) : Bool := !eq aLHS aRHS

/-- Embeds `operator<=`: the negation of `operator>`. -/
def le (aLHS aRHS : DateAndTime) : Bool := !gt aLHS aRHS

/-- Embeds `operator>=`: the negation of `operator<`. -/
def ge (aLHS aRHS : DateAndTime) : Bool := !lt aLHS aRHS

end DateAndTime

/-! ## SpaDate -/

/-- The data members of `class SpaDate`. -/
structure SpaDate where
  theYear : ℤ
  theMonth : ℤ
  theDay : ℤ
  deriving DecidableEq

namespace SpaDate

/-- Embeds `operator==(const SpaDate&, const SpaDate&)`. -/
def eq (aLHS aRHS : SpaDate) : Bool :=
  if aLHS.theYear ≠ aRHS.theYear then false
  else if aLHS.theMonth ≠ aRHS.theMonth then false
  else if aLHS.theDay ≠ aRHS.theDay then false
  else true

/-- Embeds `operator<(const SpaDate&, const SpaDate&)`. -/
def lt (aLHS aRHS : SpaDate) : Bool :=
  if aLHS.theYear < aRHS.theYear then true
  else if aLHS.theYear > aRHS.theYear then false
  else if aLHS.theMonth < aRHS.theMonth then true
  else if aLHS.theMonth > aRHS.theMonth then false
  else if aLHS.theDay < aRHS.theDay then true
  else false

/-- Embeds `operator!=` of `SpaDate`: the negation of `operator==`. -/
def ne (aLHS aRHS : SpaDate) : Bool := !eq aLHS aRHS

/-- Embeds `operator>` of `SpaDate`: `operator<` with the operands exchanged. -/
def gt (aLHS aRHS : SpaDate) : Bool := lt aRHS aLHS

/-- Embeds `operator<=` of `SpaDate`: the negation of `operator>`. -/
def le (aLHS aRHS : SpaDate) : Bool := !gt aLHS aRHS

/-- Embeds `operator>=` of `SpaDate`: the negation of `operator<`. -/
def ge (aLHS aRHS : SpaDate) : Bool := !lt aLHS aRHS

end SpaDate

/-! ## TimeDifference and JulianDate -/

/-- The data member of `class TimeDifference`. -/
structure TimeDifference where
  theDecimalDayDifference : ℚ
  deriving DecidableEq

/-- Embeds `TimeDifference::getDecimalDayDifference`. -/
def TimeDifference.getDecimalDayDifference (t : TimeDifference) : ℚ :=
  t.theDecimalDayDifference

/-- The data member of `class JulianDate`. -/
structure JulianDate where
  theJulianDays : ℚ
  deriving DecidableEq

namespace JulianDate

/-- Embeds `JulianDate::getDecimalDays`. -/
def getDecimalDays (j : JulianDate) : ℚ := j.theJulianDays

/-- The date `gregorian` that `convertDateAndTimeToJulianDate` compares with. -/
def gregorian : DateAndTime := ⟨1582, 10, 15, 0, 0, 0, 0⟩

/-- The flag `isGregorian` of `convertDateAndTimeToJulianDate` in exact
arithmetic (`dateAndTime > gregorian`, taken before year and month are
changed). -/
def isGregorian (aDateAndTime : DateAndTime) : Bool :=
  DateAndTime.gt aDateAndTime gregorian

/-- The modifiable copy `dateAndTime` of `convertDateAndTimeToJulianDate` after
the `if (dateAndTime.getMonth() < MAR)` block. -/
def shiftMonth (aDateAndTime : DateAndTime) : DateAndTime :=
  if aDateAndTime.theMonth < MAR then
    { aDateAndTime with
      theYear := aDateAndTime.theYear - 1
      theMonth := aDateAndTime.theMonth + 12 }
  else aDateAndTime

/-- The value `b_const` of `convertDateAndTimeToJulianDate`, from the flag and
the shifted year. -/
def b_const (isGreg : Bool) (year : ℤ) : ℤ :=
  if isGreg then
    let CENTURY : ℤ := 100
    let a_const : ℤ := year.tdiv CENTURY
    2 - a_const + a_const.tdiv 4
  else 0

/-- The value `c_const` of `convertDateAndTimeToJulianDate`, from the shifted
year. -/
def c_const (year : ℤ) : ℤ :=
  let MYSTERIOUS_CONSTANT_1 : ℚ := 0.75
  let c_tmp : ℚ := SPA_DAYS_IN_JULIAN_YEAR * (year : ℚ)
  if year < 0 then toInt (c_tmp - MYSTERIOUS_CONSTANT_1) else toInt c_tmp

/-- The value `d_const` of `convertDateAndTimeToJulianDate`, from the shifted
month. -/
def d_const (month : ℤ) : ℤ :=
  toInt (SPA_AVG_DAYS_PER_MONTH * ((month + 1 : ℤ) : ℚ))

/-- Embeds `JulianDate::convertDateAndTimeToJulianDate` in exact arithmetic. -/
def convertDateAndTimeToJulianDate (aDateAndTime : DateAndTime) : ℚ :=
  let isGreg : Bool := isGregorian aDateAndTime
  let dateAndTime : DateAndTime := shiftMonth aDateAndTime
  let BASE_JD : ℚ := 1720994.5
  ((b_const isGreg dateAndTime.theYear + c_const dateAndTime.theYear
      + d_const dateAndTime.theMonth + dateAndTime.theDay : ℤ) : ℚ)
    + dateAndTime.getDayFraction + BASE_JD

/-- Embeds the constructor `JulianDate(const SPA::DateAndTime&)`. -/
def ofDateAndTime (aDateAndTime : DateAndTime) : JulianDate :=
  ⟨convertDateAndTimeToJulianDate aDateAndTime⟩

/-- Embeds the constructor `JulianDate(int, int, int, int, int, double, double)`. -/
def ofFields (aYear aMonth aDay anHours aMinutes : ℤ) (aSeconds aUTC_OffsetHours : ℚ) :
    JulianDate :=
  ofDateAndTime ⟨aYear, aMonth, aDay, anHours, aMinutes, aSeconds, aUTC_OffsetHours⟩

/-- Embeds `operator-(const JulianDate&, const JulianDate&)`. -/
def sub (aLHS_JulianDate aRHS_JulianDate : JulianDate) : TimeDifference :=
  ⟨aLHS_JulianDate.getDecimalDays - aRHS_JulianDate.getDecimalDays⟩

/-- Embeds `JulianDate::operator-=`: the object after the call; the reference
that is returned is this object. -/
def subAssign (self : JulianDate) (aTimeDifference : TimeDifference) : JulianDate :=
  ⟨self.theJulianDays - aTimeDifference.getDecimalDayDifference⟩

/-- Embeds `JulianDate::operator+=`: the object after the call; the reference
that is returned is this object. -/
def addAssign (self : JulianDate) (aTimeDifference : TimeDifference) : JulianDate :=
  ⟨self.theJulianDays + aTimeDifference.getDecimalDayDifference⟩

/-- Embeds `JulianDate::operator-(const TimeDifference&)`: the pair of the
object after the call (the body assigns no member) and the returned value. -/
def subTimeDifference (self : JulianDate) (aTimeDifference : TimeDifference) :
    JulianDate × JulianDate :=
  (self, ⟨self.theJulianDays - aTimeDifference.getDecimalDayDifference⟩)

/-- Embeds `JulianDate::operator+(const TimeDifference&)`: the pair of the
object after the call (the body assigns no member) and the returned value. -/
def addTimeDifference (self : JulianDate) (aTimeDifference : TimeDifference) :
    JulianDate × JulianDate :=
  (self, ⟨self.theJulianDays + aTimeDifference.getDecimalDayDifference⟩)

/-- Embeds `JulianDate::getModifiedJulianDate`. -/
def getModifiedJulianDate (j : JulianDate) : ℚ :=
  j.theJulianDays - SPA_MJD_EPOCH

/-- Embeds `JulianDate::getDateAndTime`. -/
def getDateAndTime (j : JulianDate) : DateAndTime :=
  let constantC : ℚ := 1524
  let constantD : ℚ := 122.1
  let constantMonth : ℚ := 13.5
  let constantYear : ℚ := 2.5
  let valueI : ℚ := (TIME_UTIL.integerAndFraction (j.theJulianDays + 0.5)).1
  let valueF : ℚ := (TIME_UTIL.integerAndFraction (j.theJulianDays + 0.5)).2
  let valueB : ℚ :=
    if valueI ≥ SPA_LAST_DAY_OF_JULIAN_CALENDAR then
      let valueA : ℚ :=
        (TIME_UTIL.integerAndFraction
          ((valueI - SPA_JULIAN_CONVERSION_CONVERSION_CONST) / SPA_DAYS_IN_GREGORIAN_CENTURY)).1
      let intPart : ℚ := (TIME_UTIL.integerAndFraction (0.25 * valueA)).1
      valueI + 1 + valueA - intPart
    else valueI
  let valueC : ℚ := valueB + constantC
  let valueD : ℚ :=
    (TIME_UTIL.integerAndFraction ((valueC - constantD) / SPA_DAYS_IN_JULIAN_YEAR)).1
  let valueE : ℚ := (TIME_UTIL.integerAndFraction (SPA_DAYS_IN_JULIAN_YEAR * valueD)).1
  let valueG : ℚ :=
    (TIME_UTIL.integerAndFraction ((valueC - valueE) / SPA_AVG_DAYS_PER_MONTH)).1
  let intPartG : ℚ := (TIME_UTIL.integerAndFraction (SPA_AVG_DAYS_PER_MONTH * valueG)).1
  let decimalDays : ℚ := valueC - valueE + valueF - intPartG
  let days : ℤ := toInt (TIME_UTIL.integerAndFraction decimalDays).1
  let decimalHours : ℚ :=
    (TIME_UTIL.integerAndFraction decimalDays).2 * (SPA_HOURS_IN_DAY : ℚ)
  let hms : ℤ × ℤ × ℚ := TIME_UTIL.calculateHoursMinutesAndSeconds decimalHours
  let month : ℤ := if valueG < constantMonth then toInt valueG - 1 else toInt valueG - 13
  let year : ℤ := if (month : ℚ) > constantYear then toInt valueD - 4716 else toInt valueD - 4715
  ⟨year, month, days, hms.1, hms.2.1, hms.2.2, 0⟩

end JulianDate

/-- Embeds what `date - epoch` does for two `DateAndTime` operands: both are
converted by the constructor `JulianDate(const DateAndTime&)` and subtracted
with `operator-(const JulianDate&, const JulianDate&)`. -/
def DateAndTime.sub (aLHS aRHS : DateAndTime) : TimeDifference :=
  JulianDate.sub (JulianDate.ofDateAndTime aLHS) (JulianDate.ofDateAndTime aRHS)

namespace TIME_UTIL

/-- Embeds `calculateDayInTheWeek(const JulianDate&)`. -/
def calculateDayInTheWeek (_aJulianDate : JulianDate) : WeekDays :=
  let wd : WeekDays := WeekDays.MON
  wd

/-- Embeds `calculateDayInTheWeek(const DateAndTime&)`. -/
def calculateDayInTheWeekOfDateAndTime (aDateAndTime : DateAndTime) : WeekDays :=
  let jd : JulianDate := JulianDate.ofDateAndTime aDateAndTime
  calculateDayInTheWeek jd

/-- Embeds `calculateDayInTheWeek(int aYear, int aMonth, int aDay)`. -/
def calculateDayInTheWeekOfYMD (aYear aMonth aDay : ℤ) : WeekDays :=
  let date : DateAndTime := DateAndTime.ofYMD aYear aMonth aDay
  calculateDayInTheWeekOfDateAndTime date

end TIME_UTIL

/-! ## Definitions taken from the specification -/

/-- The day of the week in the words of the specification:
`(floor(JD + 1.5)) mod 7`, with 0 = Sunday. -/
def specDayInTheWeek (jd : ℚ) : ℤ := ⌊jd + 1.5⌋ % 7

/-- The Meeus/Jones/Butcher reference definition of the date of Easter,
`(month, day)`, with floored `div` and `mod`. -/
def specEaster (Y : ℤ) : ℤ × ℤ :=
  let a := Y % 19
  let b := Y / 100
  let c := Y % 100
  let d := b / 4
  let e := b % 4
  let f := (b + 8) / 25
  let g := (b - f + 1) / 3
  let h := (19 * a + b - d - g + 15) % 30
  let i := c / 4
  let k := c % 4
  let l := (32 + 2 * e + 2 * i - h - k) % 7
  let m := (a + 11 * h + 22 * l) / 451
  let n := h + l - 7 * m + 114
  (n / 31, n % 31 + 1)

/-- The value `n = h + l - 7m + 114` of the reference definition of the date of
Easter, from which `specEaster` takes `month = n div 31` and
`day = (n mod 31) + 1`. -/
def specEasterN (Y : ℤ) : ℤ :=
  let a := Y % 19
  let b := Y / 100
  let c := Y % 100
  let d := b / 4
  let e := b % 4
  let f := (b + 8) / 25
  let g := (b - f + 1) / 3
  let h := (19 * a + b - d - g + 15) % 30
  let i := c / 4
  let k := c % 4
  let l := (32 + 2 * e + 2 * i - h - k) % 7
  let m := (a + 11 * h + 22 * l) / 451
  h + l - 7 * m + 114

/-- The key on which the specification orders civil dates: year, month, day
and UTC-corrected day fraction, compared lexicographically. -/
def specOrderKey (t : DateAndTime) : ℤ ×ₗ ℤ ×ₗ ℤ ×ₗ ℚ :=
  toLex (t.theYear, toLex (t.theMonth, toLex (t.theDay, t.getDayFraction)))


/-- The Julian Date formula of the specification (section 4.3, steps 1 to 6),
written with floors: `b + floor(365.25*y') + floor(30.6*(m'+1)) + day +
dayFraction + 1720994.5`, where `(y', m')` is the shifted year and month and
`b = 2 - a + floor(a/4)`, `a = floor(y'/100)` for a date strictly after
1582-10-15 00:00:00 and `b = 0` otherwise. -/
def specJulianDate (d : DateAndTime) : ℚ :=
  let y' : ℤ := if d.theMonth < 3 then d.theYear - 1 else d.theYear
  let m' : ℤ := if d.theMonth < 3 then d.theMonth + 12 else d.theMonth
  let a : ℤ := ⌊(y' : ℚ) / 100⌋
  let b : ℤ := if DateAndTime.gt d ⟨1582, 10, 15, 0, 0, 0, 0⟩ then 2 - a + ⌊(a : ℚ) / 4⌋ else 0
  (b : ℚ) + (⌊(365.25 : ℚ) * (y' : ℚ)⌋ : ℚ) + (⌊(30.6 : ℚ) * ((m' : ℚ) + 1)⌋ : ℚ)
    + (d.theDay : ℚ) + d.getDayFraction + 1720994.5

/-- The Gregorian leap rule in the words of the specification: divisible by 4
and (not divisible by 100 or divisible by 400). -/
def specIsLeapYear (y : ℤ) : Bool := decide (4 ∣ y ∧ (¬ 100 ∣ y ∨ 400 ∣ y))

/-- The length of month `m` (1 = January) in a leap or non-leap year. -/
def specMonthLength (leap : Bool) (m : ℕ) : ℤ :=
  if m = 2 then (if leap then 29 else 28)
  else if m = 4 ∨ m = 6 ∨ m = 9 ∨ m = 11 then 30
  else 31

/-- The total length of the months before month `m` (1 = January). -/
def specDaysBeforeMonth (leap : Bool) (m : ℕ) : ℤ :=
  ((List.range (m - 1)).map (fun k => specMonthLength leap (k + 1))).sum

/-! ## The local variables of `getDateAndTime` as functions -/

namespace JulianDate

/-- The local `valueI` of `getDateAndTime`: the integer part of `JD + 0.5`. -/
def valueI (j : JulianDate) : ℚ := (TIME_UTIL.integerAndFraction (j.theJulianDays + 0.5)).1

/-- The local `valueF` of `getDateAndTime`: the fractional part of `JD + 0.5`. -/
def valueF (j : JulianDate) : ℚ := (TIME_UTIL.integerAndFraction (j.theJulianDays + 0.5)).2

/-- The local `valueB` of `getDateAndTime`, from `valueI`. -/
def valueB (valueI : ℚ) : ℚ :=
  if valueI ≥ SPA_LAST_DAY_OF_JULIAN_CALENDAR then
    let valueA : ℚ :=
      (TIME_UTIL.integerAndFraction
        ((valueI - SPA_JULIAN_CONVERSION_CONVERSION_CONST) / SPA_DAYS_IN_GREGORIAN_CENTURY)).1
    let intPart : ℚ := (TIME_UTIL.integerAndFraction (0.25 * valueA)).1
    valueI + 1 + valueA - intPart
  else valueI

/-- The local `valueD` of `getDateAndTime`, from `valueC`. -/
def valueD (valueC : ℚ) : ℚ :=
  (TIME_UTIL.integerAndFraction ((valueC - 122.1) / SPA_DAYS_IN_JULIAN_YEAR)).1

/-- The local `valueE` of `getDateAndTime`, from `valueD`. -/
def valueE (valueD : ℚ) : ℚ :=
  (TIME_UTIL.integerAndFraction (SPA_DAYS_IN_JULIAN_YEAR * valueD)).1

/-- The local `valueG` of `getDateAndTime`, from `valueC - valueE`. -/
def valueG (x : ℚ) : ℚ :=
  (TIME_UTIL.integerAndFraction (x / SPA_AVG_DAYS_PER_MONTH)).1

/-- The integer part of `SPA_AVG_DAYS_PER_MONTH * valueG` in `getDateAndTime`. -/
def intPartG (valueG : ℚ) : ℚ :=
  (TIME_UTIL.integerAndFraction (SPA_AVG_DAYS_PER_MONTH * valueG)).1

/-- The local `month` of `getDateAndTime`, from `valueG`. -/
def monthOf (valueG : ℚ) : ℤ :=
  if valueG < 13.5 then toInt valueG - 1 else toInt valueG - 13

/-- The local `year` of `getDateAndTime`, from `month` and `valueD`. -/
def yearOf (month : ℤ) (valueD : ℚ) : ℤ :=
  if (month : ℚ) > 2.5 then toInt valueD - 4716 else toInt valueD - 4715

/-- The local `valueC` of `getDateAndTime`. -/
def valueC (j : JulianDate) : ℚ := valueB (valueI j) + 1524

/-- The difference `valueC - valueE` of `getDateAndTime`. -/
def valueCE (j : JulianDate) : ℚ := valueC j - valueE (valueD (valueC j))

/-- The local `decimalDays` of `getDateAndTime`. -/
def decimalDays (j : JulianDate) : ℚ :=
  valueC j - valueE (valueD (valueC j)) + valueF j - intPartG (valueG (valueCE j))

end JulianDate

/-! ## Binary64 arithmetic

The functions of the sources that compute in `double`, with every operation
rounded to the nearest binary64 number, ties to even.  A binary64 number is a
rational `m * 2^e` with `|m| ≤ 2^53` and `e ≥ -1074`; infinities and NaN are
not represented, so the rounding is that of IEEE 754 for results of magnitude
below `2^1024`. -/

namespace Binary64

/-- The power `2^e` for an integer exponent. -/
def pow2 (e : ℤ) : ℚ :=
  if 0 ≤ e then ((2 ^ e.toNat : ℕ) : ℚ) else 1 / ((2 ^ (-e).toNat : ℕ) : ℚ)

/-- The number of halvings that take `n` below 2, with `fuel` steps allowed. -/
def log2Fuel : ℕ → ℕ → ℕ
  | 0, _ => 0
  | fuel + 1, n => if n < 2 then 0 else log2Fuel fuel (n / 2) + 1

/-- The binary logarithm of a natural number, rounded down (0 for 0). -/
def natLog2 (n : ℕ) : ℕ := log2Fuel n n

/-- The binary exponent of a rational `x ≠ 0`: the integer `k` with
`2^k ≤ |x| < 2^(k+1)`. -/
def ilog2 (x : ℚ) : ℤ :=
  let k : ℤ := (natLog2 x.num.natAbs : ℤ) - (natLog2 x.den : ℤ)
  if pow2 k ≤ |x| then k else k - 1

/-- The exponent of the unit in the last place of the binary64 numbers around
`x`: 53 significant bits, and `2^-1074` in the subnormal range. -/
def quantum (x : ℚ) : ℤ := max (ilog2 x - 52) (-1074)

/-- The nearest integer, ties to the even one. -/
def roundHalfEven (q : ℚ) : ℤ :=
  if q - (⌊q⌋ : ℚ) < 1 / 2 then ⌊q⌋
  else if 1 / 2 < q - (⌊q⌋ : ℚ) then ⌊q⌋ + 1
  else if ⌊q⌋ % 2 = 0 then ⌊q⌋ else ⌊q⌋ + 1

/-- The binary64 number nearest to `x`, ties to even: the result of a `double`
operation whose exact result is `x`, and the value of a decimal literal `x`. -/
def round (x : ℚ) : ℚ := (roundHalfEven (x / pow2 (quantum x)) : ℚ) * pow2 (quantum x)

/-- Embeds `DateAndTime::getDayFraction` in binary64: the conversions of the
`int` fields and of the `int` constants are exact, each division and each
addition is rounded. -/
def getDayFraction (t : DateAndTime) : ℚ :=
  let dayFraction : ℚ :=
    round (round (round ((t.theHours : ℚ) / (SPA_HOURS_IN_DAY : ℚ))
          + round ((t.theMinutes : ℚ) / (SPA_MINUTES_IN_DAY : ℚ)))
        + round (t.theSeconds / (SPA_SECONDS_IN_DAY : ℚ)))
  round (dayFraction + round (t.theUTC_OffsetHours / (SPA_HOURS_IN_DAY : ℚ)))

/-- Embeds `operator<(const DateAndTime&, const DateAndTime&)` in binary64: the
day fractions compared are the ones `getDayFraction` computes in `double`. -/
def lt (aLHS aRHS : DateAndTime) : Bool :=
  if aLHS.theYear < aRHS.theYear then true
  else if aLHS.theYear > aRHS.theYear then false
  else if aLHS.theMonth < aRHS.theMonth then true
  else if aLHS.theMonth > aRHS.theMonth then false
  else if aLHS.theDay < aRHS.theDay then true
  else if aLHS.theDay > aRHS.theDay then false
  else if getDayFraction aLHS < getDayFraction aRHS then true
  else false

/-- Embeds `operator>` in binary64: `operator<` with the operands exchanged. -/
def gt (aLHS aRHS : DateAndTime) : Bool := lt aRHS aLHS

/-- The flag `isGregorian` of `convertDateAndTimeToJulianDate` in binary64. -/
def isGregorian (aDateAndTime : DateAndTime) : Bool :=
  gt aDateAndTime JulianDate.gregorian

/-- The value `c_const` of `convertDateAndTimeToJulianDate` in binary64. -/
def c_const (year : ℤ) : ℤ :=
  let MYSTERIOUS_CONSTANT_1 : ℚ := 0.75
  let c_tmp : ℚ := round (SPA_DAYS_IN_JULIAN_YEAR * (year : ℚ))
  if year < 0 then toInt (round (c_tmp - MYSTERIOUS_CONSTANT_1)) else toInt c_tmp

/-- The value `d_const` of `convertDateAndTimeToJulianDate` in binary64; the
constant `SPA_AVG_DAYS_PER_MONTH` is the binary64 number nearest to 30.6. -/
def d_const (month : ℤ) : ℤ :=
  toInt (round (round SPA_AVG_DAYS_PER_MONTH * ((month + 1 : ℤ) : ℚ)))

/-- Embeds `JulianDate::convertDateAndTimeToJulianDate` in binary64; `b_const`
is computed in `int` and the sum of the four `int` terms is converted
exactly. -/
def convertDateAndTimeToJulianDate (aDateAndTime : DateAndTime) : ℚ :=
  let isGreg : Bool := isGregorian aDateAndTime
  let dateAndTime : DateAndTime := JulianDate.shiftMonth aDateAndTime
  let BASE_JD : ℚ := 1720994.5
  round (round (((JulianDate.b_const isGreg dateAndTime.theYear + c_const dateAndTime.theYear
      + d_const dateAndTime.theMonth + dateAndTime.theDay : ℤ) : ℚ)
    + getDayFraction dateAndTime) + BASE_JD)

/-- Embeds `integerAndFraction` in binary64: `std::floor` is exact, the
subtraction is rounded. -/
def integerAndFraction (aRealNumber : ℚ) : ℚ × ℚ :=
  let anIntegerPart : ℚ := (⌊aRealNumber⌋ : ℚ)
  let aFractionalPart : ℚ := round (aRealNumber - anIntegerPart)
  (anIntegerPart, aFractionalPart)

/-- Embeds `calculateHoursMinutesAndSeconds` in binary64: `std::trunc` is exact,
each subtraction and each multiplication is rounded. -/
def calculateHoursMinutesAndSeconds (aDecimalHours : ℚ) : ℤ × ℤ × ℚ :=
  let int_hours : ℚ := trunc aDecimalHours
  let mins : ℚ := round ((SPA_MINUTES_IN_HOUR : ℚ) * round (aDecimalHours - int_hours))
  let int_min : ℚ := trunc mins
  let aSeconds : ℚ := round ((SPA_SECONDS_IN_MINUTE : ℚ) * round (mins - int_min))
  let aMinutes : ℤ := toInt int_min
  let anHours : ℤ := toInt int_hours
  (anHours, aMinutes, aSeconds)

/-- The Julian Date formula of the specification evaluated in binary64:
`b + floor(365.25*y') + floor(30.6*(m'+1)) + day` is an integer, the Gregorian
term `b` is used when the unshifted date compares greater than
1582-10-15 00:00:00 by `operator>` on the day fractions computed in binary64,
and the additions of the day fraction and of 1720994.5 are rounded. -/
def specJulianDate (d : DateAndTime) : ℚ :=
  let y' : ℤ := if d.theMonth < 3 then d.theYear - 1 else d.theYear
  let m' : ℤ := if d.theMonth < 3 then d.theMonth + 12 else d.theMonth
  let a : ℤ := ⌊(y' : ℚ) / 100⌋
  let b : ℤ := if gt d ⟨1582, 10, 15, 0, 0, 0, 0⟩ then 2 - a + ⌊(a : ℚ) / 4⌋ else 0
  round (round (((b + ⌊(365.25 : ℚ) * (y' : ℚ)⌋ + ⌊(30.6 : ℚ) * ((m' : ℚ) + 1)⌋
      + d.theDay : ℤ) : ℚ) + getDayFraction d) + 1720994.5)

end Binary64

/-! # Theorems -/

/-! ## Auxiliary facts about truncation and floors -/

theorem toInt_of_nonneg {x : ℚ} (hx : 0 ≤ x) : toInt x = ⌊x⌋ := by
  simp [toInt, hx]

theorem toInt_of_neg {x : ℚ} (hx : x < 0) : toInt x = ⌈x⌉ := by
  simp [toInt, not_le.mpr hx]

theorem toInt_intCast (n : ℤ) : toInt (n : ℚ) = n := by
  unfold toInt
  split_ifs <;> simp

theorem floor_intCast_div_ofNat (n : ℤ) (k : ℕ) : ⌊(n : ℚ) / (k : ℚ)⌋ = n / (k : ℤ) :=
  Rat.floor_intCast_div_natCast n k

theorem floor_julianYear (y : ℤ) : ⌊(365.25 : ℚ) * (y : ℚ)⌋ = (1461 * y) / 4 := by
  have h := floor_intCast_div_ofNat (1461 * y) 4
  have e : (365.25 : ℚ) * (y : ℚ) = ((1461 * y : ℤ) : ℚ) / ((4 : ℕ) : ℚ) := by
    push_cast; ring
  rw [e, h]; rfl

theorem floor_avgMonth (m : ℤ) : ⌊(30.6 : ℚ) * (m : ℚ)⌋ = (153 * m) / 5 := by
  have h := floor_intCast_div_ofNat (153 * m) 5
  have e : (30.6 : ℚ) * (m : ℚ) = ((153 * m : ℤ) : ℚ) / ((5 : ℕ) : ℚ) := by
    push_cast; ring
  rw [e, h]; rfl

theorem floor_div_hundred (y : ℤ) : ⌊(y : ℚ) / 100⌋ = y / 100 := by
  have h := floor_intCast_div_ofNat y 100
  simpa using h

theorem floor_div_four (a : ℤ) : ⌊(a : ℚ) / 4⌋ = a / 4 := by
  have h := floor_intCast_div_ofNat a 4
  simpa using h


theorem b_const_of_nonneg (g : Bool) {y : ℤ} (hy : 0 ≤ y) :
    JulianDate.b_const g y = if g then 2 - y / 100 + y / 100 / 4 else 0 := by
  unfold JulianDate.b_const
  have h1 : y.tdiv 100 = y / 100 := Int.tdiv_eq_ediv hy (by norm_num)
  have h2 : (y / 100).tdiv 4 = y / 100 / 4 :=
    Int.tdiv_eq_ediv (Int.ediv_nonneg hy (by norm_num)) (by norm_num)
  simp only [h1, h2]

theorem c_const_of_nonneg {y : ℤ} (hy : 0 ≤ y) : JulianDate.c_const y = (1461 * y) / 4 := by
  unfold JulianDate.c_const SPA_DAYS_IN_JULIAN_YEAR
  have hq : (0 : ℚ) ≤ 365.25 * (y : ℚ) := by
    have : (0 : ℚ) ≤ (y : ℚ) := by exact_mod_cast hy
    positivity
  simp only [not_lt.mpr hy, if_false]
  rw [toInt_of_nonneg hq, floor_julianYear]

theorem d_const_of_nonneg {m : ℤ} (hm : 0 ≤ m + 1) : JulianDate.d_const m = (153 * (m + 1)) / 5 := by
  unfold JulianDate.d_const SPA_AVG_DAYS_PER_MONTH
  have hq : (0 : ℚ) ≤ 30.6 * ((m + 1 : ℤ) : ℚ) := by
    have : (0 : ℚ) ≤ ((m + 1 : ℤ) : ℚ) := by exact_mod_cast hm
    positivity
  rw [toInt_of_nonneg hq, floor_avgMonth]

/-- In exact arithmetic the civil-to-Julian-Date conversion equals the formula
of the specification: for every `DateAndTime` with month at least 1 and a
non-negative shifted year, the decimal days are `b + floor(365.25*y') +
floor(30.6*(m'+1)) + day + dayFraction + 1720994.5`, with the Gregorian term `b`
used exactly when the unshifted date compares strictly greater than
1582-10-15 00:00:00. -/
theorem convert_eq_specJulianDate_exact (d : DateAndTime) (hm1 : 1 ≤ d.theMonth)
    (hm12 : d.theMonth ≤ 12)
    (hy : 0 ≤ (if d.theMonth < 3 then d.theYear - 1 else d.theYear)) :
    (JulianDate.ofDateAndTime d).getDecimalDays = specJulianDate d := by
  have hy' : 0 ≤ (JulianDate.shiftMonth d).theYear := by
    unfold JulianDate.shiftMonth MAR
    split_ifs with h <;> simp_all
  have hmm : 0 ≤ (JulianDate.shiftMonth d).theMonth + 1 := by
    unfold JulianDate.shiftMonth MAR
    split_ifs with h <;> first | (dsimp only; omega) | omega
  unfold JulianDate.getDecimalDays JulianDate.ofDateAndTime
    JulianDate.convertDateAndTimeToJulianDate specJulianDate
  simp only [b_const_of_nonneg _ hy', c_const_of_nonneg hy', d_const_of_nonneg hmm]
  have e1 : ∀ m : ℤ, (30.6 : ℚ) * ((m : ℚ) + 1) = 30.6 * ((m + 1 : ℤ) : ℚ) := by
    intro m; push_cast; ring
  simp only [e1, floor_julianYear, floor_avgMonth, floor_div_hundred, floor_div_four]
  unfold JulianDate.isGregorian JulianDate.gregorian JulianDate.shiftMonth MAR
    DateAndTime.getDayFraction
  by_cases h3 : d.theMonth < 3 <;> by_cases hg : DateAndTime.gt d ⟨1582, 10, 15, 0, 0, 0, 0⟩ = true
    <;> simp [h3, hg]



/-- C6. At the boundary date 1582-10-15 00:00:00 itself the conversion does not
apply the Gregorian correction although the date is not less than the
boundary: the flag `isGregorian` is false, `b_const` is 0 and the result is
2299170.5, ten days more than the 2299160.5 that the Gregorian correction
gives. -/
theorem isGregorian_at_boundary :
    DateAndTime.lt ⟨1582, 10, 15, 0, 0, 0, 0⟩ ⟨1582, 10, 15, 0, 0, 0, 0⟩ = false
    ∧ JulianDate.isGregorian ⟨1582, 10, 15, 0, 0, 0, 0⟩ = false
    ∧ (JulianDate.ofFields 1582 10 15 0 0 0 0).getDecimalDays = 2299170.5
    ∧ (JulianDate.ofFields 1582 10 15 0 0 0 0).getDecimalDays ≠ 2299160.5 := by
  decide!

/-- C7, counterexample. For the date -2-03-01 the shifted year is -2 and the
year term is `c_const = -731`, while `floor(365.25*(-2) - 0.75) = -732`. -/
theorem c_const_ne_floor :
    (JulianDate.shiftMonth ⟨-2, 3, 1, 0, 0, 0, 0⟩).theYear = -2
    ∧ JulianDate.c_const (JulianDate.shiftMonth ⟨-2, 3, 1, 0, 0, 0, 0⟩).theYear = -731
    ∧ ⌊(365.25 : ℚ) * ((-2 : ℤ) : ℚ) - 0.75⌋ = -732
    ∧ JulianDate.c_const (JulianDate.shiftMonth ⟨-2, 3, 1, 0, 0, 0, 0⟩).theYear
        ≠ ⌊(365.25 : ℚ) * (((JulianDate.shiftMonth ⟨-2, 3, 1, 0, 0, 0, 0⟩).theYear : ℤ) : ℚ)
            - 0.75⌋ := by
  decide!

/-- C7, amended. For every input date whose shifted year `y'` is negative, the
year term `c_const` equals `365.25*y' - 0.75` truncated toward zero, which is
its ceiling (the least integer not below it), not its floor. -/
theorem c_const_of_neg (d : DateAndTime) (hy : (JulianDate.shiftMonth d).theYear < 0) :
    JulianDate.c_const (JulianDate.shiftMonth d).theYear
      = ⌈(365.25 : ℚ) * (((JulianDate.shiftMonth d).theYear : ℤ) : ℚ) - 0.75⌉ := by
  unfold JulianDate.c_const SPA_DAYS_IN_JULIAN_YEAR
  have hq : (365.25 : ℚ) * (((JulianDate.shiftMonth d).theYear : ℤ) : ℚ) - 0.75 < 0 := by
    have : (((JulianDate.shiftMonth d).theYear : ℤ) : ℚ) < 0 := by exact_mod_cast hy
    nlinarith
  simp only [hy, if_true]
  exact toInt_of_neg hq

/-- C7, witness: the date -2-03-01, whose shifted year is -2. -/
theorem c_const_of_neg_witness :
    (JulianDate.shiftMonth ⟨-2, 3, 1, 0, 0, 0, 0⟩).theYear < 0
    ∧ JulianDate.c_const (JulianDate.shiftMonth ⟨-2, 3, 1, 0, 0, 0, 0⟩).theYear
      = ⌈(365.25 : ℚ) * (((JulianDate.shiftMonth ⟨-2, 3, 1, 0, 0, 0, 0⟩).theYear : ℤ) : ℚ)
          - 0.75⌉ :=
  ⟨by decide, c_const_of_neg ⟨-2, 3, 1, 0, 0, 0, 0⟩ (by decide)⟩

/-- C8. The Julian Date count starts at noon on January 1, 4713 BC:
`convertBCE_Year(4713) = -4712` and the Julian Date of -4712-01-01 12:00:00
UTC is 0. -/
theorem julianDate_epoch :
    TIME_UTIL.convertBCE_Year 4713 = -4712
    ∧ (JulianDate.ofFields (TIME_UTIL.convertBCE_Year 4713) 1 1 12 0 0 0).getDecimalDays = 0 := by
  decide!

/-- C10. The Modified Julian Date is the Julian Date minus 2400000.5; it is 0
for the Julian Date 2400000.5 and -3000 for 2397000.5. -/
theorem getModifiedJulianDate_eq (j : JulianDate) :
    j.getModifiedJulianDate = j.getDecimalDays - 2400000.5
    ∧ (JulianDate.mk 2400000.5).getModifiedJulianDate = 0
    ∧ (JulianDate.mk 2397000.5).getModifiedJulianDate = -3000 := by
  refine ⟨rfl, ?_, ?_⟩ <;> decide!


theorem isLeapYear_of_nonneg {y : ℤ} (hy : 0 ≤ y) :
    TIME_UTIL.isLeapYear y = decide (y % 4 = 0 ∧ (y % 100 ≠ 0 ∨ y % 400 = 0)) := by
  unfold TIME_UTIL.isLeapYear
  rw [Int.tmod_eq_emod hy (by norm_num), Int.tmod_eq_emod hy (by norm_num),
    Int.tmod_eq_emod hy (by norm_num)]
  by_cases h4 : y % 4 = 0 <;> by_cases h100 : y % 100 = 0 <;> by_cases h400 : y % 400 = 0
    <;> simp [h4, h100, h400]

theorem isGregorian_of_year_gt (d : DateAndTime) (hy : 1582 < d.theYear) :
    JulianDate.isGregorian d = true := by
  unfold JulianDate.isGregorian DateAndTime.gt DateAndTime.lt JulianDate.gregorian
  simp [hy]

theorem getDecimalDays_ofDateAndTime (d : DateAndTime) :
    (JulianDate.ofDateAndTime d).getDecimalDays = JulianDate.convertDateAndTimeToJulianDate d :=
  rfl

theorem getDecimalDays_ofFields (y m d h mi : ℤ) (s o : ℚ) :
    (JulianDate.ofFields y m d h mi s o).getDecimalDays
      = JulianDate.convertDateAndTimeToJulianDate ⟨y, m, d, h, mi, s, o⟩ :=
  rfl

theorem getDecimalDayDifference_sub (a b : JulianDate) :
    (JulianDate.sub a b).getDecimalDayDifference = a.getDecimalDays - b.getDecimalDays :=
  rfl

theorem convertDateAndTimeToJulianDate_eq (d : DateAndTime) :
    JulianDate.convertDateAndTimeToJulianDate d
      = ((JulianDate.b_const (JulianDate.isGregorian d) (JulianDate.shiftMonth d).theYear
            + JulianDate.c_const (JulianDate.shiftMonth d).theYear
            + JulianDate.d_const (JulianDate.shiftMonth d).theMonth
            + (JulianDate.shiftMonth d).theDay : ℤ) : ℚ)
          + (JulianDate.shiftMonth d).getDayFraction + 1720994.5 :=
  rfl

/-- The century correction and the year term together advance by the length
of the Gregorian year. -/
theorem gregorian_year_step (y : ℤ) :
    (2 - y / 100 + y / 100 / 4) + (1461 * y) / 4
        - ((2 - (y - 1) / 100 + (y - 1) / 100 / 4) + (1461 * (y - 1)) / 4)
      = if y % 4 = 0 ∧ (y % 100 ≠ 0 ∨ y % 400 = 0) then 366 else 365 := by
  have e1 : (1461 * y) / 4 = 365 * y + y / 4 := by omega
  have e2 : (1461 * (y - 1)) / 4 = 365 * (y - 1) + (y - 1) / 4 := by omega
  have d1 : y / 100 / 4 = y / 400 := by omega
  have d2 : (y - 1) / 100 / 4 = (y - 1) / 400 := by omega
  rw [e1, e2, d1, d2]
  have a1 : (y - 1) / 4 = if y % 4 = 0 then y / 4 - 1 else y / 4 := by
    split_ifs <;> omega
  have a2 : (y - 1) / 100 = if y % 100 = 0 then y / 100 - 1 else y / 100 := by
    split_ifs <;> omega
  have a3 : (y - 1) / 400 = if y % 400 = 0 then y / 400 - 1 else y / 400 := by
    split_ifs <;> omega
  rw [a1, a2, a3]
  by_cases h4 : y % 4 = 0 <;> by_cases h100 : y % 100 = 0 <;> by_cases h400 : y % 400 = 0
    <;> simp only [h4, h100, h400, ne_eq, not_true_eq_false, not_false_eq_true, and_self,
      and_true, and_false, or_self, or_true, or_false, true_and, false_and, if_true, if_false]
    <;> omega

/-- C9. Elapsed days from Julian Dates agree with day numbers: for every year
`y ≥ 1583`, month `m` in 1..12 and day `d` in 0..31 the difference
`JulianDate(y,m,d,0,0,0,0) - JulianDate(y,1,0,0,0,0,0)` is exactly
`calculateDayNumber(y,m,d)` decimal days. -/
theorem julianDate_sub_eq_dayNumber (y m d : ℤ) (hy : 1583 ≤ y) (hm1 : 1 ≤ m) (hm12 : m ≤ 12)
    (_hd0 : 0 ≤ d) (_hd31 : d ≤ 31) :
    (JulianDate.sub (JulianDate.ofFields y m d 0 0 0 0)
        (JulianDate.ofFields y 1 0 0 0 0 0)).getDecimalDayDifference
      = ((TIME_UTIL.calculateDayNumber y m d : ℤ) : ℚ) := by
  have hg1 : JulianDate.isGregorian ⟨y, m, d, 0, 0, 0, 0⟩ = true :=
    isGregorian_of_year_gt _ (by simp; omega)
  have hg2 : JulianDate.isGregorian ⟨y, 1, 0, 0, 0, 0, 0⟩ = true :=
    isGregorian_of_year_gt _ (by simp; omega)
  have hleap := isLeapYear_of_nonneg (show (0 : ℤ) ≤ y by omega)
  have hfrac : ∀ a b c : ℤ, DateAndTime.getDayFraction ⟨a, b, c, 0, 0, 0, 0⟩ = 0 := by
    intro a b c; simp [DateAndTime.getDayFraction]
  rw [getDecimalDayDifference_sub, getDecimalDays_ofFields, getDecimalDays_ofFields,
    convertDateAndTimeToJulianDate_eq, convertDateAndTimeToJulianDate_eq, hg1, hg2]
  unfold TIME_UTIL.calculateDayNumber
  rw [hleap]
  have hjan : JulianDate.shiftMonth ⟨y, 1, 0, 0, 0, 0, 0⟩ = ⟨y - 1, 13, 0, 0, 0, 0, 0⟩ := by
    simp [JulianDate.shiftMonth, MAR]
  rw [hjan]
  by_cases h3 : m < 3
  · have hs : JulianDate.shiftMonth ⟨y, m, d, 0, 0, 0, 0⟩ = ⟨y - 1, m + 12, d, 0, 0, 0, 0⟩ := by
      simp [JulianDate.shiftMonth, MAR, h3]
    have hF : ¬ m > FEB := by unfold FEB; omega
    rw [hs]
    simp only [hfrac, hF, if_false]
    rw [d_const_of_nonneg (show (0 : ℤ) ≤ m + 12 + 1 by omega),
      d_const_of_nonneg (show (0 : ℤ) ≤ 13 + 1 by omega)]
    have hm : m = 1 ∨ m = 2 := by omega
    have key : (153 * (m + 12 + 1)) / 5 - (153 * (13 + 1)) / 5
        = ((m - 1) * (if decide (y % 4 = 0 ∧ (y % 100 ≠ 0 ∨ y % 400 = 0)) = true
            then 63 - 1 else 63)).tdiv 2 := by
      rcases hm with rfl | rfl
      · simp
      · split_ifs <;> decide
    have : ∀ (b c p q e : ℤ), p - q = e →
        (((b + c + p + d : ℤ) : ℚ) + 0 + 1720994.5) - (((b + c + q + 0 : ℤ) : ℚ) + 0 + 1720994.5)
          = ((e + d : ℤ) : ℚ) := by
      intro b c p q e h
      rw [← h]; push_cast; ring
    exact this _ _ _ _ _ key
  · have hs : JulianDate.shiftMonth ⟨y, m, d, 0, 0, 0, 0⟩ = ⟨y, m, d, 0, 0, 0, 0⟩ := by
      simp [JulianDate.shiftMonth, MAR, h3]
    have hF : m > FEB := by unfold FEB; omega
    rw [hs]
    simp only [hfrac, hF, if_true]
    have hq : (0 : ℚ) ≤ SPA_AVG_DAYS_PER_MONTH * ((m + 1 : ℤ) : ℚ) := by
      have : (0 : ℚ) ≤ ((m + 1 : ℤ) : ℚ) := by exact_mod_cast (show (0 : ℤ) ≤ m + 1 by omega)
      unfold SPA_AVG_DAYS_PER_MONTH
      positivity
    rw [b_const_of_nonneg _ (show (0 : ℤ) ≤ y by omega),
      b_const_of_nonneg _ (show (0 : ℤ) ≤ y - 1 by omega),
      c_const_of_nonneg (show (0 : ℤ) ≤ y by omega),
      c_const_of_nonneg (show (0 : ℤ) ≤ y - 1 by omega),
      d_const_of_nonneg (show (0 : ℤ) ≤ 13 + 1 by omega)]
    have hd : JulianDate.d_const m = toInt (SPA_AVG_DAYS_PER_MONTH * ((m + 1 : ℤ) : ℚ)) := rfl
    rw [hd]
    simp only [if_true]
    generalize toInt (SPA_AVG_DAYS_PER_MONTH * ((m + 1 : ℤ) : ℚ)) = p
    have key : (2 - y / 100 + y / 100 / 4) + (1461 * y) / 4
          - ((2 - (y - 1) / 100 + (y - 1) / 100 / 4) + (1461 * (y - 1)) / 4 + (153 * (13 + 1)) / 5)
        = - (if decide (y % 4 = 0 ∧ (y % 100 ≠ 0 ∨ y % 400 = 0)) = true then 63 - 1 else 63) := by
      have hstep := gregorian_year_step y
      split_ifs at hstep with h
      · rw [if_pos (decide_eq_true h)]; omega
      · rw [if_neg (by simpa using h)]; omega
    have : ∀ (b c b2 c2 q e : ℤ), b + c - (b2 + c2 + q) = - e →
        (((b + c + p + d : ℤ) : ℚ) + 0 + 1720994.5)
          - (((b2 + c2 + q + 0 : ℤ) : ℚ) + 0 + 1720994.5)
          = ((p - e + d : ℤ) : ℚ) := by
      intro b c b2 c2 q e h
      have h2 : b + c = b2 + c2 + q - e := by omega
      have h3 : ((b + c : ℤ) : ℚ) = ((b2 + c2 + q - e : ℤ) : ℚ) := by rw [h2]
      push_cast at h3 ⊢
      linarith
    exact this _ _ _ _ _ _ key

/-- C9, witness: 1985 February 17 is day number 48, and it lies 1778 days
before the epoch 1990 January 0.0, both by Julian Dates and by day numbers and
year lengths. -/
theorem julianDate_sub_eq_dayNumber_witness :
    (JulianDate.sub (JulianDate.ofFields 1985 2 17 0 0 0 0)
        (JulianDate.ofFields 1985 1 0 0 0 0 0)).getDecimalDayDifference = 48
    ∧ (DateAndTime.sub ⟨1985, 2, 17, 0, 0, 0, 0⟩ ⟨1990, 1, 0, 0, 0, 0, 0⟩).getDecimalDayDifference
        = -1778
    ∧ - TIME_UTIL.calculateDayNumber 1990 1 0
        - (TIME_UTIL.daysInYear 1989 + TIME_UTIL.daysInYear 1988 + TIME_UTIL.daysInYear 1987
            + TIME_UTIL.daysInYear 1986 + TIME_UTIL.daysInYear 1985)
        + TIME_UTIL.calculateDayNumber 1985 2 17 = -1778 := by
  refine ⟨?_, by decide!, by decide!⟩
  rw [julianDate_sub_eq_dayNumber 1985 2 17 (by decide) (by decide) (by decide) (by decide)
    (by decide)]
  decide!


/-! ## The inverse conversion `getDateAndTime` -/

theorem getDateAndTime_eq (j : JulianDate) :
    j.getDateAndTime
      = ⟨JulianDate.yearOf (JulianDate.monthOf (JulianDate.valueG (JulianDate.valueCE j)))
            (JulianDate.valueD (JulianDate.valueC j)),
          JulianDate.monthOf (JulianDate.valueG (JulianDate.valueCE j)),
          toInt (TIME_UTIL.integerAndFraction (JulianDate.decimalDays j)).1,
          (TIME_UTIL.calculateHoursMinutesAndSeconds
            ((TIME_UTIL.integerAndFraction (JulianDate.decimalDays j)).2
              * (SPA_HOURS_IN_DAY : ℚ))).1,
          (TIME_UTIL.calculateHoursMinutesAndSeconds
            ((TIME_UTIL.integerAndFraction (JulianDate.decimalDays j)).2
              * (SPA_HOURS_IN_DAY : ℚ))).2.1,
          (TIME_UTIL.calculateHoursMinutesAndSeconds
            ((TIME_UTIL.integerAndFraction (JulianDate.decimalDays j)).2
              * (SPA_HOURS_IN_DAY : ℚ))).2.2,
          0⟩ :=
  rfl

theorem integerAndFraction_fst (x : ℚ) : (TIME_UTIL.integerAndFraction x).1 = ((⌊x⌋ : ℤ) : ℚ) :=
  rfl

theorem integerAndFraction_snd (x : ℚ) : (TIME_UTIL.integerAndFraction x).2 = x - ((⌊x⌋ : ℤ) : ℚ) :=
  rfl

theorem valueF_nonneg (j : JulianDate) : 0 ≤ JulianDate.valueF j := by
  unfold JulianDate.valueF
  rw [integerAndFraction_snd]
  linarith [Int.floor_le (j.theJulianDays + 0.5)]

theorem valueF_lt_one (j : JulianDate) : JulianDate.valueF j < 1 := by
  unfold JulianDate.valueF
  rw [integerAndFraction_snd]
  linarith [Int.lt_floor_add_one (j.theJulianDays + 0.5)]

theorem valueB_intCast (i : ℤ) : ∃ b : ℤ, JulianDate.valueB (i : ℚ) = (b : ℚ) := by
  unfold JulianDate.valueB
  split_ifs
  · simp only [integerAndFraction_fst]
    exact ⟨i + 1 + ⌊((i : ℚ) - SPA_JULIAN_CONVERSION_CONVERSION_CONST)
        / SPA_DAYS_IN_GREGORIAN_CENTURY⌋
      - ⌊(0.25 : ℚ) * ((⌊((i : ℚ) - SPA_JULIAN_CONVERSION_CONVERSION_CONST)
        / SPA_DAYS_IN_GREGORIAN_CENTURY⌋ : ℤ) : ℚ)⌋, by push_cast; rfl⟩
  · exact ⟨i, rfl⟩

theorem valueC_intCast (j : JulianDate) : ∃ c : ℤ, JulianDate.valueC j = (c : ℚ) := by
  unfold JulianDate.valueC JulianDate.valueI
  rw [integerAndFraction_fst]
  obtain ⟨b, hb⟩ := valueB_intCast ⌊j.theJulianDays + 0.5⌋
  exact ⟨b + 1524, by rw [hb]; push_cast; rfl⟩

/-- The quantity `valueC - valueE` of `getDateAndTime` is an integer between
123 and 488. -/
theorem valueCE_range (c : ℤ) :
    ∃ x : ℤ, (c : ℚ) - JulianDate.valueE (JulianDate.valueD (c : ℚ)) = (x : ℚ)
      ∧ 123 ≤ x ∧ x ≤ 488 := by
  unfold JulianDate.valueE JulianDate.valueD SPA_DAYS_IN_JULIAN_YEAR
  simp only [integerAndFraction_fst]
  set D : ℤ := ⌊((c : ℚ) - 122.1) / 365.25⌋ with hD
  set E : ℤ := ⌊(365.25 : ℚ) * (D : ℚ)⌋ with hE
  have h1 : (D : ℚ) ≤ ((c : ℚ) - 122.1) / 365.25 := Int.floor_le _
  have h2 : ((c : ℚ) - 122.1) / 365.25 < (D : ℚ) + 1 := Int.lt_floor_add_one _
  have h3 : (E : ℚ) ≤ 365.25 * (D : ℚ) := Int.floor_le _
  have h4 : (365.25 : ℚ) * (D : ℚ) < (E : ℚ) + 1 := Int.lt_floor_add_one _
  rw [le_div_iff₀ (by norm_num)] at h1
  rw [div_lt_iff₀ (by norm_num)] at h2
  refine ⟨c - E, by push_cast; rfl, ?_, ?_⟩
  · have : (122 : ℚ) < ((c - E : ℤ) : ℚ) := by push_cast; linarith
    have : (122 : ℤ) < c - E := by exact_mod_cast this
    omega
  · have : ((c - E : ℤ) : ℚ) < 489 := by push_cast; linarith
    have : c - E < (489 : ℤ) := by exact_mod_cast this
    omega

/-- For `valueC - valueE` between 123 and 488 the month index `valueG` is
between 4 and 15 and the day of the month is between 0 and 31. -/
theorem valueG_range (x : ℤ) (h1 : 123 ≤ x) (h2 : x ≤ 488) :
    ∃ g p : ℤ, JulianDate.valueG (x : ℚ) = (g : ℚ) ∧ JulianDate.intPartG (g : ℚ) = (p : ℚ)
      ∧ 4 ≤ g ∧ g ≤ 15 ∧ 0 ≤ x - p ∧ x - p ≤ 31 := by
  unfold JulianDate.valueG JulianDate.intPartG SPA_AVG_DAYS_PER_MONTH
  simp only [integerAndFraction_fst]
  set G : ℤ := ⌊(x : ℚ) / 30.6⌋ with hG
  set P : ℤ := ⌊(30.6 : ℚ) * (G : ℚ)⌋ with hP
  have hx1 : (123 : ℚ) ≤ (x : ℚ) := by exact_mod_cast h1
  have hx2 : (x : ℚ) ≤ 488 := by exact_mod_cast h2
  have g1 : (G : ℚ) ≤ (x : ℚ) / 30.6 := Int.floor_le _
  have g2 : (x : ℚ) / 30.6 < (G : ℚ) + 1 := Int.lt_floor_add_one _
  have p1 : (P : ℚ) ≤ 30.6 * (G : ℚ) := Int.floor_le _
  have p2 : (30.6 : ℚ) * (G : ℚ) < (P : ℚ) + 1 := Int.lt_floor_add_one _
  rw [le_div_iff₀ (by norm_num)] at g1
  rw [div_lt_iff₀ (by norm_num)] at g2
  refine ⟨G, P, rfl, rfl, ?_, ?_, ?_, ?_⟩
  · have : (3 : ℚ) < (G : ℚ) := by linarith
    have : (3 : ℤ) < G := by exact_mod_cast this
    omega
  · have : (G : ℚ) < 16 := by linarith
    have : G < (16 : ℤ) := by exact_mod_cast this
    omega
  · have : ((P : ℤ) : ℚ) ≤ (x : ℚ) := by linarith
    have : P ≤ x := by exact_mod_cast this
    omega
  · have : (x : ℚ) < ((P + 32 : ℤ) : ℚ) := by push_cast; linarith
    have : x < P + 32 := by exact_mod_cast this
    omega

theorem monthOf_range (g : ℤ) (h1 : 4 ≤ g) (h2 : g ≤ 15) :
    1 ≤ JulianDate.monthOf (g : ℚ) ∧ JulianDate.monthOf (g : ℚ) ≤ 12 := by
  unfold JulianDate.monthOf
  rw [toInt_intCast]
  split_ifs with h
  · have : (g : ℚ) < ((14 : ℤ) : ℚ) := by push_cast; linarith
    have : g < 14 := by exact_mod_cast this
    omega
  · have : ((13 : ℤ) : ℚ) < (g : ℚ) := by push_cast; linarith
    have : 13 < g := by exact_mod_cast this
    omega

/-- Hours, minutes and seconds computed from a decimal hour in `[0, 24)`. -/
theorem calculateHoursMinutesAndSeconds_range (x : ℚ) (h0 : 0 ≤ x) (h24 : x < 24) :
    0 ≤ (TIME_UTIL.calculateHoursMinutesAndSeconds x).1
    ∧ (TIME_UTIL.calculateHoursMinutesAndSeconds x).1 ≤ 23
    ∧ 0 ≤ (TIME_UTIL.calculateHoursMinutesAndSeconds x).2.1
    ∧ (TIME_UTIL.calculateHoursMinutesAndSeconds x).2.1 ≤ 59
    ∧ 0 ≤ (TIME_UTIL.calculateHoursMinutesAndSeconds x).2.2
    ∧ (TIME_UTIL.calculateHoursMinutesAndSeconds x).2.2 < 60 := by
  have hh : toInt x = ⌊x⌋ := toInt_of_nonneg h0
  have f1 : ((⌊x⌋ : ℤ) : ℚ) ≤ x := Int.floor_le _
  have f2 : x < ((⌊x⌋ : ℤ) : ℚ) + 1 := Int.lt_floor_add_one _
  have hm0 : (0 : ℚ) ≤ 60 * (x - ((⌊x⌋ : ℤ) : ℚ)) := by linarith
  have hmm : toInt (60 * (x - ((⌊x⌋ : ℤ) : ℚ))) = ⌊60 * (x - ((⌊x⌋ : ℤ) : ℚ))⌋ :=
    toInt_of_nonneg hm0
  have m1 : ((⌊60 * (x - ((⌊x⌋ : ℤ) : ℚ))⌋ : ℤ) : ℚ) ≤ 60 * (x - ((⌊x⌋ : ℤ) : ℚ)) :=
    Int.floor_le _
  have m2 : 60 * (x - ((⌊x⌋ : ℤ) : ℚ)) < ((⌊60 * (x - ((⌊x⌋ : ℤ) : ℚ))⌋ : ℤ) : ℚ) + 1 :=
    Int.lt_floor_add_one _
  have e : TIME_UTIL.calculateHoursMinutesAndSeconds x
      = (⌊x⌋, ⌊60 * (x - ((⌊x⌋ : ℤ) : ℚ))⌋,
          60 * (60 * (x - ((⌊x⌋ : ℤ) : ℚ)) - ((⌊60 * (x - ((⌊x⌋ : ℤ) : ℚ))⌋ : ℤ) : ℚ))) := by
    unfold TIME_UTIL.calculateHoursMinutesAndSeconds trunc SPA_MINUTES_IN_HOUR
      SPA_SECONDS_IN_MINUTE
    simp only [toInt_intCast, hh]
    push_cast
    simp only [hmm]
  rw [e]
  dsimp only
  refine ⟨Int.floor_nonneg.mpr h0, ?_, Int.floor_nonneg.mpr hm0, ?_, by linarith, by linarith⟩
  · have : ((⌊x⌋ : ℤ) : ℚ) < ((24 : ℤ) : ℚ) := by push_cast; linarith
    have : ⌊x⌋ < 24 := by exact_mod_cast this
    omega
  · have : ((⌊60 * (x - ((⌊x⌋ : ℤ) : ℚ))⌋ : ℤ) : ℚ) < ((60 : ℤ) : ℚ) := by push_cast; linarith
    have : ⌊60 * (x - ((⌊x⌋ : ℤ) : ℚ))⌋ < 60 := by exact_mod_cast this
    omega

/-- C5. For every Julian Date (exact arithmetic) `getDateAndTime` returns a
well-formed UTC civil date: UTC offset 0, month in 1..12, day in 0..31, hours
in 0..23, minutes in 0..59 and seconds in `[0, 60)`. -/
theorem getDateAndTime_wellFormed (j : JulianDate) :
    j.getDateAndTime.theUTC_OffsetHours = 0
    ∧ 1 ≤ j.getDateAndTime.theMonth ∧ j.getDateAndTime.theMonth ≤ 12
    ∧ 0 ≤ j.getDateAndTime.theDay ∧ j.getDateAndTime.theDay ≤ 31
    ∧ 0 ≤ j.getDateAndTime.theHours ∧ j.getDateAndTime.theHours ≤ 23
    ∧ 0 ≤ j.getDateAndTime.theMinutes ∧ j.getDateAndTime.theMinutes ≤ 59
    ∧ 0 ≤ j.getDateAndTime.theSeconds ∧ j.getDateAndTime.theSeconds < 60 := by
  obtain ⟨c, hc⟩ := valueC_intCast j
  obtain ⟨x, hx, hx1, hx2⟩ := valueCE_range c
  obtain ⟨g, p, hg, hp, hg1, hg2, hd1, hd2⟩ := valueG_range x hx1 hx2
  have hCE : JulianDate.valueCE j = (x : ℚ) := by
    unfold JulianDate.valueCE
    rw [hc, hx]
  have hdd : JulianDate.decimalDays j = ((x - p : ℤ) : ℚ) + JulianDate.valueF j := by
    unfold JulianDate.decimalDays
    rw [hCE, hg, hp, hc, hx]
    push_cast
    ring
  have hF0 := valueF_nonneg j
  have hF1 := valueF_lt_one j
  have hfl : ⌊JulianDate.decimalDays j⌋ = x - p := by
    rw [hdd, Int.floor_eq_iff]
    constructor <;> linarith
  have hday : toInt (TIME_UTIL.integerAndFraction (JulianDate.decimalDays j)).1 = x - p := by
    rw [integerAndFraction_fst, toInt_intCast, hfl]
  have hfrac : (TIME_UTIL.integerAndFraction (JulianDate.decimalDays j)).2
      = JulianDate.valueF j := by
    rw [integerAndFraction_snd, hfl, hdd]
    ring
  have hrange := calculateHoursMinutesAndSeconds_range
    (JulianDate.valueF j * (SPA_HOURS_IN_DAY : ℚ))
    (by unfold SPA_HOURS_IN_DAY; push_cast; linarith)
    (by unfold SPA_HOURS_IN_DAY; push_cast; linarith)
  have hmonth := monthOf_range g hg1 hg2
  rw [getDateAndTime_eq]
  simp only [hday, hfrac, hCE, hg]
  exact ⟨trivial, hmonth.1, hmonth.2, hd1, hd2, hrange⟩


/-! ## Behaviour at the calendar change and at month ends -/

/-- C2. The round trip civil date -> Julian Date -> civil date -> Julian Date
is off by ten days at the calendar change: 1582-10-04 12:00:00 has Julian
Date 2299160, `getDateAndTime` turns that into 1582-10-14 12:00:00, whose
Julian Date is 2299170; and 1582-10-05 00:00:00 has Julian Date 2299160.5,
which comes back as 1582-10-15 00:00:00 with Julian Date 2299170.5. -/
theorem roundTrip_civil_at_calendar_change :
    (JulianDate.ofDateAndTime ⟨1582, 10, 4, 12, 0, 0, 0⟩).getDecimalDays = 2299160
    ∧ (JulianDate.ofDateAndTime ⟨1582, 10, 4, 12, 0, 0, 0⟩).getDateAndTime
        = ⟨1582, 10, 14, 12, 0, 0, 0⟩
    ∧ (JulianDate.ofDateAndTime
        (JulianDate.ofDateAndTime ⟨1582, 10, 4, 12, 0, 0, 0⟩).getDateAndTime).getDecimalDays
        = 2299170
    ∧ (JulianDate.ofDateAndTime ⟨1582, 10, 5, 0, 0, 0, 0⟩).getDecimalDays = 2299160.5
    ∧ (JulianDate.ofDateAndTime ⟨1582, 10, 5, 0, 0, 0, 0⟩).getDateAndTime
        = ⟨1582, 10, 15, 0, 0, 0, 0⟩
    ∧ (JulianDate.ofDateAndTime
        (JulianDate.ofDateAndTime ⟨1582, 10, 5, 0, 0, 0, 0⟩).getDateAndTime).getDecimalDays
        = 2299170.5 := by
  decide!

/-- C3. The round trip Julian Date -> civil date -> Julian Date is off by ten
days at the calendar change: for the Julian Date 2299160.5 `getDateAndTime`
returns 1582-10-15 00:00:00, whose Julian Date is 2299170.5, so the time
difference is -10 days; the Julian Date 2299160 likewise comes back as
2299170. -/
theorem roundTrip_julian_at_calendar_change :
    (JulianDate.mk 2299160.5).getDateAndTime = ⟨1582, 10, 15, 0, 0, 0, 0⟩
    ∧ (JulianDate.sub (JulianDate.mk 2299160.5)
        (JulianDate.ofDateAndTime (JulianDate.mk 2299160.5).getDateAndTime)).getDecimalDayDifference
        = -10
    ∧ (JulianDate.mk 2299160).getDateAndTime = ⟨1582, 10, 14, 12, 0, 0, 0⟩
    ∧ (JulianDate.sub (JulianDate.mk 2299160)
        (JulianDate.ofDateAndTime (JulianDate.mk 2299160).getDateAndTime)).getDecimalDayDifference
        = -10 := by
  decide!

/-- C4. For the last day of March, August and January `getDateAndTime` does
not return the calendar date that was converted: 2019-03-31 comes back as
month 4, day 0, 2019-08-31 as month 9, day 0, and 2019-01-31 as month 2,
day 0. -/
theorem getDateAndTime_month_end :
    (JulianDate.ofFields 2019 3 31 0 0 0 0).getDateAndTime = ⟨2019, 4, 0, 0, 0, 0, 0⟩
    ∧ (JulianDate.ofFields 2019 8 31 0 0 0 0).getDateAndTime = ⟨2019, 9, 0, 0, 0, 0, 0⟩
    ∧ (JulianDate.ofFields 2019 1 31 0 0 0 0).getDateAndTime = ⟨2019, 2, 0, 0, 0, 0, 0⟩ := by
  decide!


/-! ## JulianDate and TimeDifference arithmetic -/

/-- C11. Subtracting two JulianDates is antisymmetric: `(a - b)` has decimal day
difference `a.getDecimalDays() - b.getDecimalDays()`, which is the negative of
that of `(b - a)`, and `(a - a)` is 0. -/
theorem sub_antisymmetric (a b : JulianDate) :
    (JulianDate.sub a b).getDecimalDayDifference = a.getDecimalDays - b.getDecimalDays
    ∧ a.getDecimalDays - b.getDecimalDays = -((JulianDate.sub b a).getDecimalDayDifference)
    ∧ (JulianDate.sub a a).getDecimalDayDifference = 0 := by
  simp only [getDecimalDayDifference_sub]
  exact ⟨trivial, by ring, by ring⟩

/-- C12. In exact arithmetic subtracting `(a - b)` from `a`, and adding
`(b - a)` to `a`, both return a JulianDate with the decimal days of `b`. -/
theorem sub_sub_cancel_julianDate (a b : JulianDate) :
    (a.subTimeDifference (JulianDate.sub a b)).2.getDecimalDays = b.getDecimalDays
    ∧ (a.addTimeDifference (JulianDate.sub b a)).2.getDecimalDays = b.getDecimalDays := by
  constructor
  · show a.theJulianDays - (a.theJulianDays - b.theJulianDays) = b.theJulianDays
    ring
  · show a.theJulianDays + (b.theJulianDays - a.theJulianDays) = b.theJulianDays
    ring

/-- C13. The compound operators leave in the object the decimal days that the
non-compound operators return, and the non-compound operators leave the
decimal days of the object unchanged. -/
theorem compound_eq_nonCompound (j : JulianDate) (t : TimeDifference) :
    (j.addAssign t).getDecimalDays = (j.addTimeDifference t).2.getDecimalDays
    ∧ (j.subAssign t).getDecimalDays = (j.subTimeDifference t).2.getDecimalDays
    ∧ (j.addTimeDifference t).1.getDecimalDays = j.getDecimalDays
    ∧ (j.subTimeDifference t).1.getDecimalDays = j.getDecimalDays
    ∧ (j.addAssign t).getDecimalDays = j.getDecimalDays + t.getDecimalDayDifference
    ∧ (j.subAssign t).getDecimalDays = j.getDecimalDays - t.getDecimalDayDifference :=
  ⟨rfl, rfl, rfl, rfl, rfl, rfl⟩

/-! ## TIME_UTIL helpers -/


/-- C18. `daysInYear` is 366 for a leap year and 365 otherwise, and never any
other value. -/
theorem daysInYear_spec (aYear : ℤ) :
    (TIME_UTIL.isLeapYear aYear = true → TIME_UTIL.daysInYear aYear = 366)
    ∧ (TIME_UTIL.isLeapYear aYear = false → TIME_UTIL.daysInYear aYear = 365)
    ∧ (TIME_UTIL.daysInYear aYear = 365 ∨ TIME_UTIL.daysInYear aYear = 366) := by
  unfold TIME_UTIL.daysInYear SPA_DAYS_IN_NONLEAP_YEAR
  cases TIME_UTIL.isLeapYear aYear <;> simp

/-- C20. For all integers `h`, `m` and every `s`, `calculateDecimalHours(h, m, s)`
is `h + m/60 + s/3600`, without clipping; (1,30,0) gives 1.5, (3,-50,300) gives
2.25 and (-4,-30,-1800) gives -5. -/
theorem calculateDecimalHours_spec (h m : ℤ) (s : ℚ) :
    TIME_UTIL.calculateDecimalHours h m s = (h : ℚ) + (m : ℚ) / 60 + s / 3600
    ∧ TIME_UTIL.calculateDecimalHours 1 30 0 = 1.5
    ∧ TIME_UTIL.calculateDecimalHours 3 (-50) 300 = 2.25
    ∧ TIME_UTIL.calculateDecimalHours (-4) (-30) (-1800) = -5 := by
  refine ⟨?_, by decide!, by decide!, by decide!⟩
  unfold TIME_UTIL.calculateDecimalHours SPA_MINUTES_IN_HOUR SPA_SECONDS_IN_HOUR
    SPA_SECONDS_IN_MINUTE SPA_MINUTES_IN_HOUR
  norm_num

/-! ## Truncating integer division -/

theorem toInt_neg (x : ℚ) : toInt (-x) = - toInt x := by
  unfold toInt
  rcases lt_trichotomy x 0 with h | h | h
  · have h1 : (0 : ℚ) ≤ -x := by linarith
    have h2 : ¬ (0 : ℚ) ≤ x := by linarith
    rw [if_pos h1, if_neg h2, Int.floor_neg]
  · subst h
    simp
  · have h1 : ¬ (0 : ℚ) ≤ -x := by linarith
    have h2 : (0 : ℚ) ≤ x := by linarith
    rw [if_neg h1, if_pos h2, Int.ceil_neg]

theorem floor_intCast_div_pos (n d : ℤ) (hd : 0 < d) : ⌊(n : ℚ) / (d : ℚ)⌋ = n / d := by
  obtain ⟨k, rfl⟩ := Int.eq_ofNat_of_zero_le hd.le
  exact_mod_cast Rat.floor_intCast_div_natCast n k

theorem tdiv_eq_toInt_of_nonneg (n d : ℤ) (hn : 0 ≤ n) (hd : 0 < d) :
    n.tdiv d = toInt ((n : ℚ) / (d : ℚ)) := by
  have hq : (0 : ℚ) ≤ (n : ℚ) / (d : ℚ) := by
    have h1 : (0 : ℚ) ≤ (n : ℚ) := by exact_mod_cast hn
    have h2 : (0 : ℚ) < (d : ℚ) := by exact_mod_cast hd
    positivity
  rw [toInt_of_nonneg hq, floor_intCast_div_pos n d hd, Int.tdiv_eq_ediv hn hd.le]

/-- The quotient of the truncating division is the exact quotient truncated
toward zero. -/
theorem tdiv_eq_toInt (D d : ℤ) (hd : d ≠ 0) : D.tdiv d = toInt ((D : ℚ) / (d : ℚ)) := by
  rcases le_or_lt 0 D with hD | hD <;> rcases lt_or_gt_of_ne hd with hd' | hd'
  · have h := tdiv_eq_toInt_of_nonneg D (-d) hD (by omega)
    have e : (D : ℚ) / (d : ℚ) = -((D : ℚ) / ((-d : ℤ) : ℚ)) := by
      push_cast; rw [div_neg, neg_neg]
    rw [e, toInt_neg, ← h, Int.tdiv_neg, neg_neg]
  · exact tdiv_eq_toInt_of_nonneg D d hD hd'
  · have h := tdiv_eq_toInt_of_nonneg (-D) (-d) (by omega) (by omega)
    have e : (D : ℚ) / (d : ℚ) = ((-D : ℤ) : ℚ) / ((-d : ℤ) : ℚ) := by
      push_cast; rw [neg_div_neg_eq]
    rw [e, ← h, Int.tdiv_neg, Int.neg_tdiv, neg_neg]
  · have h := tdiv_eq_toInt_of_nonneg (-D) d (by omega) hd'
    have e : (D : ℚ) / (d : ℚ) = -(((-D : ℤ) : ℚ) / (d : ℚ)) := by
      push_cast; rw [neg_div, neg_neg]
    rw [e, toInt_neg, ← h, Int.neg_tdiv, neg_neg]

theorem tmod_eq_sub (D d : ℤ) : D.tmod d = D - D.tdiv d * d := by
  rw [Int.tmod_def]; ring

theorem neg_tmod_eq (D d : ℤ) : (-D).tmod d = -(D.tmod d) := by
  rw [Int.tmod_def, Int.tmod_def, Int.neg_tdiv]; ring

theorem tmod_bounds_of_nonneg (D d : ℤ) (hD : 0 ≤ D) (hd : d ≠ 0) :
    0 ≤ D.tmod d ∧ D.tmod d < |d| := by
  refine ⟨Int.tmod_nonneg d hD, ?_⟩
  rcases lt_or_gt_of_ne hd with hd' | hd'
  · have h := Int.tmod_lt_of_pos D (show 0 < -d by omega)
    rw [Int.tmod_neg] at h
    rw [abs_of_neg hd']
    exact h
  · rw [abs_of_pos hd']
    exact Int.tmod_lt_of_pos D hd'

/-- C14. `quotientAndRemainder` uses truncating division: for every dividend
`D` and divisor `d ≠ 0` (unbounded integers, so without the overflowing pair)
the quotient is the exact quotient `D/d` truncated toward zero, the remainder
is `D - quotient*d`, its absolute value is less than that of `d`, and it is
zero or has the sign of `D`. -/
theorem quotientAndRemainder_truncates (D d : ℤ) (hd : d ≠ 0) :
    (TIME_UTIL.quotientAndRemainder D d).1 = toInt ((D : ℚ) / (d : ℚ))
    ∧ (TIME_UTIL.quotientAndRemainder D d).2 = D - (TIME_UTIL.quotientAndRemainder D d).1 * d
    ∧ |(TIME_UTIL.quotientAndRemainder D d).2| < |d|
    ∧ ((TIME_UTIL.quotientAndRemainder D d).2 = 0
        ∨ Int.sign (TIME_UTIL.quotientAndRemainder D d).2 = Int.sign D) := by
  show D.tdiv d = _ ∧ D.tmod d = D - D.tdiv d * d ∧ |D.tmod d| < |d|
    ∧ (D.tmod d = 0 ∨ Int.sign (D.tmod d) = Int.sign D)
  refine ⟨tdiv_eq_toInt D d hd, tmod_eq_sub D d, ?_, ?_⟩
  · rcases le_or_lt 0 D with hD | hD
    · obtain ⟨h0, h1⟩ := tmod_bounds_of_nonneg D d hD hd
      rw [abs_of_nonneg h0]
      exact h1
    · obtain ⟨h0, h1⟩ := tmod_bounds_of_nonneg (-D) d (by omega) hd
      rw [neg_tmod_eq] at h0 h1
      rw [abs_of_nonpos (by omega)]
      exact h1
  · rcases lt_trichotomy 0 D with hD | hD | hD
    · obtain ⟨h0, _⟩ := tmod_bounds_of_nonneg D d hD.le hd
      rcases eq_or_lt_of_le h0 with h | h
      · exact Or.inl h.symm
      · exact Or.inr (by rw [Int.sign_eq_one_of_pos h, Int.sign_eq_one_of_pos hD])
    · subst hD
      exact Or.inl (by simp)
    · obtain ⟨h0, _⟩ := tmod_bounds_of_nonneg (-D) d (by omega) hd
      rw [neg_tmod_eq] at h0
      rcases eq_or_lt_of_le h0 with h | h
      · exact Or.inl (by omega)
      · exact Or.inr (by
          rw [Int.sign_eq_neg_one_of_neg (by omega), Int.sign_eq_neg_one_of_neg hD])

/-- C14, witness: the two divisions with negative operands of
`testQuotientAndRemainder`. -/
theorem quotientAndRemainder_truncates_witness :
    TIME_UTIL.quotientAndRemainder (-23) 4 = (-5, -3)
    ∧ TIME_UTIL.quotientAndRemainder (-17) (-4) = (4, -1)
    ∧ (TIME_UTIL.quotientAndRemainder (-23) 4).1 = toInt (((-23 : ℤ) : ℚ) / ((4 : ℤ) : ℚ))
    ∧ |(TIME_UTIL.quotientAndRemainder (-23) 4).2| < |(4 : ℤ)| :=
  ⟨by decide, by decide,
    (quotientAndRemainder_truncates (-23) 4 (by decide)).1,
    (quotientAndRemainder_truncates (-23) 4 (by decide)).2.2.1⟩

/-- C15, counterexample. For the dividend -23 and the divisor 4 the quotient
returned is -5, while the floor of the exact quotient -5.75 is -6. -/
theorem quotient_ne_floor :
    (TIME_UTIL.quotientAndRemainder (-23) 4).1 = -5
    ∧ ⌊((-23 : ℤ) : ℚ) / ((4 : ℤ) : ℚ)⌋ = -6
    ∧ (TIME_UTIL.quotientAndRemainder (-23) 4).1 ≠ ⌊((-23 : ℤ) : ℚ) / ((4 : ℤ) : ℚ)⌋ := by
  decide!

/-- C15, amended. For every dividend `D` and divisor `d ≠ 0` the quotient is the
floor of the exact quotient when that quotient is non-negative or an integer,
and one more than the floor otherwise; the remainder is `D - aQuotient*d`. -/
theorem quotient_eq_floor_or_succ (D d : ℤ) (hd : d ≠ 0) :
    (TIME_UTIL.quotientAndRemainder D d).1
        = (if 0 ≤ (D : ℚ) / (d : ℚ) ∨ d ∣ D then ⌊(D : ℚ) / (d : ℚ)⌋
            else ⌊(D : ℚ) / (d : ℚ)⌋ + 1)
    ∧ (TIME_UTIL.quotientAndRemainder D d).2
        = D - (TIME_UTIL.quotientAndRemainder D d).1 * d := by
  refine ⟨?_, tmod_eq_sub D d⟩
  show D.tdiv d = _
  rw [tdiv_eq_toInt D d hd]
  have hdq : (d : ℚ) ≠ 0 := by exact_mod_cast hd
  by_cases h0 : 0 ≤ (D : ℚ) / (d : ℚ)
  · rw [if_pos (Or.inl h0), toInt_of_nonneg h0]
  · have hneg : (D : ℚ) / (d : ℚ) < 0 := lt_of_not_ge h0
    rw [toInt_of_neg hneg]
    by_cases hdvd : d ∣ D
    · rw [if_pos (Or.inr hdvd)]
      obtain ⟨k, rfl⟩ := hdvd
      have e : (((d * k : ℤ) : ℚ)) / (d : ℚ) = ((k : ℤ) : ℚ) := by
        push_cast; field_simp
      rw [e, Int.ceil_intCast, Int.floor_intCast]
    · rw [if_neg (by tauto)]
      have hne : ((⌊(D : ℚ) / (d : ℚ)⌋ : ℤ) : ℚ) ≠ (D : ℚ) / (d : ℚ) := by
        intro heq
        apply hdvd
        refine ⟨⌊(D : ℚ) / (d : ℚ)⌋, ?_⟩
        have : (D : ℚ) = (d : ℚ) * ((⌊(D : ℚ) / (d : ℚ)⌋ : ℤ) : ℚ) := by
          rw [heq]; field_simp
        exact_mod_cast this
      rw [Int.ceil_eq_iff]
      have f1 := Int.floor_le ((D : ℚ) / (d : ℚ))
      have f2 := Int.lt_floor_add_one ((D : ℚ) / (d : ℚ))
      push_cast
      constructor
      · have := lt_of_le_of_ne f1 hne
        linarith
      · linarith

/-- C15, witness: -23 divided by 4, where the exact quotient is negative and
not an integer. -/
theorem quotient_eq_floor_or_succ_witness :
    (4 : ℤ) ≠ 0
    ∧ (TIME_UTIL.quotientAndRemainder (-23) 4).1 = ⌊((-23 : ℤ) : ℚ) / ((4 : ℤ) : ℚ)⌋ + 1 := by
  refine ⟨by decide, ?_⟩
  rw [(quotient_eq_floor_or_succ (-23) 4 (by decide)).1]
  decide!

/-! ## Leap years and day numbers -/

theorem isLeapYear_eq_spec (y : ℤ) : TIME_UTIL.isLeapYear y = specIsLeapYear y := by
  unfold TIME_UTIL.isLeapYear specIsLeapYear
  have e4 : (4 : ℤ) ∣ y ↔ y.tmod 4 = 0 := Int.dvd_iff_tmod_eq_zero
  have e100 : (100 : ℤ) ∣ y ↔ y.tmod 100 = 0 := Int.dvd_iff_tmod_eq_zero
  have e400 : (400 : ℤ) ∣ y ↔ y.tmod 400 = 0 := Int.dvd_iff_tmod_eq_zero
  by_cases h4 : y.tmod 4 = 0 <;> by_cases h100 : y.tmod 100 = 0
    <;> by_cases h400 : y.tmod 400 = 0 <;> simp [e4, e100, e400, h4, h100, h400]

/-- C17. `isLeapYear` implements the Gregorian rule for every integer year,
negative years and zero included: it is true exactly when the year is divisible
by 4 and (not divisible by 100 or divisible by 400); 1900 and 2100 are not leap
years, 2000 and 2004 are. -/
theorem isLeapYear_iff (y : ℤ) :
    (TIME_UTIL.isLeapYear y = true ↔ (4 ∣ y ∧ (¬ 100 ∣ y ∨ 400 ∣ y)))
    ∧ TIME_UTIL.isLeapYear 1900 = false ∧ TIME_UTIL.isLeapYear 2000 = true
    ∧ TIME_UTIL.isLeapYear 2004 = true ∧ TIME_UTIL.isLeapYear 2100 = false := by
  refine ⟨?_, by decide, by decide, by decide, by decide⟩
  rw [isLeapYear_eq_spec]
  unfold specIsLeapYear
  simp

theorem calculateDayNumber_add (y m d : ℤ) :
    TIME_UTIL.calculateDayNumber y m d = TIME_UTIL.calculateDayNumber y m 0 + d := by
  unfold TIME_UTIL.calculateDayNumber
  simp

/-- The day number of day 0 of each month, by the leap flag of the year. -/
theorem calculateDayNumber_zero (y m : ℤ) (hm1 : 1 ≤ m) (hm12 : m ≤ 12) :
    TIME_UTIL.calculateDayNumber y m 0 = specDaysBeforeMonth (specIsLeapYear y) m.toNat
    ∧ (TIME_UTIL.isLeapYear y = true →
        TIME_UTIL.calculateDayNumber y m 0 = SPA_DAYSTART_LEAPYEAR.getD (m - 1).toNat 0)
    ∧ (TIME_UTIL.isLeapYear y = false → 3 ≤ m →
        TIME_UTIL.calculateDayNumber y m 0 = SPA_DAYSTART_LEAPYEAR.getD (m - 1).toNat 0 - 1) := by
  unfold TIME_UTIL.calculateDayNumber
  rw [isLeapYear_eq_spec]
  generalize specIsLeapYear y = b
  interval_cases m <;> cases b <;> decide!

/-- C19. `calculateDayNumber` returns the day of the year: for every year `y`,
month `m` in 1..12 and day `d` it is the total length of the months before `m`
in year `y` under the Gregorian leap rule plus `d`; for a leap year that is
`SPA_DAYSTART_LEAPYEAR[m-1] + d`, for a non-leap year and `m ≥ 3` one less; and
January 1 is 1, January 0 is 0. -/
theorem calculateDayNumber_spec (y m d : ℤ) (hm1 : 1 ≤ m) (hm12 : m ≤ 12) :
    TIME_UTIL.calculateDayNumber y m d
        = specDaysBeforeMonth (specIsLeapYear y) m.toNat + d
    ∧ (TIME_UTIL.isLeapYear y = true →
        TIME_UTIL.calculateDayNumber y m d
          = SPA_DAYSTART_LEAPYEAR.getD (m - 1).toNat 0 + d)
    ∧ (TIME_UTIL.isLeapYear y = false → 3 ≤ m →
        TIME_UTIL.calculateDayNumber y m d
          = SPA_DAYSTART_LEAPYEAR.getD (m - 1).toNat 0 - 1 + d)
    ∧ TIME_UTIL.calculateDayNumber y 1 1 = 1
    ∧ TIME_UTIL.calculateDayNumber y 1 0 = 0 := by
  obtain ⟨h1, h2, h3⟩ := calculateDayNumber_zero y m hm1 hm12
  have hjan := (calculateDayNumber_zero y 1 (by decide) (by decide)).1
  have hj0 : specDaysBeforeMonth (specIsLeapYear y) (1 : ℤ).toNat = 0 := by
    cases specIsLeapYear y <;> decide
  refine ⟨?_, ?_, ?_, ?_, ?_⟩
  · rw [calculateDayNumber_add, h1]
  · intro hl
    rw [calculateDayNumber_add, h2 hl]
  · intro hl hm
    rw [calculateDayNumber_add, h3 hl hm]
  · rw [calculateDayNumber_add, hjan, hj0]
    rfl
  · rw [hjan, hj0]

/-- C19, witness: the two dates of `testCalculateDayNumber`, 1985 February 17
(day 48) and 2018 September 2 (day 245). -/
theorem calculateDayNumber_spec_witness :
    TIME_UTIL.calculateDayNumber 1985 2 17 = 48
    ∧ TIME_UTIL.calculateDayNumber 2018 9 2 = 245
    ∧ specDaysBeforeMonth (specIsLeapYear 1985) (2 : ℤ).toNat + 17 = 48
    ∧ specDaysBeforeMonth (specIsLeapYear 2018) (9 : ℤ).toNat + 2 = 245 := by
  refine ⟨?_, ?_, by decide, by decide⟩
  · rw [(calculateDayNumber_spec 1985 2 17 (by decide) (by decide)).1]
    decide
  · rw [(calculateDayNumber_spec 2018 9 2 (by decide) (by decide)).1]
    decide


/-! ## Decimal hours -/

theorem toInt_bounds_of_nonneg {x : ℚ} (hx : 0 ≤ x) :
    0 ≤ toInt x ∧ 0 ≤ x - (toInt x : ℚ) ∧ x - (toInt x : ℚ) < 1 := by
  rw [toInt_of_nonneg hx]
  refine ⟨Int.floor_nonneg.mpr hx, ?_, ?_⟩
  · linarith [Int.floor_le x]
  · linarith [Int.lt_floor_add_one x]

theorem toInt_bounds_of_nonpos {x : ℚ} (hx : x ≤ 0) :
    toInt x ≤ 0 ∧ -1 < x - (toInt x : ℚ) ∧ x - (toInt x : ℚ) ≤ 0 := by
  have h := toInt_bounds_of_nonneg (show (0 : ℚ) ≤ -x by linarith)
  rw [toInt_neg] at h
  obtain ⟨h1, h2, h3⟩ := h
  push_cast at h2 h3
  exact ⟨by omega, by linarith, by linarith⟩

theorem calculateHoursMinutesAndSeconds_eq (x : ℚ) :
    TIME_UTIL.calculateHoursMinutesAndSeconds x
      = (toInt x, toInt (60 * (x - (toInt x : ℚ))),
          60 * (60 * (x - (toInt x : ℚ)) - (toInt (60 * (x - (toInt x : ℚ))) : ℚ))) := by
  unfold TIME_UTIL.calculateHoursMinutesAndSeconds trunc SPA_MINUTES_IN_HOUR
    SPA_SECONDS_IN_MINUTE
  simp only [toInt_intCast]
  push_cast
  rfl

/-- In exact arithmetic `calculateHoursMinutesAndSeconds` truncates toward zero
and yields a sign-consistent triple: hours is the input truncated, minutes is
`60*(x - hours)` truncated, of absolute value at most 59, the absolute value of
seconds is less than 60, for `x ≤ 0` none of the three is positive and for
`x ≥ 0` none is negative; -5.11 gives (-5, -6, -36). -/
theorem calculateHoursMinutesAndSeconds_exact (x : ℚ) :
    (TIME_UTIL.calculateHoursMinutesAndSeconds x).1 = toInt x
    ∧ (TIME_UTIL.calculateHoursMinutesAndSeconds x).2.1
        = toInt (60 * (x - ((TIME_UTIL.calculateHoursMinutesAndSeconds x).1 : ℚ)))
    ∧ |(TIME_UTIL.calculateHoursMinutesAndSeconds x).2.1| ≤ 59
    ∧ |(TIME_UTIL.calculateHoursMinutesAndSeconds x).2.2| < 60
    ∧ (x ≤ 0 → (TIME_UTIL.calculateHoursMinutesAndSeconds x).1 ≤ 0
        ∧ (TIME_UTIL.calculateHoursMinutesAndSeconds x).2.1 ≤ 0
        ∧ (TIME_UTIL.calculateHoursMinutesAndSeconds x).2.2 ≤ 0)
    ∧ (0 ≤ x → 0 ≤ (TIME_UTIL.calculateHoursMinutesAndSeconds x).1
        ∧ 0 ≤ (TIME_UTIL.calculateHoursMinutesAndSeconds x).2.1
        ∧ 0 ≤ (TIME_UTIL.calculateHoursMinutesAndSeconds x).2.2)
    ∧ TIME_UTIL.calculateHoursMinutesAndSeconds (-5.11) = (-5, -6, -36) := by
  rw [calculateHoursMinutesAndSeconds_eq]
  dsimp only
  set h : ℤ := toInt x with hh
  set mins : ℚ := 60 * (x - (h : ℚ)) with hmins
  set m : ℤ := toInt mins with hm
  have key : (0 ≤ x → 0 ≤ h ∧ 0 ≤ m ∧ m ≤ 59 ∧ 0 ≤ 60 * (mins - (m : ℚ))
        ∧ 60 * (mins - (m : ℚ)) < 60)
      ∧ (x ≤ 0 → h ≤ 0 ∧ m ≤ 0 ∧ -59 ≤ m ∧ 60 * (mins - (m : ℚ)) ≤ 0
        ∧ -60 < 60 * (mins - (m : ℚ))) := by
    constructor
    · intro hx
      obtain ⟨a1, a2, a3⟩ := toInt_bounds_of_nonneg hx
      have hmins0 : 0 ≤ mins := by rw [hmins]; linarith
      obtain ⟨b1, b2, b3⟩ := toInt_bounds_of_nonneg hmins0
      refine ⟨a1, b1, ?_, by linarith, by linarith⟩
      have : ((m : ℤ) : ℚ) < ((60 : ℤ) : ℚ) := by
        push_cast; rw [hmins] at b2; linarith
      have : m < 60 := by exact_mod_cast this
      omega
    · intro hx
      obtain ⟨a1, a2, a3⟩ := toInt_bounds_of_nonpos hx
      have hmins0 : mins ≤ 0 := by rw [hmins]; linarith
      obtain ⟨b1, b2, b3⟩ := toInt_bounds_of_nonpos hmins0
      refine ⟨a1, b1, ?_, by linarith, by linarith⟩
      have : ((-60 : ℤ) : ℚ) < ((m : ℤ) : ℚ) := by
        push_cast; rw [hmins] at b3; linarith
      have : -60 < m := by exact_mod_cast this
      omega
  refine ⟨rfl, rfl, ?_, ?_, ?_, ?_, by decide!⟩
  · rcases le_total 0 x with hx | hx
    · obtain ⟨-, c1, c2, -, -⟩ := key.1 hx
      rw [abs_le]; constructor <;> omega
    · obtain ⟨-, c1, c2, -, -⟩ := key.2 hx
      rw [abs_le]; constructor <;> omega
  · rcases le_total 0 x with hx | hx
    · obtain ⟨-, -, -, c1, c2⟩ := key.1 hx
      rw [abs_lt]; constructor <;> linarith
    · obtain ⟨-, -, -, c1, c2⟩ := key.2 hx
      rw [abs_lt]; constructor <;> linarith
  · intro hx
    obtain ⟨c1, c2, -, c3, -⟩ := key.2 hx
    exact ⟨c1, c2, c3⟩
  · intro hx
    obtain ⟨c1, c2, -, c3, -⟩ := key.1 hx
    exact ⟨c1, c2, c3⟩

/-- C22. In exact arithmetic `calculateHoursMinutesAndSeconds` is the inverse
of `calculateDecimalHours`: the decimal hours of the triple computed from `x`
are `x`, and for `h ≥ 0`, `m` in 0..59 and `0 ≤ s < 60` the triple computed
from `calculateDecimalHours(h, m, s)` is `(h, m, s)`. -/
theorem calculateHoursMinutesAndSeconds_inverse (x : ℚ) (h m : ℤ) (s : ℚ)
    (hh : 0 ≤ h) (hm0 : 0 ≤ m) (hm59 : m ≤ 59) (hs0 : 0 ≤ s) (hs60 : s < 60) :
    TIME_UTIL.calculateDecimalHours (TIME_UTIL.calculateHoursMinutesAndSeconds x).1
        (TIME_UTIL.calculateHoursMinutesAndSeconds x).2.1
        (TIME_UTIL.calculateHoursMinutesAndSeconds x).2.2 = x
    ∧ TIME_UTIL.calculateHoursMinutesAndSeconds (TIME_UTIL.calculateDecimalHours h m s)
        = (h, m, s) := by
  constructor
  · rw [calculateHoursMinutesAndSeconds_eq]
    unfold TIME_UTIL.calculateDecimalHours SPA_MINUTES_IN_HOUR SPA_SECONDS_IN_HOUR
      SPA_SECONDS_IN_MINUTE SPA_MINUTES_IN_HOUR
    push_cast
    ring
  · rw [calculateHoursMinutesAndSeconds_eq]
    have hx : TIME_UTIL.calculateDecimalHours h m s = (h : ℚ) + (m : ℚ) / 60 + s / 3600 := by
      unfold TIME_UTIL.calculateDecimalHours SPA_MINUTES_IN_HOUR SPA_SECONDS_IN_HOUR
        SPA_SECONDS_IN_MINUTE SPA_MINUTES_IN_HOUR
      norm_num
    rw [hx]
    have hhq : (0 : ℚ) ≤ (h : ℚ) := by exact_mod_cast hh
    have hm0q : (0 : ℚ) ≤ (m : ℚ) := by exact_mod_cast hm0
    have hm59q : (m : ℚ) ≤ 59 := by exact_mod_cast hm59
    have e1 : toInt ((h : ℚ) + (m : ℚ) / 60 + s / 3600) = h := by
      rw [toInt_of_nonneg (by positivity), Int.floor_eq_iff]
      constructor <;> linarith
    rw [e1]
    have e2 : (60 : ℚ) * ((h : ℚ) + (m : ℚ) / 60 + s / 3600 - (h : ℚ)) = (m : ℚ) + s / 60 := by
      ring
    rw [e2]
    have e3 : toInt ((m : ℚ) + s / 60) = m := by
      rw [toInt_of_nonneg (by positivity), Int.floor_eq_iff]
      constructor <;> linarith
    rw [e3]
    have e4 : (60 : ℚ) * ((m : ℚ) + s / 60 - (m : ℚ)) = s := by ring
    rw [e4]

/-- C22, witness: 1.5 decimal hours and the triple (1, 30, 0). -/
theorem calculateHoursMinutesAndSeconds_inverse_witness :
    TIME_UTIL.calculateDecimalHours (TIME_UTIL.calculateHoursMinutesAndSeconds 1.5).1
        (TIME_UTIL.calculateHoursMinutesAndSeconds 1.5).2.1
        (TIME_UTIL.calculateHoursMinutesAndSeconds 1.5).2.2 = 1.5
    ∧ TIME_UTIL.calculateHoursMinutesAndSeconds (TIME_UTIL.calculateDecimalHours 1 30 0)
        = (1, 30, 0) :=
  calculateHoursMinutesAndSeconds_inverse 1.5 1 30 0 (by decide) (by decide) (by decide)
    (by decide!) (by decide!)

/-- C23. `convertBCE_Year` maps a BC/BCE year to the astronomical year: for
`n ≥ 1` it returns `-(n - 1)`, for `n < 1` it returns 0, and the result is never
positive; 1 gives 0, 10 gives -9, 4713 gives -4712 and -10 gives 0. -/
theorem convertBCE_Year_spec (n : ℤ) :
    (1 ≤ n → TIME_UTIL.convertBCE_Year n = -(n - 1))
    ∧ (n < 1 → TIME_UTIL.convertBCE_Year n = 0)
    ∧ TIME_UTIL.convertBCE_Year n ≤ 0
    ∧ TIME_UTIL.convertBCE_Year 1 = 0
    ∧ TIME_UTIL.convertBCE_Year 10 = -9
    ∧ TIME_UTIL.convertBCE_Year 4713 = -4712
    ∧ TIME_UTIL.convertBCE_Year (-10) = 0 := by
  refine ⟨?_, ?_, ?_, by decide, by decide, by decide, by decide⟩
  · intro h
    unfold TIME_UTIL.convertBCE_Year
    rw [if_neg (by omega)]
  · intro h
    unfold TIME_UTIL.convertBCE_Year
    rw [if_pos h]
  · unfold TIME_UTIL.convertBCE_Year
    split_ifs <;> omega

/-! ## The date of Easter -/

/-- For a non-negative year every dividend of `calculateEaster` is
non-negative, so the truncating divisions are the floored ones of the
reference definition. -/
theorem calculateEaster_eq_specEaster (Y : ℤ) (hY : 0 ≤ Y) :
    TIME_UTIL.calculateEaster Y = specEaster Y := by
  have ha : Y.tmod 19 = Y % 19 := Int.tmod_eq_emod hY (by norm_num)
  have hb : Y.tdiv 100 = Y / 100 := Int.tdiv_eq_ediv hY (by norm_num)
  have hc : Y.tmod 100 = Y % 100 := Int.tmod_eq_emod hY (by norm_num)
  have hd : (Y / 100).tdiv 4 = Y / 100 / 4 := Int.tdiv_eq_ediv (by omega) (by norm_num)
  have he : (Y / 100).tmod 4 = Y / 100 % 4 := Int.tmod_eq_emod (by omega) (by norm_num)
  have hf : (Y / 100 + 8).tdiv 25 = (Y / 100 + 8) / 25 :=
    Int.tdiv_eq_ediv (by omega) (by norm_num)
  have hg : (Y / 100 - (Y / 100 + 8) / 25 + 1).tdiv 3 = (Y / 100 - (Y / 100 + 8) / 25 + 1) / 3 :=
    Int.tdiv_eq_ediv (by omega) (by norm_num)
  have hh : (19 * (Y % 19) + Y / 100 - Y / 100 / 4 - (Y / 100 - (Y / 100 + 8) / 25 + 1) / 3
        + 15).tmod 30
      = (19 * (Y % 19) + Y / 100 - Y / 100 / 4 - (Y / 100 - (Y / 100 + 8) / 25 + 1) / 3
        + 15) % 30 :=
    Int.tmod_eq_emod (by omega) (by norm_num)
  have hi : (Y % 100).tdiv 4 = Y % 100 / 4 := Int.tdiv_eq_ediv (by omega) (by norm_num)
  have hk : (Y % 100).tmod 4 = Y % 100 % 4 := Int.tmod_eq_emod (by omega) (by norm_num)
  unfold TIME_UTIL.calculateEaster TIME_UTIL.quotientAndRemainder specEaster
  simp only [ha, hb, hc, hd, he, hf, hg, hh, hi, hk]
  have bh := Int.emod_nonneg (19 * (Y % 19) + Y / 100 - Y / 100 / 4
      - (Y / 100 - (Y / 100 + 8) / 25 + 1) / 3 + 15) (show (30 : ℤ) ≠ 0 by norm_num)
  have bh2 := Int.emod_lt_of_pos (19 * (Y % 19) + Y / 100 - Y / 100 / 4
      - (Y / 100 - (Y / 100 + 8) / 25 + 1) / 3 + 15) (show (0 : ℤ) < 30 by norm_num)
  generalize (19 * (Y % 19) + Y / 100 - Y / 100 / 4 - (Y / 100 - (Y / 100 + 8) / 25 + 1) / 3
        + 15) % 30 = h at *
  have be : 0 ≤ Y / 100 % 4 ∧ Y / 100 % 4 < 4 := by omega
  have bi : 0 ≤ Y % 100 / 4 ∧ Y % 100 / 4 < 25 := by omega
  have bk : 0 ≤ Y % 100 % 4 ∧ Y % 100 % 4 < 4 := by omega
  have ba : 0 ≤ Y % 19 ∧ Y % 19 < 19 := by omega
  generalize Y / 100 % 4 = e at *
  generalize Y % 100 / 4 = i at *
  generalize Y % 100 % 4 = k at *
  generalize Y % 19 = a at *
  clear ha hb hc hd he hf hg hh hi hk
  have hl : (32 + 2 * (e + i) - h - k).tmod 7 = (32 + 2 * e + 2 * i - h - k) % 7 := by
    have : 32 + 2 * (e + i) - h - k = 32 + 2 * e + 2 * i - h - k := by ring
    rw [this]
    exact Int.tmod_eq_emod (by omega) (by norm_num)
  rw [hl]
  have bl : 0 ≤ (32 + 2 * e + 2 * i - h - k) % 7 ∧ (32 + 2 * e + 2 * i - h - k) % 7 < 7 := by
    omega
  generalize (32 + 2 * e + 2 * i - h - k) % 7 = l at *
  have hm : (a + 11 * h + 22 * l).tdiv 451 = (a + 11 * h + 22 * l) / 451 :=
    Int.tdiv_eq_ediv (by omega) (by norm_num)
  rw [hm]
  have hn : (h + l - 7 * ((a + 11 * h + 22 * l) / 451) + 114).tdiv 31
      = (h + l - 7 * ((a + 11 * h + 22 * l) / 451) + 114) / 31 :=
    Int.tdiv_eq_ediv (by omega) (by norm_num)
  have hp : (h + l - 7 * ((a + 11 * h + 22 * l) / 451) + 114).tmod 31
      = (h + l - 7 * ((a + 11 * h + 22 * l) / 451) + 114) % 31 :=
    Int.tmod_eq_emod (by omega) (by norm_num)
  rw [hn, hp]


/-- C24. For every year from 1583 on `calculateEaster` returns the month and
day of the Meeus/Jones/Butcher reference definition (`month = n div 31`,
`day = (n mod 31) + 1` with the intermediate values `a` to `n` computed by floored
division and remainder). -/
theorem calculateEaster_spec (Y : ℤ) (hY : 1583 ≤ Y) :
    TIME_UTIL.calculateEaster Y = specEaster Y :=
  calculateEaster_eq_specEaster Y (by omega)

/-- C24, witness: the years 2000, 1818, 1943 and 2029 of the tests. -/
theorem calculateEaster_spec_witness :
    TIME_UTIL.calculateEaster 2000 = (4, 23) ∧ TIME_UTIL.calculateEaster 1818 = (3, 22)
    ∧ TIME_UTIL.calculateEaster 1943 = (4, 25) ∧ TIME_UTIL.calculateEaster 2029 = (4, 1) := by
  refine ⟨?_, ?_, ?_, ?_⟩
  · rw [calculateEaster_spec 2000 (by decide)]; decide
  · rw [calculateEaster_spec 1818 (by decide)]; decide
  · rw [calculateEaster_spec 1943 (by decide)]; decide
  · rw [calculateEaster_spec 2029 (by decide)]; decide

/-- C25. For every year from 1583 on `calculateEaster` returns a date from
March 22 to April 25: the month is 3 or 4, the day is in 1..31, in March it is
at least 22 and in April at most 25. -/
theorem calculateEaster_range (Y : ℤ) (hY : 1583 ≤ Y) :
    ((TIME_UTIL.calculateEaster Y).1 = 3 ∨ (TIME_UTIL.calculateEaster Y).1 = 4)
    ∧ 1 ≤ (TIME_UTIL.calculateEaster Y).2 ∧ (TIME_UTIL.calculateEaster Y).2 ≤ 31
    ∧ ((TIME_UTIL.calculateEaster Y).1 = 3 → 22 ≤ (TIME_UTIL.calculateEaster Y).2)
    ∧ ((TIME_UTIL.calculateEaster Y).1 = 4 → (TIME_UTIL.calculateEaster Y).2 ≤ 25) := by
  rw [calculateEaster_eq_specEaster Y (by omega)]
  unfold specEaster
  dsimp only
  have bh := Int.emod_nonneg (19 * (Y % 19) + Y / 100 - Y / 100 / 4
      - (Y / 100 - (Y / 100 + 8) / 25 + 1) / 3 + 15) (show (30 : ℤ) ≠ 0 by norm_num)
  have bh2 := Int.emod_lt_of_pos (19 * (Y % 19) + Y / 100 - Y / 100 / 4
      - (Y / 100 - (Y / 100 + 8) / 25 + 1) / 3 + 15) (show (0 : ℤ) < 30 by norm_num)
  generalize (19 * (Y % 19) + Y / 100 - Y / 100 / 4 - (Y / 100 - (Y / 100 + 8) / 25 + 1) / 3
        + 15) % 30 = h at *
  have bl := Int.emod_nonneg (32 + 2 * (Y / 100 % 4) + 2 * (Y % 100 / 4) - h - Y % 100 % 4)
    (show (7 : ℤ) ≠ 0 by norm_num)
  have bl2 := Int.emod_lt_of_pos (32 + 2 * (Y / 100 % 4) + 2 * (Y % 100 / 4) - h - Y % 100 % 4)
    (show (0 : ℤ) < 7 by norm_num)
  generalize (32 + 2 * (Y / 100 % 4) + 2 * (Y % 100 / 4) - h - Y % 100 % 4) % 7 = l at *
  have ba : 0 ≤ Y % 19 ∧ Y % 19 < 19 := by omega
  generalize Y % 19 = a at *
  clear hY
  omega

/-- C25, witness: the earliest and the latest date, March 22 in 1818 and
April 25 in 1943. -/
theorem calculateEaster_range_witness :
    TIME_UTIL.calculateEaster 1818 = (3, 22) ∧ TIME_UTIL.calculateEaster 1943 = (4, 25)
    ∧ ((TIME_UTIL.calculateEaster 1818).1 = 3 → 22 ≤ (TIME_UTIL.calculateEaster 1818).2)
    ∧ ((TIME_UTIL.calculateEaster 1943).1 = 4 → (TIME_UTIL.calculateEaster 1943).2 ≤ 25) :=
  ⟨by decide, by decide, (calculateEaster_range 1818 (by decide)).2.2.2.1,
    (calculateEaster_range 1943 (by decide)).2.2.2.2⟩

/-! ## Day of the week -/

/-- C26. `calculateDayInTheWeek` returns `MON` for every input, through each of
its three overloads. For 1985-02-17, Julian Date 2446113.5, the result is `MON`
(1) while `(floor(JD + 1.5)) mod 7` is 0, a Sunday; for the Julian Date
2458386.60018519 it is `MON` while the formula gives 2, a Tuesday. -/
theorem calculateDayInTheWeek_always_MON :
    (∀ jd : JulianDate, TIME_UTIL.calculateDayInTheWeek jd = WeekDays.MON)
    ∧ (∀ t : DateAndTime, TIME_UTIL.calculateDayInTheWeekOfDateAndTime t = WeekDays.MON)
    ∧ (∀ y m d : ℤ, TIME_UTIL.calculateDayInTheWeekOfYMD y m d = WeekDays.MON)
    ∧ (JulianDate.ofDateAndTime (DateAndTime.ofYMD 1985 2 17)).getDecimalDays = 2446113.5
    ∧ (TIME_UTIL.calculateDayInTheWeekOfYMD 1985 2 17).val = 1
    ∧ specDayInTheWeek (JulianDate.ofDateAndTime (DateAndTime.ofYMD 1985 2 17)).getDecimalDays
        = 0
    ∧ (TIME_UTIL.calculateDayInTheWeek ⟨2458386.60018519⟩).val = 1
    ∧ specDayInTheWeek (JulianDate.mk 2458386.60018519).getDecimalDays = 2 := by
  refine ⟨fun _ => rfl, fun _ => rfl, fun _ _ _ => rfl, ?_, ?_, ?_, ?_, ?_⟩ <;> decide!

/-! ## Comparison of civil dates -/

theorem eq_iff (a b : DateAndTime) : DateAndTime.eq a b = true ↔ a = b := by
  unfold DateAndTime.eq
  constructor
  · intro h
    split_ifs at h with h1 h2 h3 h4 h5 h6 h7
    cases a; cases b
    simp only [ne_eq, not_not] at h1 h2 h3 h4 h5 h6 h7
    simp_all
  · rintro rfl
    simp

/-- C27. `DateAndTime` equality is strict field equality: `a == b` holds exactly
when year, month, day, hours, minutes, seconds and UTC offset are all equal,
and `a != b` is its negation; 1985-02-17 06:07:11 at offset -2.0 is not equal
to the same fields at offset -2.1 or -1.9. -/
theorem eq_iff_fields (a b : DateAndTime) :
    (DateAndTime.eq a b = true ↔
      (a.theYear = b.theYear ∧ a.theMonth = b.theMonth ∧ a.theDay = b.theDay
        ∧ a.theHours = b.theHours ∧ a.theMinutes = b.theMinutes
        ∧ a.theSeconds = b.theSeconds ∧ a.theUTC_OffsetHours = b.theUTC_OffsetHours))
    ∧ DateAndTime.ne a b = !DateAndTime.eq a b
    ∧ DateAndTime.eq ⟨1985, 2, 17, 6, 7, 11, -2.0⟩ ⟨1985, 2, 17, 6, 7, 11, -2.1⟩ = false
    ∧ DateAndTime.ne ⟨1985, 2, 17, 6, 7, 11, -2.0⟩ ⟨1985, 2, 17, 6, 7, 11, -2.1⟩ = true
    ∧ DateAndTime.eq ⟨1985, 2, 17, 6, 7, 11, -2.0⟩ ⟨1985, 2, 17, 6, 7, 11, -1.9⟩ = false
    ∧ DateAndTime.ne ⟨1985, 2, 17, 6, 7, 11, -2.0⟩ ⟨1985, 2, 17, 6, 7, 11, -1.9⟩ = true := by
  refine ⟨?_, rfl, by decide!, by decide!, by decide!, by decide!⟩
  rw [eq_iff]
  constructor
  · rintro rfl
    exact ⟨rfl, rfl, rfl, rfl, rfl, rfl, rfl⟩
  · intro h
    cases a; cases b
    simp_all

theorem lt_iff_lex (a b : DateAndTime) :
    DateAndTime.lt a b = true ↔
      (a.theYear < b.theYear
        ∨ (a.theYear = b.theYear ∧ a.theMonth < b.theMonth)
        ∨ (a.theYear = b.theYear ∧ a.theMonth = b.theMonth ∧ a.theDay < b.theDay)
        ∨ (a.theYear = b.theYear ∧ a.theMonth = b.theMonth ∧ a.theDay = b.theDay
            ∧ a.getDayFraction < b.getDayFraction)) := by
  unfold DateAndTime.lt
  split_ifs with h1 h2 h3 h4 h5 h6 h7
  · simp [h1]
  · have : ¬ a.theYear = b.theYear := by omega
    simp [h1, this]
  · have : a.theYear = b.theYear := by omega
    simp [this, h3]
  · have e1 : a.theYear = b.theYear := by omega
    have e2 : ¬ a.theMonth = b.theMonth := by omega
    simp [e1, h3, e2]
  · have e1 : a.theYear = b.theYear := by omega
    have e2 : a.theMonth = b.theMonth := by omega
    simp [e1, e2, h5]
  · have e1 : a.theYear = b.theYear := by omega
    have e2 : a.theMonth = b.theMonth := by omega
    have e3 : ¬ a.theDay = b.theDay := by omega
    simp [e1, e2, e3, h5]
  · have e1 : a.theYear = b.theYear := by omega
    have e2 : a.theMonth = b.theMonth := by omega
    have e3 : a.theDay = b.theDay := by omega
    simp [e1, e2, e3, h7]
  · have e1 : a.theYear = b.theYear := by omega
    have e2 : a.theMonth = b.theMonth := by omega
    have e3 : a.theDay = b.theDay := by omega
    simp [e1, e2, e3, h7]


theorem lt_iff_specOrderKey (a b : DateAndTime) :
    DateAndTime.lt a b = true ↔ specOrderKey a < specOrderKey b := by
  rw [lt_iff_lex]
  unfold specOrderKey
  rw [Prod.Lex.lt_iff, Prod.Lex.lt_iff, Prod.Lex.lt_iff]
  dsimp only
  tauto

theorem le_iff_specOrderKey (a b : DateAndTime) :
    DateAndTime.le a b = true ↔ specOrderKey a ≤ specOrderKey b := by
  unfold DateAndTime.le DateAndTime.gt
  rw [Bool.not_eq_true', ← Bool.not_eq_true, lt_iff_specOrderKey, not_lt]

/-- C29. `DateAndTime` provides a total ordering: in exact arithmetic `operator<`
is irreflexive and transitive, and `operator<=` is reflexive, transitive and
total. -/
theorem dateAndTime_total_order :
    (∀ a : DateAndTime, DateAndTime.lt a a = false)
    ∧ (∀ a b c : DateAndTime, DateAndTime.lt a b = true → DateAndTime.lt b c = true →
        DateAndTime.lt a c = true)
    ∧ (∀ a : DateAndTime, DateAndTime.le a a = true)
    ∧ (∀ a b c : DateAndTime, DateAndTime.le a b = true → DateAndTime.le b c = true →
        DateAndTime.le a c = true)
    ∧ (∀ a b : DateAndTime, DateAndTime.le a b = true ∨ DateAndTime.le b a = true) := by
  refine ⟨?_, ?_, ?_, ?_, ?_⟩
  · intro a
    rw [← Bool.not_eq_true, lt_iff_specOrderKey]
    exact lt_irrefl _
  · intro a b c hab hbc
    rw [lt_iff_specOrderKey] at *
    exact lt_trans hab hbc
  · intro a
    rw [le_iff_specOrderKey]
  · intro a b c hab hbc
    rw [le_iff_specOrderKey] at *
    exact le_trans hab hbc
  · intro a b
    rw [le_iff_specOrderKey, le_iff_specOrderKey]
    exact le_total _ _

/-- C30. Equality is stricter than the ordering: 1985-02-17 06:00:00 at offset 0
and 1985-02-17 07:00:00 at offset -1.0 have the same year, month and day and
equal day fractions, and for them `a < b`, `b < a` and `a == b` are all false. -/
theorem eq_stricter_than_order :
    ∃ a b : DateAndTime, a = ⟨1985, 2, 17, 6, 0, 0, 0⟩ ∧ b = ⟨1985, 2, 17, 7, 0, 0, -1.0⟩
      ∧ a.theYear = b.theYear ∧ a.theMonth = b.theMonth ∧ a.theDay = b.theDay
      ∧ a.getDayFraction = b.getDayFraction
      ∧ DateAndTime.lt a b = false ∧ DateAndTime.lt b a = false
      ∧ DateAndTime.eq a b = false :=
  ⟨⟨1985, 2, 17, 6, 0, 0, 0⟩, ⟨1985, 2, 17, 7, 0, 0, -1.0⟩, rfl, rfl, by decide!⟩


/-! ## Derived comparison operators, day fraction, constructors and setters -/

theorem lt_self_false (a : DateAndTime) : DateAndTime.lt a a = false := by
  rw [← Bool.not_eq_true, lt_iff_specOrderKey]
  exact lt_irrefl _

/-- C31. The derived comparison operators are defined from `<` and `==`:
`(a > b) = (b < a)`, `(a <= b) = not (b < a)`, `(a >= b) = not (a < b)`,
`(a != b) = not (a == b)`; and for every `a`, `a < a` and `a > a` are false while
`a <= a`, `a >= a` and `a == a` are true. -/
theorem derived_operators (a b : DateAndTime) :
    DateAndTime.gt a b = DateAndTime.lt b a
    ∧ DateAndTime.le a b = !DateAndTime.lt b a
    ∧ DateAndTime.ge a b = !DateAndTime.lt a b
    ∧ DateAndTime.ne a b = !DateAndTime.eq a b
    ∧ DateAndTime.lt a a = false ∧ DateAndTime.gt a a = false
    ∧ DateAndTime.le a a = true ∧ DateAndTime.ge a a = true
    ∧ DateAndTime.eq a a = true := by
  refine ⟨rfl, rfl, rfl, rfl, lt_self_false a, lt_self_false a, ?_, ?_, (eq_iff a a).mpr rfl⟩
  · show (!DateAndTime.lt a a) = true
    rw [lt_self_false]; rfl
  · show (!DateAndTime.lt a a) = true
    rw [lt_self_false]; rfl

theorem getDayFraction_eq (t : DateAndTime) :
    t.getDayFraction = (t.theHours : ℚ) / 24 + (t.theMinutes : ℚ) / 1440
      + t.theSeconds / 86400 + t.theUTC_OffsetHours / 24 := by
  simp only [DateAndTime.getDayFraction, SPA_HOURS_IN_DAY, SPA_MINUTES_IN_DAY,
    SPA_SECONDS_IN_DAY, SPA_SECONDS_IN_HOUR, SPA_MINUTES_IN_HOUR, SPA_SECONDS_IN_MINUTE]
  norm_num

/-- C33. For every `DateAndTime` the day fraction is
`hours/24 + minutes/1440 + seconds/86400 + utcOffsetHours/24`, the offset being
added; 08:00:00 at offset 0 gives 1/3 and 06:00:00 at offset -12.0 gives -0.25. -/
theorem getDayFraction_spec (t : DateAndTime) :
    t.getDayFraction = (t.theHours : ℚ) / 24 + (t.theMinutes : ℚ) / 1440
        + t.theSeconds / 86400 + t.theUTC_OffsetHours / 24
    ∧ DateAndTime.getDayFraction ⟨1985, 2, 17, 8, 0, 0, 0⟩ = 1 / 3
    ∧ DateAndTime.getDayFraction ⟨1985, 2, 17, 6, 0, 0, -12.0⟩ = -0.25 :=
  ⟨getDayFraction_eq t, by decide!, by decide!⟩

/-- C34. `DateAndTime` never normalises or range-checks: the seven-argument
constructor stores every argument unchanged, the three-argument form sets
hours, minutes, seconds and UTC offset to 0, the default constructor sets all
seven fields to 0, and each setter changes exactly its own field. -/
theorem constructors_and_setters (y mo d h mi : ℤ) (s o : ℚ) (t : DateAndTime) (n : ℤ) (q : ℚ) :
    ((DateAndTime.mk y mo d h mi s o).theYear = y
      ∧ (DateAndTime.mk y mo d h mi s o).theMonth = mo
      ∧ (DateAndTime.mk y mo d h mi s o).theDay = d
      ∧ (DateAndTime.mk y mo d h mi s o).theHours = h
      ∧ (DateAndTime.mk y mo d h mi s o).theMinutes = mi
      ∧ (DateAndTime.mk y mo d h mi s o).theSeconds = s
      ∧ (DateAndTime.mk y mo d h mi s o).theUTC_OffsetHours = o)
    ∧ DateAndTime.ofYMD y mo d = ⟨y, mo, d, 0, 0, 0, 0⟩
    ∧ DateAndTime.defaultCtor = ⟨0, 0, 0, 0, 0, 0, 0⟩
    ∧ t.setYear n = ⟨n, t.theMonth, t.theDay, t.theHours, t.theMinutes, t.theSeconds,
        t.theUTC_OffsetHours⟩
    ∧ t.setMonth n = ⟨t.theYear, n, t.theDay, t.theHours, t.theMinutes, t.theSeconds,
        t.theUTC_OffsetHours⟩
    ∧ t.setDay n = ⟨t.theYear, t.theMonth, n, t.theHours, t.theMinutes, t.theSeconds,
        t.theUTC_OffsetHours⟩
    ∧ t.setHours n = ⟨t.theYear, t.theMonth, t.theDay, n, t.theMinutes, t.theSeconds,
        t.theUTC_OffsetHours⟩
    ∧ t.setMinutes n = ⟨t.theYear, t.theMonth, t.theDay, t.theHours, n, t.theSeconds,
        t.theUTC_OffsetHours⟩
    ∧ t.setSeconds q = ⟨t.theYear, t.theMonth, t.theDay, t.theHours, t.theMinutes, q,
        t.theUTC_OffsetHours⟩
    ∧ t.setUtcOffsetHours q = ⟨t.theYear, t.theMonth, t.theDay, t.theHours, t.theMinutes,
        t.theSeconds, q⟩ :=
  ⟨⟨rfl, rfl, rfl, rfl, rfl, rfl, rfl⟩, rfl, rfl, rfl, rfl, rfl, rfl, rfl, rfl, rfl⟩

/-! ## SpaDate -/

theorem spaDate_eq_iff (a b : SpaDate) : SpaDate.eq a b = true ↔ a = b := by
  unfold SpaDate.eq
  constructor
  · intro h
    split_ifs at h with h1 h2 h3
    cases a; cases b
    simp only [ne_eq, not_not] at h1 h2 h3
    simp_all
  · rintro rfl
    simp

theorem spaDate_lt_iff (a b : SpaDate) :
    SpaDate.lt a b = true ↔
      (a.theYear < b.theYear
        ∨ (a.theYear = b.theYear ∧ a.theMonth < b.theMonth)
        ∨ (a.theYear = b.theYear ∧ a.theMonth = b.theMonth ∧ a.theDay < b.theDay)) := by
  unfold SpaDate.lt
  split_ifs with h1 h2 h3 h4 h5
  · simp [h1]
  · have : ¬ a.theYear = b.theYear := by omega
    simp [h1, this]
  · have : a.theYear = b.theYear := by omega
    simp [this, h3]
  · have e1 : a.theYear = b.theYear := by omega
    have e2 : ¬ a.theMonth = b.theMonth := by omega
    simp [e1, h3, e2]
  · have e1 : a.theYear = b.theYear := by omega
    have e2 : a.theMonth = b.theMonth := by omega
    simp [e1, e2, h5]
  · have e1 : a.theYear = b.theYear := by omega
    have e2 : a.theMonth = b.theMonth := by omega
    simp [e1, e2, h5]

/-- C40. For `SpaDate`, `operator<` is the strict lexicographic order on
(year, month, day) and `operator==` is equality of the three fields, so exactly
one of `a < b`, `a == b`, `b < a` holds; `>`, `<=`, `>=` and `!=` are the usual
derived operators. -/
theorem spaDate_trichotomy (a b : SpaDate) :
    (SpaDate.lt a b = true ↔
      (a.theYear < b.theYear
        ∨ (a.theYear = b.theYear ∧ a.theMonth < b.theMonth)
        ∨ (a.theYear = b.theYear ∧ a.theMonth = b.theMonth ∧ a.theDay < b.theDay)))
    ∧ (SpaDate.eq a b = true ↔
        (a.theYear = b.theYear ∧ a.theMonth = b.theMonth ∧ a.theDay = b.theDay))
    ∧ ((SpaDate.lt a b = true ∧ SpaDate.eq a b = false ∧ SpaDate.lt b a = false)
        ∨ (SpaDate.lt a b = false ∧ SpaDate.eq a b = true ∧ SpaDate.lt b a = false)
        ∨ (SpaDate.lt a b = false ∧ SpaDate.eq a b = false ∧ SpaDate.lt b a = true))
    ∧ SpaDate.gt a b = SpaDate.lt b a
    ∧ SpaDate.le a b = !SpaDate.lt b a
    ∧ SpaDate.ge a b = !SpaDate.lt a b
    ∧ SpaDate.ne a b = !SpaDate.eq a b
    ∧ (SpaDate.le a b = true ↔ (SpaDate.lt a b = true ∨ SpaDate.eq a b = true))
    ∧ (SpaDate.ge a b = true ↔ (SpaDate.lt b a = true ∨ SpaDate.eq a b = true)) := by
  have hE : SpaDate.eq a b = true ↔
      (a.theYear = b.theYear ∧ a.theMonth = b.theMonth ∧ a.theDay = b.theDay) := by
    rw [spaDate_eq_iff]
    constructor
    · rintro rfl
      exact ⟨rfl, rfl, rfl⟩
    · intro h
      cases a; cases b
      simp_all
  have hab := spaDate_lt_iff a b
  have hba := spaDate_lt_iff b a
  have tri : (SpaDate.lt a b = true ∧ SpaDate.eq a b = false ∧ SpaDate.lt b a = false)
      ∨ (SpaDate.lt a b = false ∧ SpaDate.eq a b = true ∧ SpaDate.lt b a = false)
      ∨ (SpaDate.lt a b = false ∧ SpaDate.eq a b = false ∧ SpaDate.lt b a = true) := by
    simp only [← Bool.not_eq_true, hab, hba, hE]
    omega
  refine ⟨hab, hE, tri, rfl, rfl, rfl, rfl, ?_, ?_⟩
  · show (!SpaDate.lt b a) = true ↔ _
    rcases tri with ⟨h1, h2, h3⟩ | ⟨h1, h2, h3⟩ | ⟨h1, h2, h3⟩ <;> simp [h1, h2, h3]
  · show (!SpaDate.lt a b) = true ↔ _
    rcases tri with ⟨h1, h2, h3⟩ | ⟨h1, h2, h3⟩ | ⟨h1, h2, h3⟩ <;> simp [h1, h2, h3]


/-! ## The year term and the Gregorian year -/

/-- For a negative argument, truncating `365.25*y - 0.75` toward zero gives the
floor of `365.25*y`. -/
theorem toInt_julianYear_of_neg (y : ℤ) (hy : y < 0) :
    toInt ((365.25 : ℚ) * (y : ℚ) - 0.75) = (1461 * y) / 4 := by
  have hq : (365.25 : ℚ) * (y : ℚ) - 0.75 < 0 := by
    have : ((y : ℤ) : ℚ) < 0 := by exact_mod_cast hy
    nlinarith
  rw [toInt_of_neg hq, Int.ceil_eq_iff]
  have hdiv := Int.emod_add_ediv (1461 * y) 4
  have h0 := Int.emod_nonneg (1461 * y) (show (4 : ℤ) ≠ 0 by norm_num)
  have h1 := Int.emod_lt_of_pos (1461 * y) (show (0 : ℤ) < 4 by norm_num)
  have hdivq : ((1461 * y % 4 : ℤ) : ℚ) + 4 * (((1461 * y) / 4 : ℤ) : ℚ) = 1461 * (y : ℚ) := by
    exact_mod_cast hdiv
  have h0q : (0 : ℚ) ≤ ((1461 * y % 4 : ℤ) : ℚ) := by exact_mod_cast h0
  have h1q : ((1461 * y % 4 : ℤ) : ℚ) ≤ 3 := by
    have : 1461 * y % 4 ≤ 3 := by omega
    exact_mod_cast this
  constructor <;> linarith

theorem c_const_eq_ediv (y : ℤ) : JulianDate.c_const y = (1461 * y) / 4 := by
  rcases lt_or_le y 0 with hy | hy
  · unfold JulianDate.c_const SPA_DAYS_IN_JULIAN_YEAR
    simp only [hy, if_true]
    exact toInt_julianYear_of_neg y hy
  · exact c_const_of_nonneg hy

/-- C38. The two branches of the year term agree with a single floor: for every
negative integer `y'`, `365.25*y' - 0.75` truncated toward zero is
`floor(365.25*y')`, so for every integer shifted year the year term `c_const` is
`floor(365.25*y')`. -/
theorem c_const_eq_floor (y : ℤ) :
    (y < 0 → toInt ((365.25 : ℚ) * (y : ℚ) - 0.75) = ⌊(365.25 : ℚ) * (y : ℚ)⌋)
    ∧ JulianDate.c_const y = ⌊(365.25 : ℚ) * (y : ℚ)⌋ := by
  rw [floor_julianYear]
  exact ⟨toInt_julianYear_of_neg y, c_const_eq_ediv y⟩

/-- C38, witness: the shifted year -2, where `365.25*y' - 0.75 = -731.25`
truncates to -731, the floor of -730.5. -/
theorem c_const_eq_floor_witness :
    (-2 : ℤ) < 0
    ∧ toInt ((365.25 : ℚ) * (((-2 : ℤ)) : ℚ) - 0.75) = ⌊(365.25 : ℚ) * (((-2 : ℤ)) : ℚ)⌋
    ∧ JulianDate.c_const (-2) = -731 :=
  ⟨by decide, (c_const_eq_floor (-2)).1 (by decide), by decide!⟩

theorem shiftMonth_january (y d h m : ℤ) (s o : ℚ) :
    JulianDate.shiftMonth ⟨y, 1, d, h, m, s, o⟩ = ⟨y - 1, 13, d, h, m, s, o⟩ := by
  simp [JulianDate.shiftMonth, MAR]

theorem shiftMonth_of_ge (t : DateAndTime) (h : 3 ≤ t.theMonth) :
    JulianDate.shiftMonth t = t := by
  unfold JulianDate.shiftMonth MAR
  rw [if_neg (by omega)]

/-- C36. Julian Dates advance by the length of the Gregorian year: for every
year `y ≥ 1583` the Julian Date of January 0 of year `y + 1` minus that of
January 0 of year `y` is `daysInYear(y)`. -/
theorem julianDate_year_step (y : ℤ) (hy : 1583 ≤ y) :
    (JulianDate.ofFields (y + 1) 1 0 0 0 0 0).getDecimalDays
        - (JulianDate.ofFields y 1 0 0 0 0 0).getDecimalDays
      = ((TIME_UTIL.daysInYear y : ℤ) : ℚ) := by
  have hg1 : JulianDate.isGregorian ⟨y + 1, 1, 0, 0, 0, 0, 0⟩ = true :=
    isGregorian_of_year_gt _ (by simp; omega)
  have hg2 : JulianDate.isGregorian ⟨y, 1, 0, 0, 0, 0, 0⟩ = true :=
    isGregorian_of_year_gt _ (by simp; omega)
  have hday : TIME_UTIL.daysInYear y
      = if y % 4 = 0 ∧ (y % 100 ≠ 0 ∨ y % 400 = 0) then 366 else 365 := by
    unfold TIME_UTIL.daysInYear SPA_DAYS_IN_NONLEAP_YEAR
    rw [isLeapYear_of_nonneg (show (0 : ℤ) ≤ y by omega)]
    by_cases h : y % 4 = 0 ∧ (y % 100 ≠ 0 ∨ y % 400 = 0)
    · rw [if_pos (decide_eq_true h), if_pos h]; rfl
    · rw [if_neg (by simpa using h), if_neg h]
  rw [getDecimalDays_ofFields, getDecimalDays_ofFields, convertDateAndTimeToJulianDate_eq,
    convertDateAndTimeToJulianDate_eq, hg1, hg2, shiftMonth_january, shiftMonth_january,
    hday, ← gregorian_year_step y]
  have e : y + 1 - 1 = y := by ring
  have hfrac : ∀ a b c : ℤ, DateAndTime.getDayFraction ⟨a, b, c, 0, 0, 0, 0⟩ = 0 := by
    intro a b c; simp [DateAndTime.getDayFraction]
  rw [e, hfrac, hfrac]
  dsimp only
  rw [b_const_of_nonneg _ (show (0 : ℤ) ≤ y by omega),
    b_const_of_nonneg _ (show (0 : ℤ) ≤ y - 1 by omega),
    c_const_of_nonneg (show (0 : ℤ) ≤ y by omega),
    c_const_of_nonneg (show (0 : ℤ) ≤ y - 1 by omega)]
  simp only [if_true]
  push_cast
  ring

/-- C36, witness: the leap year 2000 and the common year 1900. -/
theorem julianDate_year_step_witness :
    (JulianDate.ofFields 2001 1 0 0 0 0 0).getDecimalDays
        - (JulianDate.ofFields 2000 1 0 0 0 0 0).getDecimalDays = 366
    ∧ (JulianDate.ofFields 1901 1 0 0 0 0 0).getDecimalDays
        - (JulianDate.ofFields 1900 1 0 0 0 0 0).getDecimalDays = 365 := by
  constructor
  · have h := julianDate_year_step 2000 (by decide)
    rw [show (2000 : ℤ) + 1 = 2001 by decide] at h
    rw [h]; decide!
  · have h := julianDate_year_step 1900 (by decide)
    rw [show (1900 : ℤ) + 1 = 1901 by decide] at h
    rw [h]; decide!

theorem specEaster_eq (Y : ℤ) :
    specEaster Y = (specEasterN Y / 31, specEasterN Y % 31 + 1) :=
  rfl

theorem specEasterN_range (Y : ℤ) : 114 ≤ specEasterN Y ∧ specEasterN Y ≤ 148 := by
  unfold specEasterN
  dsimp only
  have bh := Int.emod_nonneg (19 * (Y % 19) + Y / 100 - Y / 100 / 4
      - (Y / 100 - (Y / 100 + 8) / 25 + 1) / 3 + 15) (show (30 : ℤ) ≠ 0 by norm_num)
  have bh2 := Int.emod_lt_of_pos (19 * (Y % 19) + Y / 100 - Y / 100 / 4
      - (Y / 100 - (Y / 100 + 8) / 25 + 1) / 3 + 15) (show (0 : ℤ) < 30 by norm_num)
  generalize (19 * (Y % 19) + Y / 100 - Y / 100 / 4 - (Y / 100 - (Y / 100 + 8) / 25 + 1) / 3
        + 15) % 30 = h at *
  have bl := Int.emod_nonneg (32 + 2 * (Y / 100 % 4) + 2 * (Y % 100 / 4) - h - Y % 100 % 4)
    (show (7 : ℤ) ≠ 0 by norm_num)
  have bl2 := Int.emod_lt_of_pos (32 + 2 * (Y / 100 % 4) + 2 * (Y % 100 / 4) - h - Y % 100 % 4)
    (show (0 : ℤ) < 7 by norm_num)
  generalize (32 + 2 * (Y / 100 % 4) + 2 * (Y % 100 / 4) - h - Y % 100 % 4) % 7 = l at *
  have ba : 0 ≤ Y % 19 ∧ Y % 19 < 19 := by omega
  generalize Y % 19 = a at *
  omega

/-- The day count of the reference Easter date, taken modulo 7. -/
theorem specEasterN_mod_seven (Y : ℤ) :
    (2 - Y / 100 + Y / 100 / 4 + (365 * Y + Y / 4) + (specEasterN Y + 30) + 1720996) % 7
      = 0 := by
  unfold specEasterN
  dsimp only
  generalize (19 * (Y % 19) + Y / 100 - Y / 100 / 4 - (Y / 100 - (Y / 100 + 8) / 25 + 1) / 3
        + 15) % 30 = h
  have hl := Int.emod_add_ediv (32 + 2 * (Y / 100 % 4) + 2 * (Y % 100 / 4) - h - Y % 100 % 4) 7
  generalize (32 + 2 * (Y / 100 % 4) + 2 * (Y % 100 / 4) - h - Y % 100 % 4) % 7 = l at *
  generalize (32 + 2 * (Y / 100 % 4) + 2 * (Y % 100 / 4) - h - Y % 100 % 4) / 7 = q at *
  generalize (Y % 19 + 11 * h + 22 * l) / 451 = m
  have hY : Y = 100 * (Y / 100) + Y % 100 := by omega
  have hb : Y / 100 = 4 * (Y / 100 / 4) + Y / 100 % 4 := by omega
  have hc : Y % 100 = 4 * (Y % 100 / 4) + Y % 100 % 4 := by omega
  have h4 : Y / 4 = 25 * (Y / 100) + Y % 100 / 4 := by omega
  generalize Y / 4 = y4 at *
  generalize Y / 100 / 4 = d at *
  generalize Y / 100 % 4 = e at *
  generalize Y % 100 / 4 = i at *
  generalize Y % 100 % 4 = k at *
  generalize Y / 100 = b at *
  generalize Y % 100 = c at *
  subst hY h4
  omega

/-- C39. The date returned by `calculateEaster` is always a Sunday: for every
year `y ≥ 1583`, with `(month, day) = calculateEaster(y)`, the Julian Date of
`(y, month, day, 0, 0, 0, 0)` satisfies `floor(JD + 1.5) mod 7 = 0`. -/
theorem easter_is_sunday (y : ℤ) (hy : 1583 ≤ y) :
    ⌊(JulianDate.ofFields y (TIME_UTIL.calculateEaster y).1 (TIME_UTIL.calculateEaster y).2
        0 0 0 0).getDecimalDays + 1.5⌋ % 7 = 0 := by
  rw [calculateEaster_eq_specEaster y (by omega), specEaster_eq]
  dsimp only
  obtain ⟨hn1, hn2⟩ := specEasterN_range y
  have hmod := specEasterN_mod_seven y
  generalize specEasterN y = n at *
  have hg : JulianDate.isGregorian ⟨y, n / 31, n % 31 + 1, 0, 0, 0, 0⟩ = true :=
    isGregorian_of_year_gt _ (by simp; omega)
  have hs : JulianDate.shiftMonth ⟨y, n / 31, n % 31 + 1, 0, 0, 0, 0⟩
      = ⟨y, n / 31, n % 31 + 1, 0, 0, 0, 0⟩ :=
    shiftMonth_of_ge _ (by show 3 ≤ n / 31; omega)
  have hfrac : DateAndTime.getDayFraction ⟨y, n / 31, n % 31 + 1, 0, 0, 0, 0⟩ = 0 := by
    simp [DateAndTime.getDayFraction]
  rw [getDecimalDays_ofFields, convertDateAndTimeToJulianDate_eq, hg, hs, hfrac]
  dsimp only
  rw [b_const_of_nonneg _ (show (0 : ℤ) ≤ y by omega),
    c_const_of_nonneg (show (0 : ℤ) ≤ y by omega),
    d_const_of_nonneg (show (0 : ℤ) ≤ n / 31 + 1 by omega)]
  simp only [if_true]
  have e1 : (1461 * y) / 4 = 365 * y + y / 4 := by omega
  have e2 : (153 * (n / 31 + 1)) / 5 + (n % 31 + 1) = n + 30 := by omega
  have e3 : (((2 - y / 100 + y / 100 / 4 + (1461 * y) / 4 + (153 * (n / 31 + 1)) / 5
        + (n % 31 + 1) : ℤ) : ℚ) + 0 + 1720994.5 + 1.5)
      = ((2 - y / 100 + y / 100 / 4 + (365 * y + y / 4) + (n + 30) + 1720996 : ℤ) : ℚ) := by
    rw [e1, ← e2]
    push_cast
    ring
  rw [e3, Int.floor_intCast]
  exact hmod

/-- C39, witness: Easter 2000, April 23. -/
theorem easter_is_sunday_witness :
    TIME_UTIL.calculateEaster 2000 = (4, 23)
    ∧ ⌊(JulianDate.ofFields 2000 (TIME_UTIL.calculateEaster 2000).1
        (TIME_UTIL.calculateEaster 2000).2 0 0 0 0).getDecimalDays + 1.5⌋ % 7 = 0 :=
  ⟨by decide, easter_is_sunday 2000 (by decide)⟩


/-! ## The round trip Julian Date -> civil date -> Julian Date after the calendar change -/

theorem valueB_of_ge (i : ℤ) (hi : 2299160 ≤ i) :
    JulianDate.valueB (i : ℚ)
      = ((i + 1 + (4 * i - 7468865) / 146097 - (4 * i - 7468865) / 146097 / 4 : ℤ) : ℚ) := by
  have h : (i : ℚ) ≥ SPA_LAST_DAY_OF_JULIAN_CALENDAR := by
    unfold SPA_LAST_DAY_OF_JULIAN_CALENDAR
    exact_mod_cast hi
  have eA : ((i : ℚ) - SPA_JULIAN_CONVERSION_CONVERSION_CONST) / SPA_DAYS_IN_GREGORIAN_CENTURY
      = ((4 * i - 7468865 : ℤ) : ℚ) / ((146097 : ℤ) : ℚ) := by
    unfold SPA_JULIAN_CONVERSION_CONVERSION_CONST SPA_DAYS_IN_GREGORIAN_CENTURY
      SPA_DAYS_IN_GREGORIAN_YEAR SPA_YEARS_IN_CENTURY
    push_cast
    rw [div_eq_div_iff (by norm_num) (by norm_num)]
    ring
  unfold JulianDate.valueB
  rw [if_pos h]
  simp only [integerAndFraction_fst]
  rw [eA, floor_intCast_div_pos _ _ (by norm_num)]
  have e4 : (0.25 : ℚ) * (((4 * i - 7468865) / 146097 : ℤ) : ℚ)
      = (((4 * i - 7468865) / 146097 : ℤ) : ℚ) / 4 := by
    ring
  rw [e4, floor_div_four]
  push_cast
  ring

theorem valueD_intCast (c : ℤ) :
    JulianDate.valueD (c : ℚ) = (((20 * c - 2442) / 7305 : ℤ) : ℚ) := by
  have e : ((c : ℚ) - 122.1) / SPA_DAYS_IN_JULIAN_YEAR
      = ((20 * c - 2442 : ℤ) : ℚ) / ((7305 : ℤ) : ℚ) := by
    unfold SPA_DAYS_IN_JULIAN_YEAR
    push_cast
    rw [div_eq_div_iff (by norm_num) (by norm_num)]
    ring
  unfold JulianDate.valueD
  rw [integerAndFraction_fst, e, floor_intCast_div_pos _ _ (by norm_num)]

theorem valueE_intCast (d : ℤ) :
    JulianDate.valueE (d : ℚ) = (((1461 * d) / 4 : ℤ) : ℚ) := by
  unfold JulianDate.valueE SPA_DAYS_IN_JULIAN_YEAR
  rw [integerAndFraction_fst, floor_julianYear]

theorem valueG_intCast (x : ℤ) :
    JulianDate.valueG (x : ℚ) = (((5 * x) / 153 : ℤ) : ℚ) := by
  have e : (x : ℚ) / SPA_AVG_DAYS_PER_MONTH = ((5 * x : ℤ) : ℚ) / ((153 : ℤ) : ℚ) := by
    unfold SPA_AVG_DAYS_PER_MONTH
    push_cast
    rw [div_eq_div_iff (by norm_num) (by norm_num)]
    ring
  unfold JulianDate.valueG
  rw [integerAndFraction_fst, e, floor_intCast_div_pos _ _ (by norm_num)]

theorem intPartG_intCast (g : ℤ) :
    JulianDate.intPartG (g : ℚ) = (((153 * g) / 5 : ℤ) : ℚ) := by
  unfold JulianDate.intPartG SPA_AVG_DAYS_PER_MONTH
  rw [integerAndFraction_fst, floor_avgMonth]

theorem monthOf_intCast (g : ℤ) :
    JulianDate.monthOf (g : ℚ) = if g ≤ 13 then g - 1 else g - 13 := by
  unfold JulianDate.monthOf
  rw [toInt_intCast]
  by_cases h : g ≤ 13
  · have : (g : ℚ) < 13.5 := by
      have : (g : ℚ) ≤ 13 := by exact_mod_cast h
      linarith
    rw [if_pos this, if_pos h]
  · have : ¬ (g : ℚ) < 13.5 := by
      have : (14 : ℚ) ≤ (g : ℚ) := by exact_mod_cast (show (14 : ℤ) ≤ g by omega)
      intro hlt
      linarith
    rw [if_neg this, if_neg h]

theorem yearOf_intCast (m d : ℤ) :
    JulianDate.yearOf m (d : ℚ) = if 3 ≤ m then d - 4716 else d - 4715 := by
  unfold JulianDate.yearOf
  rw [toInt_intCast]
  by_cases h : 3 ≤ m
  · have : (m : ℚ) > 2.5 := by
      have : (3 : ℚ) ≤ (m : ℚ) := by exact_mod_cast h
      linarith
    rw [if_pos this, if_pos h]
  · have : ¬ (m : ℚ) > 2.5 := by
      have : (m : ℚ) ≤ 2 := by exact_mod_cast (show m ≤ 2 by omega)
      intro hlt
      linarith
    rw [if_neg this, if_neg h]

/-- The day fraction of a civil date whose time fields were computed by
`calculateHoursMinutesAndSeconds` from the decimal hours `x`. -/
theorem getDayFraction_hms (y mo d : ℤ) (x : ℚ) :
    DateAndTime.getDayFraction ⟨y, mo, d, (TIME_UTIL.calculateHoursMinutesAndSeconds x).1,
        (TIME_UTIL.calculateHoursMinutesAndSeconds x).2.1,
        (TIME_UTIL.calculateHoursMinutesAndSeconds x).2.2, 0⟩ = x / 24 := by
  rw [getDayFraction_eq, calculateHoursMinutesAndSeconds_eq]
  dsimp only
  ring

/-- The century of the shifted year found by `getDateAndTime` is the century
index `valueA` plus 4. -/
theorem century_of_valueD (i a c d : ℤ) (ha : a = (4 * i - 7468865) / 146097)
    (hc : c = i + 1 + a - a / 4 + 1524) (hd : d = (20 * c - 2442) / 7305) :
    (d - 4716) / 100 = a + 4 := by
  omega

/-- From day number 2299161 on, the civil date found by `getDateAndTime` is
1582-10-15 or later. -/
theorem civil_after_change (i a c d x g : ℤ) (hi : 2299161 ≤ i)
    (ha : a = (4 * i - 7468865) / 146097)
    (hc : c = i + 1 + a - a / 4 + 1524) (hd : d = (20 * c - 2442) / 7305)
    (hx : x = c - (1461 * d) / 4) (hg : g = (5 * x) / 153) :
    123 ≤ x ∧ x ≤ 488 ∧ 4 ≤ g ∧ g ≤ 15 ∧ 0 ≤ x - (153 * g) / 5 ∧ x - (153 * g) / 5 ≤ 31
    ∧ 6298 ≤ d
    ∧ (d = 6298 → 11 ≤ g
        ∧ (g = 11 → 15 ≤ x - (153 * g) / 5 ∧ (x - (153 * g) / 5 = 15 → i = 2299161))) := by
  omega

theorem shiftMonth_of_lt (y mo d h m : ℤ) (s o : ℚ) (hlt : mo < 3) :
    JulianDate.shiftMonth ⟨y, mo, d, h, m, s, o⟩ = ⟨y - 1, mo + 12, d, h, m, s, o⟩ := by
  simp [JulianDate.shiftMonth, MAR, hlt]

/-- C35. In exact arithmetic the inverse conversion is an exact right inverse
after the calendar change: for every Julian Date `j > 2299160.5`,
`JulianDate(JulianDate(j).getDateAndTime()).getDecimalDays() = j`, also when
`getDateAndTime` returns a day of the month 0. -/
theorem roundTrip_julian_after_change (j : ℚ) (hj : 2299160.5 < j) :
    (JulianDate.ofDateAndTime (JulianDate.mk j).getDateAndTime).getDecimalDays = j := by
  have hI1 : ((⌊j + 0.5⌋ : ℤ) : ℚ) ≤ j + 0.5 := Int.floor_le _
  have hI2 : j + 0.5 < ((⌊j + 0.5⌋ : ℤ) : ℚ) + 1 := Int.lt_floor_add_one _
  have hIge : 2299161 ≤ ⌊j + 0.5⌋ := by
    rw [Int.le_floor]
    push_cast
    linarith
  have hVI : JulianDate.valueI ⟨j⟩ = ((⌊j + 0.5⌋ : ℤ) : ℚ) := rfl
  have hVF : JulianDate.valueF ⟨j⟩ = j + 0.5 - ((⌊j + 0.5⌋ : ℤ) : ℚ) := rfl
  generalize ⌊j + 0.5⌋ = I at *
  obtain ⟨F, hF⟩ : ∃ F : ℚ, F = j + 0.5 - (I : ℚ) := ⟨_, rfl⟩
  rw [← hF] at hVF
  have hF0 : 0 ≤ F := by linarith
  have hF1 : F < 1 := by linarith
  have hFpos : I = 2299161 → 0 < F := by
    intro h
    rw [hF, h]
    push_cast
    linarith
  have h24 : ((SPA_HOURS_IN_DAY : ℤ) : ℚ) = 24 := by
    unfold SPA_HOURS_IN_DAY
    norm_num
  obtain ⟨a, ha⟩ : ∃ a : ℤ, a = (4 * I - 7468865) / 146097 := ⟨_, rfl⟩
  obtain ⟨c, hc⟩ : ∃ c : ℤ, c = I + 1 + a - a / 4 + 1524 := ⟨_, rfl⟩
  obtain ⟨d, hd⟩ : ∃ d : ℤ, d = (20 * c - 2442) / 7305 := ⟨_, rfl⟩
  obtain ⟨x, hx⟩ : ∃ x : ℤ, x = c - (1461 * d) / 4 := ⟨_, rfl⟩
  obtain ⟨g, hg⟩ : ∃ g : ℤ, g = (5 * x) / 153 := ⟨_, rfl⟩
  obtain ⟨p, hp⟩ : ∃ p : ℤ, p = (153 * g) / 5 := ⟨_, rfl⟩
  have hcent := century_of_valueD I a c d ha hc hd
  obtain ⟨hx1, hx2, hg1, hg2, hd1, hd2, hD, hD2⟩ :=
    civil_after_change I a c d x g hIge ha hc hd hx hg
  rw [← hp] at hd1 hd2 hD2
  have hC : JulianDate.valueC ⟨j⟩ = (c : ℚ) := by
    unfold JulianDate.valueC
    rw [hVI, valueB_of_ge I (by omega), ← ha, hc]
    push_cast
    ring
  have hDv : JulianDate.valueD (c : ℚ) = (d : ℚ) := by
    rw [valueD_intCast, ← hd]
  have hE : JulianDate.valueE (d : ℚ) = ((c - x : ℤ) : ℚ) := by
    rw [valueE_intCast]
    congr 1
    omega
  have hCE : JulianDate.valueCE ⟨j⟩ = (x : ℚ) := by
    unfold JulianDate.valueCE
    rw [hC, hDv, hE]
    push_cast
    ring
  have hG : JulianDate.valueG (x : ℚ) = (g : ℚ) := by
    rw [valueG_intCast, ← hg]
  have hP : JulianDate.intPartG (g : ℚ) = (p : ℚ) := by
    rw [intPartG_intCast, ← hp]
  have hdd : JulianDate.decimalDays ⟨j⟩ = ((x - p : ℤ) : ℚ) + F := by
    unfold JulianDate.decimalDays
    rw [hCE, hG, hP, hC, hDv, hE, hVF]
    push_cast
    ring
  have hfl : ⌊JulianDate.decimalDays ⟨j⟩⌋ = x - p := by
    rw [hdd, Int.floor_eq_iff]
    constructor <;> linarith
  have hday : toInt (TIME_UTIL.integerAndFraction (JulianDate.decimalDays ⟨j⟩)).1 = x - p := by
    rw [integerAndFraction_fst, toInt_intCast, hfl]
  have hfrac : (TIME_UTIL.integerAndFraction (JulianDate.decimalDays ⟨j⟩)).2 = F := by
    rw [integerAndFraction_snd, hfl, hdd]
    ring
  have hsum : 2 - (d - 4716) / 100 + (d - 4716) / 100 / 4 + (1461 * (d - 4716)) / 4
      + p + (x - p) = I - 1720995 := by
    have e1 : (1461 * (d - 4716)) / 4 = (1461 * d) / 4 - 1722519 := by omega
    have e2 : (d - 4716) / 100 / 4 = a / 4 + 1 := by
      rw [hcent]
      omega
    rw [e1, e2, hcent]
    omega
  have hjF : ((I - 1720995 : ℤ) : ℚ) + F * 24 / 24 + 1720994.5 = j := by
    rw [hF]
    push_cast
    ring
  rw [getDecimalDays_ofDateAndTime, convertDateAndTimeToJulianDate_eq, getDateAndTime_eq]
  simp only [hday, hfrac, hCE, hG, hC, hDv, monthOf_intCast, yearOf_intCast, h24]
  rcases le_or_lt g 13 with h13 | h13
  · rw [if_pos h13, if_pos (show 3 ≤ g - 1 by omega)]
    have hgreg : JulianDate.isGregorian ⟨d - 4716, g - 1, x - p,
        (TIME_UTIL.calculateHoursMinutesAndSeconds (F * 24)).1,
        (TIME_UTIL.calculateHoursMinutesAndSeconds (F * 24)).2.1,
        (TIME_UTIL.calculateHoursMinutesAndSeconds (F * 24)).2.2, 0⟩ = true := by
      unfold JulianDate.isGregorian DateAndTime.gt
      rw [lt_iff_lex]
      have hg0 : DateAndTime.getDayFraction JulianDate.gregorian = 0 := by
        simp [DateAndTime.getDayFraction, JulianDate.gregorian]
      rw [getDayFraction_hms, hg0]
      unfold JulianDate.gregorian
      dsimp only
      rcases lt_or_eq_of_le hD with hlt | heq
      · left
        omega
      · obtain ⟨hg11, hrest⟩ := hD2 heq.symm
        rcases lt_or_eq_of_le hg11 with hglt | hgeq
        · right
          left
          omega
        · obtain ⟨h15, hI⟩ := hrest hgeq.symm
          rcases lt_or_eq_of_le h15 with hdlt | hdeq
          · right
            right
            left
            omega
          · right
            right
            right
            have hpos := hFpos (hI hdeq.symm)
            refine ⟨by omega, by omega, by omega, ?_⟩
            linarith
    rw [hgreg, shiftMonth_of_ge _ (show (3 : ℤ) ≤ g - 1 by omega)]
    dsimp only
    rw [getDayFraction_hms, b_const_of_nonneg true (show (0 : ℤ) ≤ d - 4716 by omega),
      c_const_eq_ediv, d_const_of_nonneg (show (0 : ℤ) ≤ g - 1 + 1 by omega)]
    simp only [if_true]
    have e3 : (153 * (g - 1 + 1)) / 5 = p := by
      rw [hp]
      congr 1
      ring
    rw [e3, hsum]
    exact hjF
  · rw [if_neg (show ¬ g ≤ 13 by omega), if_neg (show ¬ (3 : ℤ) ≤ g - 13 by omega)]
    have hgreg : JulianDate.isGregorian ⟨d - 4715, g - 13, x - p,
        (TIME_UTIL.calculateHoursMinutesAndSeconds (F * 24)).1,
        (TIME_UTIL.calculateHoursMinutesAndSeconds (F * 24)).2.1,
        (TIME_UTIL.calculateHoursMinutesAndSeconds (F * 24)).2.2, 0⟩ = true :=
      isGregorian_of_year_gt _ (show (1582 : ℤ) < d - 4715 by omega)
    rw [hgreg, shiftMonth_of_lt _ _ _ _ _ _ _ (show g - 13 < 3 by omega)]
    dsimp only
    rw [getDayFraction_hms, b_const_of_nonneg true (show (0 : ℤ) ≤ d - 4715 - 1 by omega),
      c_const_eq_ediv, d_const_of_nonneg (show (0 : ℤ) ≤ g - 13 + 12 + 1 by omega)]
    simp only [if_true]
    have e3 : (153 * (g - 13 + 12 + 1)) / 5 = p := by
      rw [hp]
      congr 1
      ring
    have e4 : d - 4715 - 1 = d - 4716 := by ring
    rw [e3, e4, hsum]
    exact hjF

/-- C35, witness: the Julian Date 2458489.75 of the tests, and the Julian Date
2458573.5 of 2019-03-31, which `getDateAndTime` returns as day 0 of April. -/
theorem roundTrip_julian_after_change_witness :
    ((2299160.5 : ℚ) < 2458489.75
      ∧ (JulianDate.ofDateAndTime (JulianDate.mk 2458489.75).getDateAndTime).getDecimalDays
          = 2458489.75)
    ∧ ((2299160.5 : ℚ) < 2458573.5
      ∧ (JulianDate.mk 2458573.5).getDateAndTime = ⟨2019, 4, 0, 0, 0, 0, 0⟩
      ∧ (JulianDate.ofDateAndTime (JulianDate.mk 2458573.5).getDateAndTime).getDecimalDays
          = 2458573.5) :=
  ⟨⟨by norm_num, roundTrip_julian_after_change 2458489.75 (by norm_num)⟩,
    by norm_num, by decide!, roundTrip_julian_after_change 2458573.5 (by norm_num)⟩


/-! ## Binary64 rounding -/

theorem pow2_eq (e : ℤ) : Binary64.pow2 e = (2 : ℚ) ^ e := by
  unfold Binary64.pow2
  split_ifs with h
  · have h1 : ((e.toNat : ℕ) : ℤ) = e := Int.toNat_of_nonneg h
    rw [Nat.cast_pow, ← zpow_natCast, h1]
    rfl
  · have h1 : (((-e).toNat : ℕ) : ℤ) = -e := Int.toNat_of_nonneg (by omega)
    rw [Nat.cast_pow, ← zpow_natCast, h1, zpow_neg, one_div, inv_inv]
    rfl

theorem two_zpow_pos (e : ℤ) : (0 : ℚ) < (2 : ℚ) ^ e := zpow_pos (by norm_num) e

theorem two_zpow_le {a b : ℤ} (h : a ≤ b) : (2 : ℚ) ^ a ≤ (2 : ℚ) ^ b :=
  zpow_le_zpow_right₀ (by norm_num) h

theorem two_zpow_lt {a b : ℤ} (h : a < b) : (2 : ℚ) ^ a < (2 : ℚ) ^ b :=
  zpow_lt_zpow_right₀ (by norm_num) h

/-- A power of two with a non-negative exponent is an integer. -/
theorem two_zpow_intCast {e : ℤ} (h : 0 ≤ e) : (2 : ℚ) ^ e = (((2 : ℤ) ^ e.toNat : ℤ) : ℚ) := by
  have h1 : ((e.toNat : ℕ) : ℤ) = e := Int.toNat_of_nonneg h
  rw [Int.cast_pow, ← zpow_natCast, h1]
  rfl

theorem log2Fuel_spec (fuel : ℕ) : ∀ n : ℕ, n ≤ fuel → 1 ≤ n →
    2 ^ Binary64.log2Fuel fuel n ≤ n ∧ n < 2 ^ (Binary64.log2Fuel fuel n + 1) := by
  induction fuel with
  | zero => intro n h1 h2; omega
  | succ k ih =>
    intro n h1 h2
    unfold Binary64.log2Fuel
    split_ifs with h
    · have : n = 1 := by omega
      subst this
      simp
    · obtain ⟨i1, i2⟩ := ih (n / 2) (by omega) (by omega)
      rw [pow_succ, pow_succ]
      rw [pow_succ] at i2
      constructor <;> omega

theorem natLog2_spec (n : ℕ) (h : 1 ≤ n) :
    2 ^ Binary64.natLog2 n ≤ n ∧ n < 2 ^ (Binary64.natLog2 n + 1) :=
  log2Fuel_spec n n le_rfl h

theorem ilog2_spec (x : ℚ) (hx : x ≠ 0) :
    (2 : ℚ) ^ Binary64.ilog2 x ≤ |x| ∧ |x| < (2 : ℚ) ^ (Binary64.ilog2 x + 1) := by
  have hn : 1 ≤ x.num.natAbs := by
    have : x.num ≠ 0 := Rat.num_ne_zero.mpr hx
    omega
  have hd : 1 ≤ x.den := x.den_pos
  obtain ⟨a1, a2⟩ := natLog2_spec _ hn
  obtain ⟨b1, b2⟩ := natLog2_spec _ hd
  have hab : |x| = (x.num.natAbs : ℚ) / (x.den : ℚ) := by
    conv_lhs => rw [← Rat.num_div_den x]
    rw [abs_div, Nat.abs_cast, Nat.cast_natAbs, Int.cast_abs]
  have qa1 : (2 : ℚ) ^ (Binary64.natLog2 x.num.natAbs : ℤ) ≤ (x.num.natAbs : ℚ) := by
    rw [zpow_natCast]; exact_mod_cast a1
  have qa2 : (x.num.natAbs : ℚ) < (2 : ℚ) ^ ((Binary64.natLog2 x.num.natAbs : ℤ) + 1) := by
    rw [show ((Binary64.natLog2 x.num.natAbs : ℤ) + 1) = ((Binary64.natLog2 x.num.natAbs + 1 : ℕ) : ℤ)
      by push_cast; ring, zpow_natCast]
    exact_mod_cast a2
  have qb1 : (2 : ℚ) ^ (Binary64.natLog2 x.den : ℤ) ≤ (x.den : ℚ) := by
    rw [zpow_natCast]; exact_mod_cast b1
  have qb2 : (x.den : ℚ) < (2 : ℚ) ^ ((Binary64.natLog2 x.den : ℤ) + 1) := by
    rw [show ((Binary64.natLog2 x.den : ℤ) + 1) = ((Binary64.natLog2 x.den + 1 : ℕ) : ℤ)
      by push_cast; ring, zpow_natCast]
    exact_mod_cast b2
  have hdpos : (0 : ℚ) < (x.den : ℚ) := by exact_mod_cast hd
  unfold Binary64.ilog2
  dsimp only
  rw [pow2_eq]
  generalize (Binary64.natLog2 x.num.natAbs : ℤ) = a at *
  generalize (Binary64.natLog2 x.den : ℤ) = b at *
  have up : |x| < (2 : ℚ) ^ (a - b + 1) := by
    rw [hab, div_lt_iff₀ hdpos]
    have e : (2 : ℚ) ^ (a - b + 1) * (2 : ℚ) ^ b = (2 : ℚ) ^ (a + 1) := by
      rw [← zpow_add₀ (by norm_num)]; congr 1; ring
    calc (x.num.natAbs : ℚ) < (2 : ℚ) ^ (a + 1) := qa2
      _ = (2 : ℚ) ^ (a - b + 1) * (2 : ℚ) ^ b := e.symm
      _ ≤ (2 : ℚ) ^ (a - b + 1) * (x.den : ℚ) :=
          mul_le_mul_of_nonneg_left qb1 (two_zpow_pos _).le
  have lo : (2 : ℚ) ^ (a - b - 1) ≤ |x| := by
    rw [hab, le_div_iff₀ hdpos]
    have e : (2 : ℚ) ^ (a - b - 1) * (2 : ℚ) ^ (b + 1) = (2 : ℚ) ^ a := by
      rw [← zpow_add₀ (by norm_num)]; congr 1; ring
    calc (2 : ℚ) ^ (a - b - 1) * (x.den : ℚ)
        ≤ (2 : ℚ) ^ (a - b - 1) * (2 : ℚ) ^ (b + 1) :=
          mul_le_mul_of_nonneg_left qb2.le (two_zpow_pos _).le
      _ = (2 : ℚ) ^ a := e
      _ ≤ (x.num.natAbs : ℚ) := qa1
  split_ifs with h
  · exact ⟨h, up⟩
  · refine ⟨lo, ?_⟩
    rw [show a - b - 1 + 1 = a - b by ring]
    exact not_le.mp h

/-- The binary exponent is characterised by its two bounds. -/
theorem ilog2_unique (x : ℚ) (k : ℤ) (h1 : (2 : ℚ) ^ k ≤ |x|) (h2 : |x| < (2 : ℚ) ^ (k + 1)) :
    Binary64.ilog2 x = k := by
  have hx : x ≠ 0 := by
    intro h
    rw [h, abs_zero] at h1
    exact absurd h1 (not_le.mpr (two_zpow_pos k))
  obtain ⟨s1, s2⟩ := ilog2_spec x hx
  by_contra hne
  rcases lt_or_gt_of_ne hne with hlt | hgt
  · have : (2 : ℚ) ^ (Binary64.ilog2 x + 1) ≤ (2 : ℚ) ^ k := two_zpow_le (by omega)
    linarith
  · have : (2 : ℚ) ^ (k + 1) ≤ (2 : ℚ) ^ Binary64.ilog2 x := two_zpow_le (by omega)
    linarith

theorem ilog2_mono {x y : ℚ} (hx : x ≠ 0) (hxy : |x| ≤ |y|) :
    Binary64.ilog2 x ≤ Binary64.ilog2 y := by
  have hy : y ≠ 0 := by
    intro h
    rw [h, abs_zero] at hxy
    exact hx (abs_eq_zero.mp (le_antisymm hxy (abs_nonneg x)))
  obtain ⟨s1, s2⟩ := ilog2_spec x hx
  obtain ⟨t1, t2⟩ := ilog2_spec y hy
  by_contra hne
  have : (2 : ℚ) ^ (Binary64.ilog2 y + 1) ≤ (2 : ℚ) ^ Binary64.ilog2 x := two_zpow_le (by omega)
  linarith

theorem ilog2_neg (x : ℚ) : Binary64.ilog2 (-x) = Binary64.ilog2 x := by
  unfold Binary64.ilog2
  simp only [Rat.neg_num, Int.natAbs_neg, Rat.neg_den, abs_neg]

theorem quantum_neg (x : ℚ) : Binary64.quantum (-x) = Binary64.quantum x := by
  unfold Binary64.quantum
  rw [ilog2_neg]

theorem quantum_ge (x : ℚ) : -1074 ≤ Binary64.quantum x := le_max_right _ _

/-! ### Rounding to the nearest integer, ties to even -/

theorem roundHalfEven_cases (q : ℚ) :
    Binary64.roundHalfEven q = ⌊q⌋ ∨ Binary64.roundHalfEven q = ⌊q⌋ + 1 := by
  unfold Binary64.roundHalfEven
  split_ifs <;> simp

theorem roundHalfEven_intCast (n : ℤ) : Binary64.roundHalfEven (n : ℚ) = n := by
  unfold Binary64.roundHalfEven
  simp

theorem roundHalfEven_mono {p q : ℚ} (h : p ≤ q) :
    Binary64.roundHalfEven p ≤ Binary64.roundHalfEven q := by
  have hf : ⌊p⌋ ≤ ⌊q⌋ := Int.floor_mono h
  rcases lt_or_eq_of_le hf with hlt | heq
  · have a := roundHalfEven_cases p
    have b := roundHalfEven_cases q
    omega
  · unfold Binary64.roundHalfEven
    rw [heq]
    split_ifs <;> first | omega | (exfalso; linarith)

theorem roundHalfEven_le_of_le {q : ℚ} {n : ℤ} (h : q ≤ (n : ℚ)) :
    Binary64.roundHalfEven q ≤ n := by
  have := roundHalfEven_mono h
  rwa [roundHalfEven_intCast] at this

theorem le_roundHalfEven_of_le {q : ℚ} {n : ℤ} (h : (n : ℚ) ≤ q) :
    n ≤ Binary64.roundHalfEven q := by
  have := roundHalfEven_mono h
  rwa [roundHalfEven_intCast] at this

theorem roundHalfEven_neg (q : ℚ) :
    Binary64.roundHalfEven (-q) = -Binary64.roundHalfEven q := by
  by_cases hint : (⌊q⌋ : ℚ) = q
  · rw [← hint, ← Int.cast_neg, roundHalfEven_intCast, roundHalfEven_intCast]
  · have h1 : (⌊q⌋ : ℚ) < q := lt_of_le_of_ne (Int.floor_le q) hint
    have h2 : q < (⌊q⌋ : ℚ) + 1 := Int.lt_floor_add_one q
    have hfl : ⌊-q⌋ = -⌊q⌋ - 1 := by
      rw [Int.floor_eq_iff]
      push_cast
      constructor <;> linarith
    unfold Binary64.roundHalfEven
    rw [hfl]
    push_cast
    split_ifs <;> first | omega | (exfalso; linarith)

/-! ### Rounding to binary64 -/

theorem round_eq (x : ℚ) :
    Binary64.round x
      = (Binary64.roundHalfEven (x / (2 : ℚ) ^ Binary64.quantum x) : ℚ)
          * (2 : ℚ) ^ Binary64.quantum x := by
  unfold Binary64.round
  rw [pow2_eq]

theorem round_zero : Binary64.round 0 = 0 := by
  rw [round_eq, zero_div, ← Int.cast_zero, roundHalfEven_intCast]
  simp

theorem round_neg (x : ℚ) : Binary64.round (-x) = -Binary64.round x := by
  rw [round_eq, round_eq, quantum_neg, neg_div, roundHalfEven_neg]
  push_cast
  ring

theorem round_nonneg {x : ℚ} (h : 0 ≤ x) : 0 ≤ Binary64.round x := by
  rw [round_eq]
  have h1 : ((0 : ℤ) : ℚ) ≤ x / (2 : ℚ) ^ Binary64.quantum x := by
    rw [Int.cast_zero]
    exact div_nonneg h (two_zpow_pos _).le
  have h2 : (0 : ℤ) ≤ Binary64.roundHalfEven (x / (2 : ℚ) ^ Binary64.quantum x) :=
    le_roundHalfEven_of_le h1
  have h3 : (0 : ℚ) ≤ (Binary64.roundHalfEven (x / (2 : ℚ) ^ Binary64.quantum x) : ℚ) := by
    exact_mod_cast h2
  exact mul_nonneg h3 (two_zpow_pos _).le

theorem round_nonpos {x : ℚ} (h : x ≤ 0) : Binary64.round x ≤ 0 := by
  have := round_nonneg (neg_nonneg.mpr h)
  rw [round_neg] at this
  linarith

theorem round_mono_of_pos {x y : ℚ} (hx : 0 < x) (hxy : x ≤ y) :
    Binary64.round x ≤ Binary64.round y := by
  have hy : 0 < y := lt_of_lt_of_le hx hxy
  have hL : Binary64.ilog2 x ≤ Binary64.ilog2 y :=
    ilog2_mono hx.ne' (by rw [abs_of_pos hx, abs_of_pos hy]; exact hxy)
  obtain ⟨s1, s2⟩ := ilog2_spec x hx.ne'
  obtain ⟨t1, t2⟩ := ilog2_spec y hy.ne'
  rw [abs_of_pos hx] at s1 s2
  rw [abs_of_pos hy] at t1 t2
  have hQx : Binary64.quantum x = max (Binary64.ilog2 x - 52) (-1074) := rfl
  have hQy : Binary64.quantum y = max (Binary64.ilog2 y - 52) (-1074) := rfl
  rw [round_eq, round_eq]
  generalize Binary64.quantum x = Qx at *
  generalize Binary64.quantum y = Qy at *
  generalize Binary64.ilog2 x = Lx at *
  generalize Binary64.ilog2 y = Ly at *
  have hQ : Qx ≤ Qy := by omega
  rcases eq_or_lt_of_le hQ with heq | hlt
  · subst heq
    have h1 : x / (2 : ℚ) ^ Qx ≤ y / (2 : ℚ) ^ Qx :=
      div_le_div_of_nonneg_right hxy (two_zpow_pos _).le
    have h2 := roundHalfEven_mono h1
    have h3 : (Binary64.roundHalfEven (x / (2 : ℚ) ^ Qx) : ℚ)
        ≤ (Binary64.roundHalfEven (y / (2 : ℚ) ^ Qx) : ℚ) := by exact_mod_cast h2
    exact mul_le_mul_of_nonneg_right h3 (two_zpow_pos _).le
  · have hQy2 : Qy = Ly - 52 := by omega
    have hLxy : Lx + 1 ≤ Ly := by omega
    have hnn : 0 ≤ Ly - Qx := by omega
    -- the rounding of x does not exceed 2 ^ Ly
    have b1 : (Binary64.roundHalfEven (x / (2 : ℚ) ^ Qx) : ℚ) * (2 : ℚ) ^ Qx ≤ (2 : ℚ) ^ Ly := by
      have hx2 : x ≤ (2 : ℚ) ^ Ly := le_trans s2.le (two_zpow_le hLxy)
      have h1 : x / (2 : ℚ) ^ Qx ≤ (((2 : ℤ) ^ (Ly - Qx).toNat : ℤ) : ℚ) := by
        rw [← two_zpow_intCast hnn, div_le_iff₀ (two_zpow_pos _), ← zpow_add₀ (by norm_num)]
        rw [show Ly - Qx + Qx = Ly by ring]
        exact hx2
      have h2 := roundHalfEven_le_of_le h1
      have h3 : (Binary64.roundHalfEven (x / (2 : ℚ) ^ Qx) : ℚ)
          ≤ (((2 : ℤ) ^ (Ly - Qx).toNat : ℤ) : ℚ) := by exact_mod_cast h2
      calc (Binary64.roundHalfEven (x / (2 : ℚ) ^ Qx) : ℚ) * (2 : ℚ) ^ Qx
          ≤ (((2 : ℤ) ^ (Ly - Qx).toNat : ℤ) : ℚ) * (2 : ℚ) ^ Qx :=
            mul_le_mul_of_nonneg_right h3 (two_zpow_pos _).le
        _ = (2 : ℚ) ^ Ly := by
            rw [← two_zpow_intCast hnn, ← zpow_add₀ (by norm_num)]
            congr 1
            ring
    -- the rounding of y is at least 2 ^ Ly
    have b2 : (2 : ℚ) ^ Ly ≤ (Binary64.roundHalfEven (y / (2 : ℚ) ^ Qy) : ℚ) * (2 : ℚ) ^ Qy := by
      have h1 : (((2 : ℤ) ^ (52 : ℤ).toNat : ℤ) : ℚ) ≤ y / (2 : ℚ) ^ Qy := by
        rw [← two_zpow_intCast (by norm_num), le_div_iff₀ (two_zpow_pos _),
          ← zpow_add₀ (by norm_num)]
        rw [show (52 : ℤ) + Qy = Ly by omega]
        exact t1
      have h2 := le_roundHalfEven_of_le h1
      have h3 : (((2 : ℤ) ^ (52 : ℤ).toNat : ℤ) : ℚ)
          ≤ (Binary64.roundHalfEven (y / (2 : ℚ) ^ Qy) : ℚ) := by exact_mod_cast h2
      calc (2 : ℚ) ^ Ly = (((2 : ℤ) ^ (52 : ℤ).toNat : ℤ) : ℚ) * (2 : ℚ) ^ Qy := by
            rw [← two_zpow_intCast (by norm_num), ← zpow_add₀ (by norm_num)]
            congr 1
            omega
        _ ≤ (Binary64.roundHalfEven (y / (2 : ℚ) ^ Qy) : ℚ) * (2 : ℚ) ^ Qy :=
            mul_le_mul_of_nonneg_right h3 (two_zpow_pos _).le
    exact le_trans b1 b2

/-- Rounding to binary64 is monotone. -/
theorem round_mono {x y : ℚ} (h : x ≤ y) : Binary64.round x ≤ Binary64.round y := by
  rcases lt_trichotomy x 0 with hx | hx | hx
  · rcases lt_or_le y 0 with hy | hy
    · have := round_mono_of_pos (neg_pos.mpr hy) (neg_le_neg h)
      rw [round_neg, round_neg] at this
      linarith
    · exact le_trans (round_nonpos hx.le) (round_nonneg hy)
  · rw [hx, round_zero]
    exact round_nonneg (hx ▸ h)
  · exact round_mono_of_pos hx h

/-- A multiple `n * 2^e` of a power of two with `|n| ≤ 2^53` and `e ≥ -1074` is a
binary64 number: rounding leaves it unchanged. -/
theorem round_of_scaled (n e : ℤ) (hn : |n| ≤ 2 ^ 53) (he : -1074 ≤ e) :
    Binary64.round ((n : ℚ) * (2 : ℚ) ^ e) = (n : ℚ) * (2 : ℚ) ^ e := by
  rcases eq_or_ne n 0 with h0 | h0
  · rw [h0, Int.cast_zero, zero_mul, round_zero]
  have hx : (n : ℚ) * (2 : ℚ) ^ e ≠ 0 :=
    mul_ne_zero (by exact_mod_cast h0) (two_zpow_pos e).ne'
  obtain ⟨s1, s2⟩ := ilog2_spec _ hx
  have hQ : Binary64.quantum ((n : ℚ) * (2 : ℚ) ^ e)
      = max (Binary64.ilog2 ((n : ℚ) * (2 : ℚ) ^ e) - 52) (-1074) := rfl
  have habs : |(n : ℚ) * (2 : ℚ) ^ e| = ((|n| : ℤ) : ℚ) * (2 : ℚ) ^ e := by
    rw [abs_mul, abs_of_pos (two_zpow_pos e), Int.cast_abs]
  rw [habs] at s1
  have key : ∃ z : ℤ, (n : ℚ) * (2 : ℚ) ^ e / (2 : ℚ) ^ Binary64.quantum ((n : ℚ) * (2 : ℚ) ^ e)
      = (z : ℚ) := by
    generalize Binary64.quantum ((n : ℚ) * (2 : ℚ) ^ e) = Q at *
    generalize Binary64.ilog2 ((n : ℚ) * (2 : ℚ) ^ e) = L at *
    rcases le_or_lt Q e with hle | hlt
    · refine ⟨n * (2 : ℤ) ^ (e - Q).toNat, ?_⟩
      rw [Int.cast_mul, ← two_zpow_intCast (by omega), mul_div_assoc,
        ← zpow_sub₀ (by norm_num)]
    · have hQL : Q = L - 52 := by omega
      have hnq : ((|n| : ℤ) : ℚ) ≤ (2 : ℚ) ^ (53 : ℤ) := by
        have : ((|n| : ℤ) : ℚ) ≤ (((2 : ℤ) ^ 53 : ℤ) : ℚ) := by exact_mod_cast hn
        rw [show (2 : ℚ) ^ (53 : ℤ) = (((2 : ℤ) ^ 53 : ℤ) : ℚ) by norm_num]
        exact this
      -- 2 ^ L ≤ |n| * 2 ^ e ≤ 2 ^ (53 + e)
      have h3 : (2 : ℚ) ^ L ≤ (2 : ℚ) ^ (53 + e) := by
        rw [zpow_add₀ (by norm_num)]
        exact le_trans s1 (mul_le_mul_of_nonneg_right hnq (two_zpow_pos _).le)
      have hL : L ≤ 53 + e := by
        by_contra hcon
        have := two_zpow_lt (show 53 + e < L by omega)
        linarith
      have hLe : L = 53 + e := by omega
      have hQe : Q = e + 1 := by omega
      -- hence |n| = 2 ^ 53
      have h4 : (2 : ℚ) ^ (53 : ℤ) ≤ ((|n| : ℤ) : ℚ) := by
        have h5 : (2 : ℚ) ^ (53 : ℤ) * (2 : ℚ) ^ e ≤ ((|n| : ℤ) : ℚ) * (2 : ℚ) ^ e := by
          rw [← zpow_add₀ (by norm_num), ← hLe]
          exact s1
        exact le_of_mul_le_mul_right h5 (two_zpow_pos e)
      have h6 : (2 : ℤ) ^ 53 ≤ |n| := by
        have : (((2 : ℤ) ^ 53 : ℤ) : ℚ) ≤ ((|n| : ℤ) : ℚ) := by
          rw [show (((2 : ℤ) ^ 53 : ℤ) : ℚ) = (2 : ℚ) ^ (53 : ℤ) by norm_num]
          exact h4
        exact_mod_cast this
      have h7 : |n| = 2 ^ 53 := le_antisymm hn h6
      have h8 : n = 2 * (n / 2) := by
        rcases abs_eq (show (0 : ℤ) ≤ 2 ^ 53 by norm_num) |>.mp h7 with h | h <;> rw [h] <;> decide
      refine ⟨n / 2, ?_⟩
      rw [hQe, zpow_add₀ (by norm_num), zpow_one]
      have h9 : (n : ℚ) = 2 * ((n / 2 : ℤ) : ℚ) := by exact_mod_cast h8
      rw [h9]
      field_simp
      ring
  obtain ⟨z, hz⟩ := key
  rw [round_eq, hz, roundHalfEven_intCast, ← hz]
  field_simp

theorem binary64_getDayFraction_eq (y mo d h m : ℤ) (s o : ℚ) :
    Binary64.getDayFraction ⟨y, mo, d, h, m, s, o⟩
      = Binary64.round (Binary64.round (Binary64.round
            (Binary64.round ((h : ℚ) / 24) + Binary64.round ((m : ℚ) / 1440))
          + Binary64.round (s / 86400))
        + Binary64.round (o / 24)) := by
  simp only [Binary64.getDayFraction, SPA_HOURS_IN_DAY, SPA_MINUTES_IN_DAY,
    SPA_SECONDS_IN_DAY, SPA_SECONDS_IN_HOUR, SPA_MINUTES_IN_HOUR, SPA_SECONDS_IN_MINUTE]
  norm_num

/-- The binary64 day fraction is monotone in hours, minutes, seconds and UTC
offset. -/
theorem binary64_getDayFraction_mono (y mo d h m y2 mo2 d2 h2 m2 : ℤ) (s o s2 o2 : ℚ)
    (hh : h ≤ h2) (hm : m ≤ m2) (hs : s ≤ s2) (ho : o ≤ o2) :
    Binary64.getDayFraction ⟨y, mo, d, h, m, s, o⟩
      ≤ Binary64.getDayFraction ⟨y2, mo2, d2, h2, m2, s2, o2⟩ := by
  rw [binary64_getDayFraction_eq, binary64_getDayFraction_eq]
  have a1 : (h : ℚ) / 24 ≤ (h2 : ℚ) / 24 :=
    div_le_div_of_nonneg_right (by exact_mod_cast hh) (by norm_num)
  have a2 : (m : ℚ) / 1440 ≤ (m2 : ℚ) / 1440 :=
    div_le_div_of_nonneg_right (by exact_mod_cast hm) (by norm_num)
  have a3 : s / 86400 ≤ s2 / 86400 := div_le_div_of_nonneg_right hs (by norm_num)
  have a4 : o / 24 ≤ o2 / 24 := div_le_div_of_nonneg_right ho (by norm_num)
  exact round_mono (add_le_add (round_mono (add_le_add (round_mono
    (add_le_add (round_mono a1) (round_mono a2))) (round_mono a3))) (round_mono a4))

theorem binary64_lt_iff_lex (a b : DateAndTime) :
    Binary64.lt a b = true ↔
      (a.theYear < b.theYear
        ∨ (a.theYear = b.theYear ∧ a.theMonth < b.theMonth)
        ∨ (a.theYear = b.theYear ∧ a.theMonth = b.theMonth ∧ a.theDay < b.theDay)
        ∨ (a.theYear = b.theYear ∧ a.theMonth = b.theMonth ∧ a.theDay = b.theDay
            ∧ Binary64.getDayFraction a < Binary64.getDayFraction b)) := by
  unfold Binary64.lt
  split_ifs with h1 h2 h3 h4 h5 h6 h7
  · simp [h1]
  · have : ¬ a.theYear = b.theYear := by omega
    simp [h1, this]
  · have : a.theYear = b.theYear := by omega
    simp [this, h3]
  · have e1 : a.theYear = b.theYear := by omega
    have e2 : ¬ a.theMonth = b.theMonth := by omega
    simp [e1, h3, e2]
  · have e1 : a.theYear = b.theYear := by omega
    have e2 : a.theMonth = b.theMonth := by omega
    simp [e1, e2, h5]
  · have e1 : a.theYear = b.theYear := by omega
    have e2 : a.theMonth = b.theMonth := by omega
    have e3 : ¬ a.theDay = b.theDay := by omega
    simp [e1, e2, e3, h5]
  · have e1 : a.theYear = b.theYear := by omega
    have e2 : a.theMonth = b.theMonth := by omega
    have e3 : a.theDay = b.theDay := by omega
    simp [e1, e2, e3, h7]
  · have e1 : a.theYear = b.theYear := by omega
    have e2 : a.theMonth = b.theMonth := by omega
    have e3 : a.theDay = b.theDay := by omega
    simp [e1, e2, e3, h7]

/-- C28, counterexample. At 1985-02-17 12:00:00 the UTC offsets 1 and `1 + 2^-52`
(two adjacent binary64 numbers) give the same day fraction in binary64, so the
first offset is less than the second but `a < b` is false; in exact arithmetic
the day fractions differ and `a < b` is true. -/
theorem lt_equal_rounded_fractions :
    (1 : ℚ) < 1 + Binary64.pow2 (-52)
    ∧ Binary64.round (1 + Binary64.pow2 (-52)) = 1 + Binary64.pow2 (-52)
    ∧ Binary64.getDayFraction ⟨1985, 2, 17, 12, 0, 0, 1⟩
        = Binary64.getDayFraction ⟨1985, 2, 17, 12, 0, 0, 1 + Binary64.pow2 (-52)⟩
    ∧ Binary64.lt ⟨1985, 2, 17, 12, 0, 0, 1⟩ ⟨1985, 2, 17, 12, 0, 0, 1 + Binary64.pow2 (-52)⟩
        = false
    ∧ DateAndTime.lt ⟨1985, 2, 17, 12, 0, 0, 1⟩ ⟨1985, 2, 17, 12, 0, 0, 1 + Binary64.pow2 (-52)⟩
        = true := by
  decide!

/-- C28, amended. `operator<` is lexicographic on (year, month, day, day
fraction as `getDayFraction` computes it in binary64); hence for a fixed date,
hour, minute and second, `a < b` holds only if the UTC offset of `a` is less
than that of `b`.  In exact arithmetic `operator<` is lexicographic on (year,
month, day, exact day fraction), and for a fixed date, hour, minute and second
`a < b` holds exactly when the UTC offset of `a` is less than that of `b`. -/
theorem lt_lexicographic_rounded (a b : DateAndTime) (y mo d h mi : ℤ) (s o1 o2 : ℚ) :
    ((Binary64.lt a b = true ↔
        (a.theYear < b.theYear
          ∨ (a.theYear = b.theYear ∧ a.theMonth < b.theMonth)
          ∨ (a.theYear = b.theYear ∧ a.theMonth = b.theMonth ∧ a.theDay < b.theDay)
          ∨ (a.theYear = b.theYear ∧ a.theMonth = b.theMonth ∧ a.theDay = b.theDay
              ∧ Binary64.getDayFraction a < Binary64.getDayFraction b)))
      ∧ (Binary64.lt ⟨y, mo, d, h, mi, s, o1⟩ ⟨y, mo, d, h, mi, s, o2⟩ = true → o1 < o2))
    ∧ ((DateAndTime.lt a b = true ↔
        (a.theYear < b.theYear
          ∨ (a.theYear = b.theYear ∧ a.theMonth < b.theMonth)
          ∨ (a.theYear = b.theYear ∧ a.theMonth = b.theMonth ∧ a.theDay < b.theDay)
          ∨ (a.theYear = b.theYear ∧ a.theMonth = b.theMonth ∧ a.theDay = b.theDay
              ∧ a.getDayFraction < b.getDayFraction)))
      ∧ (DateAndTime.lt ⟨y, mo, d, h, mi, s, o1⟩ ⟨y, mo, d, h, mi, s, o2⟩ = true
          ↔ o1 < o2)) := by
  refine ⟨⟨binary64_lt_iff_lex a b, ?_⟩, ⟨lt_iff_lex a b, ?_⟩⟩
  · intro hlt
    rw [binary64_lt_iff_lex] at hlt
    simp only [lt_self_iff_false, false_and, and_false, true_and, false_or] at hlt
    by_contra hcon
    have := binary64_getDayFraction_mono y mo d h mi y mo d h mi s o2 s o1 le_rfl le_rfl le_rfl
      (not_lt.mp hcon)
    linarith
  · rw [lt_iff_lex]
    have key : DateAndTime.getDayFraction ⟨y, mo, d, h, mi, s, o1⟩
          < DateAndTime.getDayFraction ⟨y, mo, d, h, mi, s, o2⟩ ↔ o1 < o2 := by
      rw [getDayFraction_eq, getDayFraction_eq]
      dsimp only
      constructor <;> intro hlt <;> linarith
    simp only [lt_self_iff_false, false_and, and_false, true_and, false_or, key]

/-- C28, witness: 1985-02-17 07:00:00 at the UTC offsets 0 and 1. -/
theorem lt_lexicographic_rounded_witness :
    Binary64.lt ⟨1985, 2, 17, 7, 0, 0, 0⟩ ⟨1985, 2, 17, 7, 0, 0, 1⟩ = true
    ∧ (0 : ℚ) < 1
    ∧ DateAndTime.lt ⟨1985, 2, 17, 7, 0, 0, 0⟩ ⟨1985, 2, 17, 7, 0, 0, 1⟩ = true :=
  ⟨by decide!,
    (lt_lexicographic_rounded ⟨1985, 2, 17, 7, 0, 0, 0⟩ ⟨1985, 2, 17, 7, 0, 0, 1⟩
      1985 2 17 7 0 0 0 1).1.2 (by decide!),
    (lt_lexicographic_rounded ⟨1985, 2, 17, 7, 0, 0, 0⟩ ⟨1985, 2, 17, 7, 0, 0, 1⟩
      1985 2 17 7 0 0 0 1).2.2.mpr (by norm_num)⟩

/-- C32, counterexample. 06:00:00 at UTC offset -12.0 has every field in its
documented range and the day fraction -0.25, which is negative; 23:59:60 at
offset 12.0 has the day fraction 1.5; the values are the same in binary64 and
in exact arithmetic.  In binary64 23:59:59.999999999999 at offset 0 has the day
fraction 1. -/
theorem getDayFraction_out_of_unit_interval :
    (Binary64.getDayFraction ⟨1985, 2, 17, 6, 0, 0, -12.0⟩ = -0.25
      ∧ ¬ (0 ≤ Binary64.getDayFraction ⟨1985, 2, 17, 6, 0, 0, -12.0⟩)
      ∧ Binary64.getDayFraction ⟨1985, 2, 17, 23, 59, 60, 12.0⟩ = 1.5
      ∧ ¬ (Binary64.getDayFraction ⟨1985, 2, 17, 23, 59, 60, 12.0⟩ < 1)
      ∧ Binary64.round 59.999999999999 < 60
      ∧ Binary64.getDayFraction ⟨1985, 2, 17, 23, 59, Binary64.round 59.999999999999, 0⟩ = 1)
    ∧ (DateAndTime.getDayFraction ⟨1985, 2, 17, 6, 0, 0, -12.0⟩ = -0.25
      ∧ ¬ (0 ≤ DateAndTime.getDayFraction ⟨1985, 2, 17, 6, 0, 0, -12.0⟩)
      ∧ DateAndTime.getDayFraction ⟨1985, 2, 17, 23, 59, 60, 12.0⟩ = 1.5
      ∧ ¬ (DateAndTime.getDayFraction ⟨1985, 2, 17, 23, 59, 60, 12.0⟩ < 1)) := by
  decide!

/-- C32, amended. For every `DateAndTime` whose fields are in their documented
ranges (hours 0..23, minutes 0..59, seconds 0..60, UTC offset -12.0..12.0) the
day fraction lies in `[-0.5, 1.5]`, and when the UTC offset is 0 it lies in
`[0, 1]`, in binary64 as in exact arithmetic; in exact arithmetic it is less
than 1 when moreover seconds is less than 60. -/
theorem getDayFraction_range_rounded (t : DateAndTime)
    (hh0 : 0 ≤ t.theHours) (hh23 : t.theHours ≤ 23)
    (hm0 : 0 ≤ t.theMinutes) (hm59 : t.theMinutes ≤ 59)
    (hs0 : 0 ≤ t.theSeconds) (hs60 : t.theSeconds ≤ 60)
    (ho0 : -12.0 ≤ t.theUTC_OffsetHours) (ho12 : t.theUTC_OffsetHours ≤ 12.0) :
    (-0.5 ≤ Binary64.getDayFraction t ∧ Binary64.getDayFraction t ≤ 1.5
      ∧ (t.theUTC_OffsetHours = 0 →
          0 ≤ Binary64.getDayFraction t ∧ Binary64.getDayFraction t ≤ 1))
    ∧ (-0.5 ≤ t.getDayFraction ∧ t.getDayFraction ≤ 1.5
      ∧ (t.theUTC_OffsetHours = 0 → 0 ≤ t.getDayFraction ∧ t.getDayFraction ≤ 1)
      ∧ (t.theUTC_OffsetHours = 0 → t.theSeconds < 60 → t.getDayFraction < 1)) := by
  obtain ⟨y, mo, d, h, m, s, o⟩ := t
  dsimp only at hh0 hh23 hm0 hm59 hs0 hs60 ho0 ho12 ⊢
  have e1 : Binary64.getDayFraction ⟨0, 0, 0, 0, 0, 0, -12.0⟩ = -0.5 := by decide!
  have e2 : Binary64.getDayFraction ⟨0, 0, 0, 23, 59, 60, 12.0⟩ = 1.5 := by decide!
  have e3 : Binary64.getDayFraction ⟨0, 0, 0, 0, 0, 0, 0⟩ = 0 := by decide!
  have e4 : Binary64.getDayFraction ⟨0, 0, 0, 23, 59, 60, 0⟩ = 1 := by decide!
  refine ⟨⟨?_, ?_, ?_⟩, ?_⟩
  · have k := binary64_getDayFraction_mono 0 0 0 0 0 y mo d h m 0 (-12.0) s o hh0 hm0 hs0 ho0
    rw [e1] at k
    exact k
  · have k := binary64_getDayFraction_mono y mo d h m 0 0 0 23 59 s o 60 12.0 hh23 hm59 hs60 ho12
    rw [e2] at k
    exact k
  · intro ho
    subst ho
    constructor
    · have k := binary64_getDayFraction_mono 0 0 0 0 0 y mo d h m 0 0 s 0 hh0 hm0 hs0 le_rfl
      rw [e3] at k
      exact k
    · have k := binary64_getDayFraction_mono y mo d h m 0 0 0 23 59 s 0 60 0 hh23 hm59 hs60 le_rfl
      rw [e4] at k
      exact k
  · rw [getDayFraction_eq]
    dsimp only
    have a1 : (0 : ℚ) ≤ (h : ℚ) := by exact_mod_cast hh0
    have a2 : (h : ℚ) ≤ 23 := by exact_mod_cast hh23
    have a3 : (0 : ℚ) ≤ (m : ℚ) := by exact_mod_cast hm0
    have a4 : (m : ℚ) ≤ 59 := by exact_mod_cast hm59
    norm_num at ho0 ho12 ⊢
    refine ⟨by linarith, by linarith, ?_, ?_⟩
    · intro ho
      rw [ho]
      constructor <;> linarith
    · intro ho hs
      rw [ho]
      linarith

/-- C32, witness: 1985-02-17 06:00:00 at UTC offset 0. -/
theorem getDayFraction_range_rounded_witness :
    (-0.5 ≤ Binary64.getDayFraction ⟨1985, 2, 17, 6, 0, 0, 0⟩
      ∧ Binary64.getDayFraction ⟨1985, 2, 17, 6, 0, 0, 0⟩ ≤ 1.5
      ∧ ((0 : ℚ) = 0 →
          0 ≤ Binary64.getDayFraction ⟨1985, 2, 17, 6, 0, 0, 0⟩
          ∧ Binary64.getDayFraction ⟨1985, 2, 17, 6, 0, 0, 0⟩ ≤ 1))
    ∧ (-0.5 ≤ DateAndTime.getDayFraction ⟨1985, 2, 17, 6, 0, 0, 0⟩
      ∧ DateAndTime.getDayFraction ⟨1985, 2, 17, 6, 0, 0, 0⟩ ≤ 1.5
      ∧ ((0 : ℚ) = 0 →
          0 ≤ DateAndTime.getDayFraction ⟨1985, 2, 17, 6, 0, 0, 0⟩
          ∧ DateAndTime.getDayFraction ⟨1985, 2, 17, 6, 0, 0, 0⟩ ≤ 1)
      ∧ ((0 : ℚ) = 0 → (0 : ℚ) < 60 →
          DateAndTime.getDayFraction ⟨1985, 2, 17, 6, 0, 0, 0⟩ < 1)) :=
  getDayFraction_range_rounded ⟨1985, 2, 17, 6, 0, 0, 0⟩ (by decide) (by decide) (by decide)
    (by decide) (by decide!) (by decide!) (by decide!) (by decide!)

/-! ### Binary64 numbers and their fractional parts -/

/-- Every rounded value is `n * 2^e` with `|n| ≤ 2^53` and `e ≥ -1074`. -/
theorem round_repr (y : ℚ) :
    ∃ n e : ℤ, Binary64.round y = (n : ℚ) * (2 : ℚ) ^ e ∧ |n| ≤ 2 ^ 53 ∧ -1074 ≤ e := by
  rcases eq_or_ne y 0 with h0 | h0
  · exact ⟨0, 0, by rw [h0, round_zero]; simp, by norm_num, by norm_num⟩
  obtain ⟨s1, s2⟩ := ilog2_spec y h0
  have hQ : Binary64.quantum y = max (Binary64.ilog2 y - 52) (-1074) := rfl
  refine ⟨Binary64.roundHalfEven (y / (2 : ℚ) ^ Binary64.quantum y), Binary64.quantum y,
    round_eq y, ?_, quantum_ge y⟩
  generalize Binary64.quantum y = Q at *
  generalize Binary64.ilog2 y = L at *
  have hLQ : L + 1 - Q ≤ 53 := by omega
  have hb : |y| / (2 : ℚ) ^ Q ≤ (((2 : ℤ) ^ 53 : ℤ) : ℚ) := by
    rw [div_le_iff₀ (two_zpow_pos _)]
    have e1 : (((2 : ℤ) ^ 53 : ℤ) : ℚ) = (2 : ℚ) ^ (53 : ℤ) := by norm_num
    rw [e1, ← zpow_add₀ (by norm_num)]
    exact le_trans s2.le (two_zpow_le (by omega))
  have habs : |y / (2 : ℚ) ^ Q| = |y| / (2 : ℚ) ^ Q := by
    rw [abs_div, abs_of_pos (two_zpow_pos Q)]
  rw [← habs] at hb
  obtain ⟨hb1, hb2⟩ := abs_le.mp hb
  rw [abs_le]
  constructor
  · have : (((-(2 : ℤ) ^ 53 : ℤ)) : ℚ) ≤ y / (2 : ℚ) ^ Q := by
      push_cast
      push_cast at hb1
      exact hb1
    exact le_roundHalfEven_of_le this
  · exact roundHalfEven_le_of_le hb2

theorem round_idem (y : ℚ) : Binary64.round (Binary64.round y) = Binary64.round y := by
  obtain ⟨n, e, h, hn, he⟩ := round_repr y
  rw [h, round_of_scaled n e hn he]

/-- Subtracting an integer that leaves less than 1 and does not increase the
magnitude is exact in binary64, and the difference is at most `1 - 2^-53`
in magnitude. -/
theorem sub_int_exact (n e t : ℤ) (hn : |n| ≤ 2 ^ 53) (he : -1074 ≤ e)
    (h1 : |(n : ℚ) * (2 : ℚ) ^ e - (t : ℚ)| < 1)
    (h2 : |(n : ℚ) * (2 : ℚ) ^ e - (t : ℚ)| ≤ |(n : ℚ) * (2 : ℚ) ^ e|) :
    Binary64.round ((n : ℚ) * (2 : ℚ) ^ e - (t : ℚ)) = (n : ℚ) * (2 : ℚ) ^ e - (t : ℚ)
    ∧ |(n : ℚ) * (2 : ℚ) ^ e - (t : ℚ)| ≤ 1 - 1 / 9007199254740992 := by
  have e53 : (2 : ℚ) ^ (-53 : ℤ) = 1 / 9007199254740992 := by norm_num
  rcases le_or_lt 0 e with hpos | hneg
  · -- the number is an integer, so the difference is 0
    have hz : (n : ℚ) * (2 : ℚ) ^ e - (t : ℚ) = ((n * (2 : ℤ) ^ e.toNat - t : ℤ) : ℚ) := by
      rw [two_zpow_intCast hpos]
      push_cast
      ring
    rw [hz] at h1 ⊢
    have h3 : |n * (2 : ℤ) ^ e.toNat - t| < 1 := by exact_mod_cast h1
    have h4 : n * (2 : ℤ) ^ e.toNat - t = 0 := by
      have := abs_lt.mp h3
      omega
    rw [h4, Int.cast_zero, round_zero, abs_zero]
    exact ⟨rfl, by norm_num⟩
  · have hp : 0 ≤ -e := by omega
    have hpw := two_zpow_pos e
    have hpow : (((2 : ℤ) ^ (-e).toNat : ℤ) : ℚ) = (2 : ℚ) ^ (-e) := (two_zpow_intCast hp).symm
    have hk : (n : ℚ) * (2 : ℚ) ^ e - (t : ℚ)
        = ((n - t * (2 : ℤ) ^ (-e).toNat : ℤ) : ℚ) * (2 : ℚ) ^ e := by
      rw [Int.cast_sub, Int.cast_mul, hpow, sub_mul, mul_assoc, ← zpow_add₀ (by norm_num),
        neg_add_cancel, zpow_zero, mul_one]
    generalize n - t * (2 : ℤ) ^ (-e).toNat = k at hk
    rw [hk] at h1 h2 ⊢
    have a1 : |(k : ℚ) * (2 : ℚ) ^ e| = ((|k| : ℤ) : ℚ) * (2 : ℚ) ^ e := by
      rw [abs_mul, abs_of_pos hpw, Int.cast_abs]
    have a2 : |(n : ℚ) * (2 : ℚ) ^ e| = ((|n| : ℤ) : ℚ) * (2 : ℚ) ^ e := by
      rw [abs_mul, abs_of_pos hpw, Int.cast_abs]
    rw [a1] at h1
    rw [a1, a2] at h2
    have hkn : |k| ≤ |n| := by
      have := le_of_mul_le_mul_right h2 hpw
      exact_mod_cast this
    have hk53 : |k| ≤ 2 ^ 53 := le_trans hkn hn
    refine ⟨round_of_scaled k e hk53 he, ?_⟩
    rw [a1]
    rcases le_or_lt (-53) e with hbig | hsm
    · -- |k| < 2 ^ (-e), so |k| + 1 ≤ 2 ^ (-e)
      have h3 : ((|k| : ℤ) : ℚ) < (((2 : ℤ) ^ (-e).toNat : ℤ) : ℚ) := by
        rw [hpow, zpow_neg, ← one_div, lt_div_iff₀ hpw]
        exact h1
      have h4 : |k| + 1 ≤ (2 : ℤ) ^ (-e).toNat := by
        have : |k| < (2 : ℤ) ^ (-e).toNat := by exact_mod_cast h3
        omega
      have h5 : ((|k| : ℤ) : ℚ) + 1 ≤ (2 : ℚ) ^ (-e) := by
        rw [← hpow]
        exact_mod_cast h4
      have h6 : (((|k| : ℤ) : ℚ) + 1) * (2 : ℚ) ^ e ≤ 1 := by
        calc (((|k| : ℤ) : ℚ) + 1) * (2 : ℚ) ^ e ≤ (2 : ℚ) ^ (-e) * (2 : ℚ) ^ e :=
              mul_le_mul_of_nonneg_right h5 hpw.le
          _ = 1 := by rw [← zpow_add₀ (by norm_num), neg_add_cancel, zpow_zero]
      have h7 : (2 : ℚ) ^ (-53 : ℤ) ≤ (2 : ℚ) ^ e := two_zpow_le hbig
      rw [e53] at h7
      linarith
    · have h3 : ((|k| : ℤ) : ℚ) ≤ (2 : ℚ) ^ (53 : ℤ) := by
        have : ((|k| : ℤ) : ℚ) ≤ (((2 : ℤ) ^ 53 : ℤ) : ℚ) := by exact_mod_cast hk53
        rw [show (2 : ℚ) ^ (53 : ℤ) = (((2 : ℤ) ^ 53 : ℤ) : ℚ) by norm_num]
        exact this
      have h4 : (2 : ℚ) ^ e ≤ (2 : ℚ) ^ (-54 : ℤ) := two_zpow_le (by omega)
      have h5 : ((|k| : ℤ) : ℚ) * (2 : ℚ) ^ e ≤ (2 : ℚ) ^ (53 : ℤ) * (2 : ℚ) ^ (-54 : ℤ) :=
        mul_le_mul h3 h4 hpw.le (two_zpow_pos _).le
      have h6 : (2 : ℚ) ^ (53 : ℤ) * (2 : ℚ) ^ (-54 : ℤ) = 1 / 2 := by norm_num
      rw [h6] at h5
      have : (1 : ℚ) / 2 ≤ 1 - 1 / 9007199254740992 := by norm_num
      linarith

/-- The part of a binary64 number that `std::trunc` cuts off is computed
exactly, and its magnitude is at most `1 - 2^-53`. -/
theorem sub_toInt_exact (x : ℚ) (hx : Binary64.round x = x) :
    Binary64.round (x - (toInt x : ℚ)) = x - (toInt x : ℚ)
    ∧ |x - (toInt x : ℚ)| ≤ 1 - 1 / 9007199254740992 := by
  obtain ⟨n, e, h, hn, he⟩ := round_repr x
  rw [hx] at h
  have hb : |x - (toInt x : ℚ)| < 1 ∧ |x - (toInt x : ℚ)| ≤ |x| := by
    rcases le_total 0 x with h0 | h0
    · obtain ⟨b1, b2, b3⟩ := toInt_bounds_of_nonneg h0
      have b4 : (0 : ℚ) ≤ (toInt x : ℚ) := by exact_mod_cast b1
      rw [abs_of_nonneg b2, abs_of_nonneg h0]
      exact ⟨b3, by linarith⟩
    · obtain ⟨b1, b2, b3⟩ := toInt_bounds_of_nonpos h0
      have b4 : (toInt x : ℚ) ≤ 0 := by exact_mod_cast b1
      rw [abs_of_nonpos b3, abs_of_nonpos h0]
      exact ⟨by linarith, by linarith⟩
  rw [h] at hb ⊢
  generalize toInt ((n : ℚ) * (2 : ℚ) ^ e) = t at *
  exact sub_int_exact n e t hn he hb.1 hb.2

/-! ### calculateHoursMinutesAndSeconds in binary64 -/

theorem binary64_hms_eq (x : ℚ) :
    Binary64.calculateHoursMinutesAndSeconds x
      = (toInt x,
          toInt (Binary64.round (60 * Binary64.round (x - (toInt x : ℚ)))),
          Binary64.round (60 * Binary64.round
            (Binary64.round (60 * Binary64.round (x - (toInt x : ℚ)))
              - (toInt (Binary64.round (60 * Binary64.round (x - (toInt x : ℚ)))) : ℚ)))) := by
  unfold Binary64.calculateHoursMinutesAndSeconds trunc SPA_MINUTES_IN_HOUR
    SPA_SECONDS_IN_MINUTE
  simp only [toInt_intCast]
  push_cast
  rfl

/-- Sixty times a fraction of magnitude at most `1 - 2^-53` rounds to a
magnitude of at most `60 - 2^-47`. -/
theorem round_sixty_bound (f : ℚ) (hf : |f| ≤ 1 - 1 / 9007199254740992) :
    |Binary64.round (60 * f)| ≤ 60 - 1 / 140737488355328 := by
  have e : Binary64.round (60 * (1 - 1 / 9007199254740992)) = 60 - 1 / 140737488355328 := by
    decide!
  obtain ⟨f1, f2⟩ := abs_le.mp hf
  rw [abs_le]
  constructor
  · have h := round_mono (show -(60 * (1 - 1 / 9007199254740992)) ≤ 60 * f by linarith)
    rw [round_neg, e] at h
    exact h
  · have h := round_mono (show 60 * f ≤ 60 * (1 - 1 / 9007199254740992) by linarith)
    rw [e] at h
    exact h

/-- C21, counterexample. For the binary64 number nearest to 1/3 the product
`60*(x - hours)` is `20 - 2^-50` in exact arithmetic and rounds to 20: the code
returns (0, 20, 0), while `60*(x - hours)` truncated toward zero is 19. -/
theorem calculateHoursMinutesAndSeconds_rounds_minutes :
    Binary64.round (1 / 3) = 6004799503160661 / 18014398509481984
    ∧ Binary64.calculateHoursMinutesAndSeconds (Binary64.round (1 / 3)) = (0, 20, 0)
    ∧ toInt (60 * (Binary64.round (1 / 3)
        - ((Binary64.calculateHoursMinutesAndSeconds (Binary64.round (1 / 3))).1 : ℚ))) = 19
    ∧ (Binary64.calculateHoursMinutesAndSeconds (Binary64.round (1 / 3))).2.1
        ≠ toInt (60 * (Binary64.round (1 / 3)
            - ((Binary64.calculateHoursMinutesAndSeconds (Binary64.round (1 / 3))).1 : ℚ))) := by
  decide!

/-- C21, amended. `calculateHoursMinutesAndSeconds` truncates toward zero and
yields a sign-consistent triple.  In binary64, for every binary64 number `x`:
hours is `x` truncated, minutes is the truncation of `60*(x - hours)` rounded
to binary64, of absolute value at most 59, the absolute value of seconds is
less than 60, for `x ≤ 0` none of the three is positive and for `x ≥ 0` none is
negative; -5.11 gives hours -5, minutes -6 and seconds within `10^-9` of -36.
In exact arithmetic minutes is `60*(x - hours)` truncated, with the same bounds
and signs, and -5.11 gives (-5, -6, -36). -/
theorem calculateHoursMinutesAndSeconds_rounded (x : ℚ) :
    (Binary64.round x = x →
      (Binary64.calculateHoursMinutesAndSeconds x).1 = toInt x
      ∧ (Binary64.calculateHoursMinutesAndSeconds x).2.1
          = toInt (Binary64.round
              (60 * (x - ((Binary64.calculateHoursMinutesAndSeconds x).1 : ℚ))))
      ∧ |(Binary64.calculateHoursMinutesAndSeconds x).2.1| ≤ 59
      ∧ |(Binary64.calculateHoursMinutesAndSeconds x).2.2| < 60
      ∧ (x ≤ 0 → (Binary64.calculateHoursMinutesAndSeconds x).1 ≤ 0
          ∧ (Binary64.calculateHoursMinutesAndSeconds x).2.1 ≤ 0
          ∧ (Binary64.calculateHoursMinutesAndSeconds x).2.2 ≤ 0)
      ∧ (0 ≤ x → 0 ≤ (Binary64.calculateHoursMinutesAndSeconds x).1
          ∧ 0 ≤ (Binary64.calculateHoursMinutesAndSeconds x).2.1
          ∧ 0 ≤ (Binary64.calculateHoursMinutesAndSeconds x).2.2)
      ∧ (Binary64.calculateHoursMinutesAndSeconds (Binary64.round (-5.11))).1 = -5
      ∧ (Binary64.calculateHoursMinutesAndSeconds (Binary64.round (-5.11))).2.1 = -6
      ∧ |(Binary64.calculateHoursMinutesAndSeconds (Binary64.round (-5.11))).2.2 + 36|
          < 1 / 1000000000)
    ∧ ((TIME_UTIL.calculateHoursMinutesAndSeconds x).1 = toInt x
      ∧ (TIME_UTIL.calculateHoursMinutesAndSeconds x).2.1
          = toInt (60 * (x - ((TIME_UTIL.calculateHoursMinutesAndSeconds x).1 : ℚ)))
      ∧ |(TIME_UTIL.calculateHoursMinutesAndSeconds x).2.1| ≤ 59
      ∧ |(TIME_UTIL.calculateHoursMinutesAndSeconds x).2.2| < 60
      ∧ (x ≤ 0 → (TIME_UTIL.calculateHoursMinutesAndSeconds x).1 ≤ 0
          ∧ (TIME_UTIL.calculateHoursMinutesAndSeconds x).2.1 ≤ 0
          ∧ (TIME_UTIL.calculateHoursMinutesAndSeconds x).2.2 ≤ 0)
      ∧ (0 ≤ x → 0 ≤ (TIME_UTIL.calculateHoursMinutesAndSeconds x).1
          ∧ 0 ≤ (TIME_UTIL.calculateHoursMinutesAndSeconds x).2.1
          ∧ 0 ≤ (TIME_UTIL.calculateHoursMinutesAndSeconds x).2.2)
      ∧ TIME_UTIL.calculateHoursMinutesAndSeconds (-5.11) = (-5, -6, -36)) := by
  refine ⟨?_, calculateHoursMinutesAndSeconds_exact x⟩
  intro hx
  obtain ⟨r1, r2⟩ := sub_toInt_exact x hx
  have hM := round_sixty_bound _ r2
  have hMi := round_idem (60 * (x - (toInt x : ℚ)))
  obtain ⟨r3, r4⟩ := sub_toInt_exact _ hMi
  have hS := round_sixty_bound _ r4
  have hex : (Binary64.calculateHoursMinutesAndSeconds (Binary64.round (-5.11))).1 = -5
      ∧ (Binary64.calculateHoursMinutesAndSeconds (Binary64.round (-5.11))).2.1 = -6
      ∧ |(Binary64.calculateHoursMinutesAndSeconds (Binary64.round (-5.11))).2.2 + 36|
          < 1 / 1000000000 := by
    decide!
  rw [binary64_hms_eq]
  dsimp only
  rw [r1, r3]
  generalize hMdef : Binary64.round (60 * (x - (toInt x : ℚ))) = M at *
  generalize hSdef : Binary64.round (60 * (M - (toInt M : ℚ))) = S at *
  obtain ⟨m1, m2⟩ := abs_le.mp hM
  obtain ⟨s1, s2⟩ := abs_le.mp hS
  have hm59 : |toInt M| ≤ 59 := by
    rw [abs_le]
    rcases le_total 0 M with h0 | h0
    · obtain ⟨b1, b2, b3⟩ := toInt_bounds_of_nonneg h0
      have : ((toInt M : ℤ) : ℚ) < ((60 : ℤ) : ℚ) := by push_cast; linarith
      have : toInt M < 60 := by exact_mod_cast this
      constructor <;> omega
    · obtain ⟨b1, b2, b3⟩ := toInt_bounds_of_nonpos h0
      have : ((-60 : ℤ) : ℚ) < ((toInt M : ℤ) : ℚ) := by push_cast; linarith
      have : -60 < toInt M := by exact_mod_cast this
      constructor <;> omega
  have hs60 : |S| < 60 := by
    rw [abs_lt]
    constructor <;> linarith
  refine ⟨rfl, rfl, hm59, hs60, ?_, ?_, hex⟩
  · intro h0
    obtain ⟨b1, b2, b3⟩ := toInt_bounds_of_nonpos h0
    have hM0 : M ≤ 0 := by
      rw [← hMdef]
      exact round_nonpos (by linarith)
    obtain ⟨c1, c2, c3⟩ := toInt_bounds_of_nonpos hM0
    refine ⟨b1, c1, ?_⟩
    rw [← hSdef]
    exact round_nonpos (by linarith)
  · intro h0
    obtain ⟨b1, b2, b3⟩ := toInt_bounds_of_nonneg h0
    have hM0 : 0 ≤ M := by
      rw [← hMdef]
      exact round_nonneg (by linarith)
    obtain ⟨c1, c2, c3⟩ := toInt_bounds_of_nonneg hM0
    refine ⟨b1, c1, ?_⟩
    rw [← hSdef]
    exact round_nonneg (by linarith)

/-- C21, witness: the binary64 number nearest to 1/3. -/
theorem calculateHoursMinutesAndSeconds_rounded_witness :
    Binary64.round (Binary64.round (1 / 3)) = Binary64.round (1 / 3)
    ∧ (Binary64.calculateHoursMinutesAndSeconds (Binary64.round (1 / 3))).2.1
        = toInt (Binary64.round (60 * (Binary64.round (1 / 3)
            - ((Binary64.calculateHoursMinutesAndSeconds (Binary64.round (1 / 3))).1 : ℚ))))
    ∧ (Binary64.calculateHoursMinutesAndSeconds (Binary64.round (1 / 3))).2.1 = 20
    ∧ (TIME_UTIL.calculateHoursMinutesAndSeconds (Binary64.round (1 / 3))).2.1 = 19 :=
  ⟨round_idem _,
    ((calculateHoursMinutesAndSeconds_rounded (Binary64.round (1 / 3))).1 (round_idem _)).2.1,
    by decide!, by decide!⟩

/-! ### The civil-to-Julian-Date conversion in binary64 -/

theorem binary64_c_const_eq (y : ℤ) (h0 : 0 ≤ y) (h1 : y < 2 ^ 31) :
    Binary64.c_const y = ⌊(365.25 : ℚ) * (y : ℚ)⌋ := by
  have e : (365.25 : ℚ) * (y : ℚ) = ((1461 * y : ℤ) : ℚ) * (2 : ℚ) ^ (-2 : ℤ) := by
    push_cast
    norm_num
    ring
  have hr : Binary64.round ((365.25 : ℚ) * (y : ℚ)) = (365.25 : ℚ) * (y : ℚ) := by
    rw [e]
    apply round_of_scaled _ _ _ (by norm_num)
    rw [abs_of_nonneg (by omega)]
    norm_num at h1 ⊢
    omega
  have hq : (0 : ℚ) ≤ (365.25 : ℚ) * (y : ℚ) := by
    have : (0 : ℚ) ≤ (y : ℚ) := by exact_mod_cast h0
    positivity
  unfold Binary64.c_const SPA_DAYS_IN_JULIAN_YEAR
  dsimp only
  rw [if_neg (by omega), hr, toInt_of_nonneg hq]

theorem binary64_d_const_eq (m : ℤ) (h3 : 3 ≤ m) (h14 : m ≤ 14) :
    Binary64.d_const m = ⌊(30.6 : ℚ) * ((m : ℚ) + 1)⌋ := by
  interval_cases m <;> decide!

theorem binary64_getDayFraction_shiftMonth (d : DateAndTime) :
    Binary64.getDayFraction (JulianDate.shiftMonth d) = Binary64.getDayFraction d := by
  unfold JulianDate.shiftMonth
  split_ifs <;> rfl

/-- C1, counterexample. 1582-10-15 05:30:00 at UTC offset -5.5 has month 10 and
shifted year 1582 and lies on the boundary: its exact day fraction is 0, so the
formula of the claim takes `b = 0` and gives 2299170.5.  In binary64 its day
fraction is `2^-55`, the date compares greater than 1582-10-15 00:00:00, and
the conversion returns 2299160.5. -/
theorem convert_ne_spec_at_boundary :
    Binary64.round (-5.5) = -5.5
    ∧ DateAndTime.getDayFraction ⟨1582, 10, 15, 5, 30, 0, -5.5⟩ = 0
    ∧ DateAndTime.gt ⟨1582, 10, 15, 5, 30, 0, -5.5⟩ ⟨1582, 10, 15, 0, 0, 0, 0⟩ = false
    ∧ specJulianDate ⟨1582, 10, 15, 5, 30, 0, -5.5⟩ = 2299170.5
    ∧ Binary64.getDayFraction ⟨1582, 10, 15, 5, 30, 0, -5.5⟩ = Binary64.pow2 (-55)
    ∧ Binary64.gt ⟨1582, 10, 15, 5, 30, 0, -5.5⟩ ⟨1582, 10, 15, 0, 0, 0, 0⟩ = true
    ∧ Binary64.convertDateAndTimeToJulianDate ⟨1582, 10, 15, 5, 30, 0, -5.5⟩ = 2299160.5
    ∧ Binary64.convertDateAndTimeToJulianDate ⟨1582, 10, 15, 5, 30, 0, -5.5⟩
        ≠ specJulianDate ⟨1582, 10, 15, 5, 30, 0, -5.5⟩ := by
  decide!

/-- C1, amended. The civil-to-Julian-Date conversion equals the formula of the
specification, for every `DateAndTime` with month in 1..12 and shifted year
`y' ≥ 0`.  In binary64 (with `y' < 2^31`, as for every `int`) the decimal days
are `b + floor(365.25*y') + floor(30.6*(m'+1)) + day` plus the day fraction
plus 1720994.5, the two additions rounded, with the Gregorian term `b` used
when the unshifted date compares greater than 1582-10-15 00:00:00 by
`operator>` on the day fractions computed in binary64.  In exact arithmetic
the decimal days are the unrounded sum, with `b` used exactly when the date is
strictly after 1582-10-15 00:00:00. -/
theorem convert_eq_spec_rounded (d : DateAndTime) (hm1 : 1 ≤ d.theMonth)
    (hm12 : d.theMonth ≤ 12)
    (hy : 0 ≤ (if d.theMonth < 3 then d.theYear - 1 else d.theYear)) :
    ((if d.theMonth < 3 then d.theYear - 1 else d.theYear) < 2 ^ 31 →
      Binary64.convertDateAndTimeToJulianDate d = Binary64.specJulianDate d)
    ∧ (JulianDate.ofDateAndTime d).getDecimalDays = specJulianDate d := by
  refine ⟨?_, convert_eq_specJulianDate_exact d hm1 hm12 hy⟩
  intro hy31
  have hsy : (JulianDate.shiftMonth d).theYear
      = if d.theMonth < 3 then d.theYear - 1 else d.theYear := by
    unfold JulianDate.shiftMonth MAR
    split_ifs <;> rfl
  have hsm : (JulianDate.shiftMonth d).theMonth
      = if d.theMonth < 3 then d.theMonth + 12 else d.theMonth := by
    unfold JulianDate.shiftMonth MAR
    split_ifs <;> rfl
  have hsd : (JulianDate.shiftMonth d).theDay = d.theDay := by
    unfold JulianDate.shiftMonth
    split_ifs <;> rfl
  have hm3 : 3 ≤ (if d.theMonth < 3 then d.theMonth + 12 else d.theMonth)
      ∧ (if d.theMonth < 3 then d.theMonth + 12 else d.theMonth) ≤ 14 := by
    split_ifs <;> omega
  unfold Binary64.convertDateAndTimeToJulianDate Binary64.specJulianDate
  dsimp only
  rw [binary64_getDayFraction_shiftMonth, hsy, hsm, hsd]
  generalize (if d.theMonth < 3 then d.theYear - 1 else d.theYear) = y at *
  generalize (if d.theMonth < 3 then d.theMonth + 12 else d.theMonth) = m at *
  rw [binary64_c_const_eq y hy hy31, binary64_d_const_eq m hm3.1 hm3.2,
    b_const_of_nonneg _ hy, floor_div_hundred, floor_div_four]
  rfl

/-- C1, witness: the three dates checked by `testConstructors`. -/
theorem convert_eq_spec_rounded_witness :
    (Binary64.convertDateAndTimeToJulianDate ⟨1985, 2, 17, 6, 0, 0, 0⟩ = 2446113.75
      ∧ (JulianDate.ofDateAndTime ⟨1985, 2, 17, 6, 0, 0, 0⟩).getDecimalDays = 2446113.75)
    ∧ (Binary64.convertDateAndTimeToJulianDate ⟨2009, 6, 19, 18, 0, 0, 0⟩ = 2455002.25
      ∧ (JulianDate.ofDateAndTime ⟨2009, 6, 19, 18, 0, 0, 0⟩).getDecimalDays = 2455002.25)
    ∧ (Binary64.convertDateAndTimeToJulianDate ⟨1507, 3, 12, 12, 0, 0, 0⟩ = 2271560.0
      ∧ (JulianDate.ofDateAndTime ⟨1507, 3, 12, 12, 0, 0, 0⟩).getDecimalDays = 2271560.0) := by
  have h1 := convert_eq_spec_rounded ⟨1985, 2, 17, 6, 0, 0, 0⟩ (by decide) (by decide)
    (by decide)
  have h2 := convert_eq_spec_rounded ⟨2009, 6, 19, 18, 0, 0, 0⟩ (by decide) (by decide)
    (by decide)
  have h3 := convert_eq_spec_rounded ⟨1507, 3, 12, 12, 0, 0, 0⟩ (by decide) (by decide)
    (by decide)
  rw [h1.1 (by decide), h1.2, h2.1 (by decide), h2.2, h3.1 (by decide), h3.2]
  decide!

end SPA
